import Mathlib

/-!
# juCi++ `Source::ClangView` — a verification development for `src/juci/source.cc`

The file embeds the parts of `source.cc` that the specification talks about:

* the include-removal loop of the `ClangView` constructor (lines 148-161),
* the completion row map built by `on_key_release` (lines 510-531),
* the consumer-side re-extraction (`extract_tokens`, `update_syntax`,
  `update_types`, `update_diagnostics`, lines 303-416),
* the reparse coordinator (worker loop, `parse_start` / `parse_done` /
  `signal_changed` handlers, completion query and destructor, lines 170-284)
  as an interleaving step relation.

A `std::string` is a `List Char`, one element per `char` of the C++ string.
-/

set_option autoImplicit false

namespace Juci

/-! ## `std::string` primitives -/

/-- Search of `pat` in the suffix `s` of a string; `i` is the index of the first
element of `s` in the whole string. -/
def findFrom (pat : List Char) : List Char → Nat → Option Nat
  | [], i => if pat = [] then some i else none
  | c :: cs, i => if pat.isPrefixOf (c :: cs) then some i else findFrom pat cs (i + 1)

/-- The call `str.find(pat, pos)` of `std::string`: the first index `i ≥ pos` at which
`pat` occurs, `none` standing for `std::string::npos`. -/
def find (str pat : List Char) (pos : Nat) : Option Nat :=
  if str.length < pos then none else findFrom pat (str.drop pos) pos

/-- The call `str.replace(pos, n, n, ' ')`: `n` characters from `pos` on become spaces. -/
def replaceWithSpaces (str : List Char) (pos n : Nat) : List Char :=
  str.take pos ++ List.replicate n ' ' ++ str.drop (pos + n)

/-- The text `#include` searched for by the constructor. -/
def includeDirective : List Char := ['#', 'i', 'n', 'c', 'l', 'u', 'd', 'e']

/-! ## Include removal for the first parse (`ClangView::ClangView`, lines 148-161) -/

/-- One evaluation of the `while` loop of lines 152-161, started with the loop variable
`pos`; `fuel` bounds the number of iterations. -/
def removeIncludesLoop : Nat → List Char → Nat → List Char
  | 0, str, _ => str
  | fuel + 1, str, pos =>
    match find str includeDirective pos with
    | none => str
    | some start_pos =>
      match find str ['\n'] (start_pos + 8) with
      | none => str
      | some pos' =>
        let str' :=
          if start_pos = 0 ∨ str[start_pos - 1]? = some '\n' then
            replaceWithSpaces str start_pos (pos' - start_pos)
          else str
        removeIncludesLoop fuel str' (pos' + 1)

/-- The redacted buffer content handed to the first parse: the loop run from `pos = 0`.
Every iteration moves `pos` forward by at least nine, so `str.length + 1` iterations
are never used up (`removeIncludesLoop_fuel`). -/
def removeIncludes (str : List Char) : List Char :=
  removeIncludesLoop (str.length + 1) str 0

/-- Position `i` of `str` lies in a line that begins with `#include`. -/
def InIncludeLine (str : List Char) (i : Nat) : Prop :=
  ∃ start, start < i + 1 ∧ (start = 0 ∨ str[start - 1]? = some '\n') ∧
    includeDirective.isPrefixOf (str.drop start) = true ∧
    ∀ j, j < i + 1 → start ≤ j → str[j]? ≠ some '\n'

instance (str : List Char) (i : Nat) : Decidable (InIncludeLine str i) := by
  unfold InIncludeLine; infer_instance

/-- Invariant of the include-removal loop: `s` is the original content, `str` the
string being rewritten and `pos` the loop variable. -/
def RedactInv (s str : List Char) (pos : Nat) : Prop :=
  str.length = s.length ∧
  (∀ i, pos ≤ i + 1 → str[i]? = s[i]?) ∧
  (∀ i, str[i]? ≠ s[i]? → str[i]? = some ' ' ∧ InIncludeLine s i)

/-- The line of `str` that starts at `start` begins with `#include` and is terminated
by the newline at `q`. -/
def IncludeLine (str : List Char) (start q : Nat) : Prop :=
  (start = 0 ∨ str[start - 1]? = some '\n') ∧
  includeDirective.isPrefixOf (str.drop start) = true ∧
  start ≤ q ∧ str[q]? = some '\n' ∧
  ∀ j, start ≤ j → j < q → str[j]? ≠ some '\n'

/-- The positions from `start` up to `q` of `str` hold spaces. -/
def Blanked (str : List Char) (start q : Nat) : Prop :=
  ∀ i, start ≤ i → i < q → str[i]? = some ' '

/-! ## Completion rows (`on_key_release`, lines 510-531) -/

/-- Kinds of completion chunk that `on_key_release` tells apart: the constants
`clang::CompletionChunk_ResultType` and `clang::CompletionChunk_Informative`, and
every other kind. -/
inductive CompletionChunkKind where
  | CompletionChunk_ResultType
  | CompletionChunk_Informative
  | other (k : Nat)
  deriving DecidableEq, Repr

/-- A chunk of a completion result as delivered by the backend. -/
structure CompletionChunk where
  chunk : String
  kind : CompletionChunkKind
  deriving DecidableEq, Repr

/-- The struct `Source::AutoCompleteChunk`, copied from a backend chunk. -/
structure AutoCompleteChunk where
  chunk : String
  kind : CompletionChunkKind
  deriving DecidableEq, Repr

/-- The struct `Source::AutoCompleteData`: the chunks of one suggestion. -/
structure AutoCompleteData where
  chunks : List AutoCompleteChunk
  deriving DecidableEq, Repr

/-- The loop of `get_autocomplete_suggestions` (lines 272-279) over the results of the
backend's code-completion query: every result becomes one suggestion holding a copy of
each of its chunks. -/
def get_autocomplete_suggestions (results : List (List CompletionChunk)) :
    List AutoCompleteData :=
  results.map fun chunks_ => ⟨chunks_.map fun chunk => ⟨chunk.chunk, chunk.kind⟩⟩

/-- The assignment `m[key] = value` on a `std::map<std::string, std::string>`, kept as a
list of entries with strictly increasing keys: an existing entry is overwritten, a new
one is inserted at its place in key order. -/
def mapAssign : List (String × String) → String → String → List (String × String)
  | [], key, value => [(key, value)]
  | (k, v) :: rest, key, value =>
    if key = k then (key, value) :: rest
    else if key < k then (key, value) :: (k, v) :: rest
    else (k, v) :: mapAssign rest key value

/-- The inner loop of lines 516-524 over the chunks of one suggestion: the state is the
text streamed into `ss` and the variable `return_value`. -/
def scanChunks : List AutoCompleteChunk → String × String → String × String
  | [], acc => acc
  | chunk :: rest, (ss, return_value) =>
    match chunk.kind with
    | .CompletionChunk_ResultType => scanChunks rest (ss, chunk.chunk)
    | .CompletionChunk_Informative => scanChunks rest (ss, return_value)
    | .other _ => scanChunks rest (ss ++ chunk.chunk, return_value)

/-- The loop of lines 513-528 over the suggestions, started with the map `rows`. -/
def fillRows : List AutoCompleteData → List (String × String) → List (String × String)
  | [], rows => rows
  | data :: rest, rows =>
    let (ss, return_value) := scanChunks data.chunks ("", "")
    if ss.length > 0 then
      fillRows rest (mapAssign rows (ss ++ " --> " ++ return_value) ss)
    else fillRows rest rows

/-- The row map that `on_key_release` hands to the selection dialog (lines 512-531). -/
def completionRows (acdata : List AutoCompleteData) : List (String × String) :=
  let rows := fillRows acdata []
  if rows.isEmpty then mapAssign rows "No suggestions found..." "" else rows

/-- The insertable text of a suggestion: what lines 516-524 stream into `ss`. -/
def insertableText (data : AutoCompleteData) : String :=
  (scanChunks data.chunks ("", "")).1

/-- The result type of a suggestion: what lines 516-524 leave in `return_value`. -/
def returnValue (data : AutoCompleteData) : String :=
  (scanChunks data.chunks ("", "")).2

/-- The display text of a suggestion: the key that line 526 assigns to. -/
def displayText (data : AutoCompleteData) : String :=
  insertableText data ++ " --> " ++ returnValue data

/-- The suggestions that line 526 stores under the key `display`, in backend order. -/
def suggestionsFor (display : String) (acdata : List AutoCompleteData) :
    List AutoCompleteData :=
  acdata.filter fun data => decide (insertableText data ≠ "" ∧ displayText data = display)

/-- The keys of a row map are strictly increasing, as in a `std::map`. -/
def SortedKeys (rows : List (String × String)) : Prop :=
  rows.Pairwise fun a b => a.1 < b.1

/-- Two backend results with the same display text `a --> b --> ` and different
insertable texts, `a --> b` and then `a`. -/
def collidingResults : List (List CompletionChunk) :=
  [[⟨"a --> b", .other 1⟩],
   [⟨"b --> ", .CompletionChunk_ResultType⟩, ⟨"a", .other 1⟩]]

/-! ## Consumer-side re-extraction (lines 303-416, 441-471) -/

/-- The struct `Source::Location`: a line number and a column offset. -/
structure Location where
  line_number : Int
  column_offset : Int
  deriving DecidableEq, Repr

/-- The struct `Source::Range`: start and end location and the kind that chooses
the highlighting tag. -/
structure Range where
  start : Location
  end_ : Location
  kind : Int
  deriving DecidableEq, Repr

/-- What the backend reports for one token of the translation unit: the token kind,
the semantic type text, the token's own source range with its file and offsets, and
kind and extent of the cursor at the token's location. -/
structure Token where
  kind : Int
  type : String
  range_begin : Location
  range_end : Location
  path : String
  start_offset : Nat
  end_offset : Nat
  cursor_kind : Int
  cursor_begin : Location
  cursor_end : Location
  deriving DecidableEq, Repr

/-- A diagnostic as returned by `tu_->get_diagnostics()`. -/
structure Diagnostic where
  path : String
  severity : Nat
  severity_spelling : String
  spelling : String
  start_offset : Nat
  end_offset : Nat
  deriving DecidableEq, Repr

/-- The state of the backend translation unit `tu_` as far as the re-extraction reads
it: the token stream of the whole document and the diagnostics. -/
structure TranslationUnit where
  tokens : List Token
  diagnostics : List Diagnostic
  deriving DecidableEq, Repr

/-- The value of libclang's enumerator `CXDiagnostic_Warning`
(`Ignored = 0, Note = 1, Warning = 2, Error = 3, Fatal = 4`). -/
def CXDiagnostic_Warning : Nat := 2

/-- The fields of `Source::Config` read by the re-extraction: `types` maps the decimal
text of a kind to a tag name, `tags` maps a tag name to its foreground colour (the
constructor creates one buffer tag per entry). -/
structure Config where
  types : List (String × String)
  tags : List (String × String)
  deriving DecidableEq, Repr

/-- A tag applied to the buffer: a named syntax tag between two line/offset positions
(`apply_tag_by_name`, line 349) or an anonymous error-underline tag between two
offsets with its optional `underline-rgba` colour (`apply_tag`, line 387). -/
inductive AppliedTag where
  | named (name : String) (linum_start begin_ linum_end end_ : Int)
  | underline (rgba : Option String) (start end_ : Nat)
  deriving DecidableEq, Repr

/-- An entry of `type_tooltips`: the tooltip text and the marks it spans. -/
structure TypeTooltip where
  text : String
  start : Nat
  end_ : Nat
  deriving DecidableEq, Repr

/-- An entry of `diagnostic_tooltips`: the severity spelling, the tag it is inserted
with (the diagnostic's class), the rest of the text, and the marks it spans. -/
structure DiagnosticTooltip where
  severity_spelling : String
  diagnostic_tag_name : String
  text : String
  start : Nat
  end_ : Nat
  deriving DecidableEq, Repr

/-- The annotations a `ClangView` holds: the tags applied to its buffer and the two
tooltip lists. -/
structure Annotations where
  tags : List AppliedTag
  type_tooltips : List TypeTooltip
  diagnostic_tooltips : List DiagnosticTooltip
  deriving DecidableEq, Repr

/-- The function `highlight_cursor` (lines 441-456): appends the extent of the cursor
at the token, with the cursor's kind. -/
def highlight_cursor (token : Token) (source_ranges : List Range) : List Range :=
  source_ranges ++ [⟨token.cursor_begin, token.cursor_end, token.cursor_kind⟩]

/-- The function `highlight_token` (lines 457-471): appends the token's own range with
the given kind. -/
def highlight_token (token : Token) (source_ranges : List Range) (token_kind : Int) :
    List Range :=
  source_ranges ++ [⟨token.range_begin, token.range_end, token_kind⟩]

/-- The loop of `update_types` (lines 394-415), appending to `type_tooltips`. -/
def update_types_loop (file_path : String) : List Token → List TypeTooltip → List TypeTooltip
  | [], type_tooltips => type_tooltips
  | token :: rest, type_tooltips =>
    if token.type ≠ "" then
      if token.path = file_path then
        update_types_loop file_path rest
          (type_tooltips ++ [⟨"Type: " ++ token.type, token.start_offset, token.end_offset⟩])
      else update_types_loop file_path rest type_tooltips
    else update_types_loop file_path rest type_tooltips

/-- The function `update_types` (lines 392-416): clears `type_tooltips` and refills
it. -/
def update_types (file_path : String) (tokens : List Token) (a : Annotations) : Annotations :=
  { a with type_tooltips := update_types_loop file_path tokens [] }

/-- The `switch` loop of `extract_tokens` (lines 313-321). -/
def extract_tokens_loop : List Token → List Range → List Range
  | [], ranges => ranges
  | token :: rest, ranges =>
    if token.kind = 0 then extract_tokens_loop rest (highlight_cursor token ranges)
    else if token.kind = 1 then extract_tokens_loop rest (highlight_token token ranges 702)
    else if token.kind = 2 then extract_tokens_loop rest (highlight_cursor token ranges)
    else if token.kind = 3 then extract_tokens_loop rest (highlight_token token ranges 109)
    else if token.kind = 4 then extract_tokens_loop rest (highlight_token token ranges 705)
    else extract_tokens_loop rest ranges

/-- The function `extract_tokens` (lines 303-323) on the whole document: refreshes the
type tooltips and returns the ranges to highlight. -/
def extract_tokens (file_path : String) (tu : TranslationUnit) (a : Annotations) :
    List Range × Annotations :=
  (extract_tokens_loop tu.tokens [], update_types file_path tu.tokens a)

/-- The call `m.at(key)` of a string map: the mapped value, or the exception
`std::out_of_range`. -/
def mapAt (m : List (String × String)) (key : String) : Except String String :=
  match m.lookup key with
  | some value => .ok value
  | none => .error "std::out_of_range"

/-- The `for` loop of `update_syntax` (lines 331-351) over the ranges; `tags` are the
tags on the buffer. The first `config.types.at(type)` sits in a `try` whose handler
continues with the next range, the second one is not guarded. -/
def update_syntax_loop (config : Config) : List Range → List AppliedTag →
    Except String (List AppliedTag)
  | [], tags => .ok tags
  | range :: rest, tags =>
    let type := toString range.kind
    match mapAt config.types type with
    | .error _ => update_syntax_loop config rest tags
    | .ok _ =>
      let linum_start := range.start.line_number - 1
      let linum_end := range.end_.line_number - 1
      let begin_ := range.start.column_offset - 1
      let end_ := range.end_.column_offset - 1
      let end_ := if end_ < 0 then 0 else end_
      let begin_ := if begin_ < 0 then 0 else begin_
      match mapAt config.types type with
      | .error e => .error e
      | .ok name =>
        update_syntax_loop config rest
          (tags ++ [AppliedTag.named name linum_start begin_ linum_end end_])

/-- The function `update_syntax` (lines 325-352): returns at once when there is no
range, otherwise removes all tags from the buffer and applies the tag of every range. -/
def update_syntax (config : Config) (ranges : List Range) (a : Annotations) :
    Except String Annotations :=
  if ranges.isEmpty || ranges.length == 0 then .ok a
  else
    match update_syntax_loop config ranges [] with
    | .error e => .error e
    | .ok tags => .ok { a with tags := tags }

/-- The loop of `update_diagnostics` (lines 357-389): the state is the tooltip list and
the tags on the buffer. `underline_rgba` tells whether the tag class has the property
`underline-rgba`; the tag table holds the tags of `config.tags`. -/
def update_diagnostics_loop (config : Config) (file_path : String) (underline_rgba : Bool) :
    List Diagnostic → List DiagnosticTooltip × List AppliedTag →
    List DiagnosticTooltip × List AppliedTag
  | [], acc => acc
  | diagnostic :: rest, (diagnostic_tooltips, tags) =>
    if diagnostic.path = file_path then
      let diagnostic_tag_name :=
        if diagnostic.severity ≤ CXDiagnostic_Warning then "diagnostic_warning"
        else "diagnostic_error"
      let tooltip : DiagnosticTooltip :=
        ⟨diagnostic.severity_spelling, diagnostic_tag_name, ":\n" ++ diagnostic.spelling,
          diagnostic.start_offset, diagnostic.end_offset⟩
      let rgba := if underline_rgba then config.tags.lookup diagnostic_tag_name else none
      update_diagnostics_loop config file_path underline_rgba rest
        (diagnostic_tooltips ++ [tooltip],
          tags ++ [AppliedTag.underline rgba diagnostic.start_offset diagnostic.end_offset])
    else update_diagnostics_loop config file_path underline_rgba rest (diagnostic_tooltips, tags)

/-- The function `update_diagnostics` (lines 354-390): clears `diagnostic_tooltips`,
then adds one tooltip and one underline tag per diagnostic of this file. -/
def update_diagnostics (config : Config) (file_path : String) (underline_rgba : Bool)
    (tu : TranslationUnit) (a : Annotations) : Annotations :=
  let r := update_diagnostics_loop config file_path underline_rgba tu.diagnostics ([], a.tags)
  { a with diagnostic_tooltips := r.1, tags := r.2 }

/-- The branch of the `parse_done` handler taken when `parse_thread_mapped` holds
(lines 182-186): `update_syntax(extract_tokens(...))` followed by `update_diagnostics()`. -/
def reExtract (config : Config) (file_path : String) (underline_rgba : Bool)
    (tu : TranslationUnit) (a : Annotations) : Except String Annotations :=
  let (ranges, a1) := extract_tokens file_path tu a
  match update_syntax config ranges a1 with
  | .error e => .error e
  | .ok a2 => .ok (update_diagnostics config file_path underline_rgba tu a2)

/-- The range that `extract_tokens` emits for a token: none for a kind outside 0..4. -/
def tokenRange (token : Token) : Option Range :=
  if token.kind = 0 ∨ token.kind = 2 then
    some ⟨token.cursor_begin, token.cursor_end, token.cursor_kind⟩
  else if token.kind = 1 then some ⟨token.range_begin, token.range_end, 702⟩
  else if token.kind = 3 then some ⟨token.range_begin, token.range_end, 109⟩
  else if token.kind = 4 then some ⟨token.range_begin, token.range_end, 705⟩
  else none

/-- The tag that `update_syntax` applies for a range whose kind has the tag `name`. -/
def rangeTag (name : String) (range : Range) : AppliedTag :=
  AppliedTag.named name (range.start.line_number - 1)
    (if range.start.column_offset - 1 < 0 then 0 else range.start.column_offset - 1)
    (range.end_.line_number - 1)
    (if range.end_.column_offset - 1 < 0 then 0 else range.end_.column_offset - 1)

/-- The class of a diagnostic: warning-or-below, or error-or-above. -/
def diagnosticClass (diagnostic : Diagnostic) : String :=
  if diagnostic.severity ≤ CXDiagnostic_Warning then "diagnostic_warning" else "diagnostic_error"

/-- The tooltip that `update_diagnostics` builds for a diagnostic. -/
def diagnosticTooltip (diagnostic : Diagnostic) : DiagnosticTooltip :=
  ⟨diagnostic.severity_spelling, diagnosticClass diagnostic, ":\n" ++ diagnostic.spelling,
    diagnostic.start_offset, diagnostic.end_offset⟩

/-- The underline tag that `update_diagnostics` applies for a diagnostic. -/
def diagnosticUnderline (config : Config) (underline_rgba : Bool) (diagnostic : Diagnostic) :
    AppliedTag :=
  AppliedTag.underline
    (if underline_rgba then config.tags.lookup (diagnosticClass diagnostic) else none)
    diagnostic.start_offset diagnostic.end_offset

/-! ### Values used as examples -/

/-- A configuration that highlights keywords. -/
def exampleConfig : Config where
  types := [("702", "keyword")]
  tags := [("keyword", "blue"), ("diagnostic_error", "red")]

/-- A backend state with one keyword token and one error in the file `a.cc`. -/
def exampleUnit : TranslationUnit where
  tokens := [⟨1, "", ⟨1, 1⟩, ⟨1, 4⟩, "a.cc", 0, 3, 0, ⟨1, 1⟩, ⟨1, 4⟩⟩]
  diagnostics := [⟨"a.cc", 3, "error", "expected ';'", 3, 4⟩]

/-- A backend state without tokens and diagnostics, as for a blank document. -/
def blankUnit : TranslationUnit where
  tokens := []
  diagnostics := []

/-- No annotations. -/
def noAnnotations : Annotations where
  tags := []
  type_tooltips := []
  diagnostic_tooltips := []

/-- The annotations left by an earlier cycle: one keyword tag. -/
def staleAnnotations : Annotations where
  tags := [AppliedTag.named "keyword" 0 0 0 3]
  type_tooltips := []
  diagnostic_tooltips := []

/-! ## Compilation arguments (`get_compilation_commands`, lines 286-301, and
`init_syntax_highlighting`, lines 234-245) -/

/-- What can go wrong in the argument loop of line 294: `lol[a]` read at an index
outside the vector (with the index and the size), or the evaluation of the model
running out of steps. -/
inductive Fault where
  | out_of_bounds (index size : Nat)
  | out_of_steps
  deriving DecidableEq, Repr

instance : DecidableEq (Except Fault (List String)) := fun x y =>
  match x, y with
  | .ok a, .ok b =>
    if h : a = b then isTrue (by rw [h]) else isFalse fun e => h (Except.ok.inj e)
  | .error a, .error b =>
    if h : a = b then isTrue (by rw [h]) else isFalse fun e => h (Except.error.inj e)
  | .ok _, .error _ => isFalse fun e => by cases e
  | .error _, .ok _ => isFalse fun e => by cases e

/-- The number of values of a `size_t`. -/
def sizeModulus : Nat := 2 ^ 64

/-- The expression `lol.size()-4` of line 294 in `size_t` arithmetic. -/
def loopBound (size : Nat) : Nat :=
  (sizeModulus + size - 4) % sizeModulus

/-- The loop of lines 294-296 from the loop variable `a` on, appending to `arguments`;
`fuel` bounds the number of evaluations of the loop condition. -/
def sliceLoop : Nat → List String → Nat → List String → Except Fault (List String)
  | 0, _, _, _ => .error .out_of_steps
  | fuel + 1, lol, a, arguments =>
    if a < loopBound lol.length then
      match lol[a]? with
      | none => .error (.out_of_bounds a lol.length)
      | some argument => sliceLoop fuel lol (a + 1) (arguments ++ [argument])
    else .ok arguments

/-- The loop of lines 294-296 for one command: `a` starts at 1. The loop either ends
or reads outside the vector before `a` exceeds the size, so `lol.length + 1`
evaluations of the condition are never used up (`sliceArguments_eq`). -/
def sliceArguments (lol : List String) (arguments : List String) :
    Except Fault (List String) :=
  sliceLoop (lol.length + 1) lol 1 arguments

/-- The loop of lines 292-297 over the compile commands, each given by its argument
vector `get_command_as_args()`. -/
def commandsLoop : List (List String) → List String → Except Fault (List String)
  | [], arguments => .ok arguments
  | lol :: rest, arguments =>
    match sliceArguments lol arguments with
    | .error e => .error e
    | .ok arguments' => commandsLoop rest arguments'

/-- The filename of a path: what follows its last `/`. -/
def filename (path : List Char) : List Char :=
  (path.reverse.takeWhile fun c => c ≠ '/').reverse

/-- The call `boost::filesystem::path(file_path).extension()` as Boost documents it:
when the filename contains a dot and is neither `.` nor `..`, the part of the filename
from its rightmost dot on, otherwise the empty path. -/
def extension (file_path : String) : String :=
  let name := filename file_path.data
  if name = ['.'] ∨ name = ['.', '.'] then ""
  else if '.' ∈ name then
    String.mk ('.' :: (name.reverse.takeWhile fun c => c ≠ '.').reverse)
  else ""

/-- The function `get_compilation_commands` (lines 286-301); `cmds` are the argument
vectors of the commands that the compilation database has for the file. -/
def get_compilation_commands (file_path : String) (cmds : List (List String)) :
    Except Fault (List String) :=
  match commandsLoop cmds [] with
  | .error e => .error e
  | .ok arguments =>
    if extension file_path = ".h" then .ok (arguments ++ ["-xc++"]) else .ok arguments

/-- The arguments of the `clang::TranslationUnit` constructor call in
`init_syntax_highlighting` (lines 241-244): the file, the compile arguments and the
buffers. -/
structure TranslationUnitCall where
  file_path : String
  arguments : List String
  buffers : List (String × String)
  deriving DecidableEq, Repr

/-- The function `init_syntax_highlighting` (lines 234-245): the backend is constructed
with the arguments that `get_compilation_commands` returns. -/
def init_syntax_highlighting (file_path : String) (cmds : List (List String))
    (buffers : List (String × String)) : Except Fault TranslationUnitCall :=
  match get_compilation_commands file_path cmds with
  | .error e => .error e
  | .ok arguments => .ok ⟨file_path, arguments, buffers⟩

/-! ## The reparse coordinator (lines 137-139, 170-232, 259-284) as a step relation

Two threads share the flags `parse_thread_go`, `parse_thread_mapped`,
`parse_thread_stop`, the mutexes `parsing_mutex` and `parse_thread_buffer_map_mutex`,
the map `parse_thread_buffer_map` and the translation unit `tu_`. Each thread has a
program counter that names the statement it executes next; a step executes one
statement, and reads and writes of the flags are atomic. `parse_start` and
`parse_done` are dispatchers: an emission by the worker is queued and the connected
handler later runs on the main thread, once per emission. -/

/-- A thread that can hold a mutex. -/
inductive Holder where
  | worker
  | main
  deriving DecidableEq, Repr

/-- Program counter of the `parse_thread` lambda (lines 193-211). -/
inductive WorkerPc where
  /-- line 195, reading `parse_thread_go` -/
  | wait_go
  /-- line 195, reading `parse_thread_stop` after `parse_thread_go` was false -/
  | wait_stop
  /-- line 197 -/
  | check_stop
  /-- line 199 -/
  | check_mapped
  /-- line 200 -/
  | clear_go
  /-- line 201 -/
  | emit_start
  /-- line 203, first conjunct -/
  | recheck_mapped
  /-- line 203, `parsing_mutex.try_lock()` -/
  | try_parsing
  /-- line 203, `parse_thread_buffer_map_mutex.try_lock()` -/
  | try_buffer_map
  /-- line 204, about to call `reparse` -/
  | call_reparse
  /-- line 204, `reparse` is executing -/
  | in_reparse
  /-- line 205 -/
  | clear_go_done
  /-- line 206 -/
  | unlock_parsing
  /-- line 207 -/
  | unlock_buffer_map
  /-- line 208 -/
  | emit_done
  /-- after the `break` of line 198 -/
  | exited
  deriving DecidableEq, Repr

/-- Program counter of the main thread: idle in the event loop, or inside the
`parse_start` handler (`ps_`, lines 171-176), the `parse_done` handler (`pd_`, lines
181-190), the `signal_changed` handler (`ch_`, lines 214-215), the completion query
(`ac_`, lines 266-280) or the destructor (`d_`, lines 227-231). A `_run` state means
that the backend call is executing. -/
inductive MainPc where
  | idle
  | ps_try_lock
  | ps_copy
  | ps_set_mapped
  | ps_unlock
  | ps_set_go
  | pd_check
  | pd_extract_call
  | pd_extract_run
  | pd_diagnostics_call
  | pd_diagnostics_run
  | pd_set_go
  | ch_set_mapped
  | ch_set_go
  | ac_lock
  | ac_call
  | ac_run
  | ac_unlock
  | d_set_stop
  | d_join
  | d_lock
  | d_unlock
  | destroyed
  deriving DecidableEq, Repr

/-- The translation unit `tu_` as the coordinator sees it: how many `reparse` calls
have begun, the content given to the latest parse, and whether a `reparse` is
executing. -/
structure Backend where
  generation : Nat
  content : String
  busy : Bool
  deriving DecidableEq, Repr

/-- Modelled from the spec: the declaration of the dispatchers `parse_start` and
`parse_done` (`source.h`) is not among the sources. The spec has the callback "invoked
(on the consumer's thread, via the single-threaded event mechanism it already runs)
once per completed cycle": a dispatcher is the number of emissions that the main
thread has not yet handled, an emission adds one and each handler run takes one. -/
abbrev Dispatcher := Nat

/-- The state of one `ClangView` and its two threads. `tokens_from` and
`diagnostics_from` record what the latest consumer-side extraction read: the backend
generation, or `none` when a `reparse` was executing at that moment (or, for the
diagnostics, when none has been extracted yet). -/
structure State where
  parse_thread_go : Bool
  parse_thread_mapped : Bool
  parse_thread_stop : Bool
  parsing_mutex : Option Holder
  parse_thread_buffer_map_mutex : Option Holder
  parse_thread_buffer_map : Option String
  buffer : String
  tu : Backend
  tokens_from : Option Nat
  diagnostics_from : Option Nat
  pending_start : Dispatcher
  pending_done : Dispatcher
  wpc : WorkerPc
  mpc : MainPc
  deriving DecidableEq, Repr

/-- The state when the constructor returns (lines 139, 146-166): the first parse was
given the buffer with its includes removed and the tokens were extracted from it. -/
def init (content : String) : State where
  parse_thread_go := true
  parse_thread_mapped := false
  parse_thread_stop := false
  parsing_mutex := none
  parse_thread_buffer_map_mutex := none
  parse_thread_buffer_map := none
  buffer := content
  tu := ⟨0, String.mk (removeIncludes content.data), false⟩
  tokens_from := some 0
  diagnostics_from := none
  pending_start := 0
  pending_done := 0
  wpc := .wait_go
  mpc := .idle

/-- What a consumer-side extraction reads from the backend. -/
def observe (tu : Backend) : Option Nat :=
  if tu.busy then none else some tu.generation

/-- One statement of the worker thread. A `try_lock` on a held mutex fails, whoever
holds it. The exited thread has no step. -/
def workerStep (s : State) : Option State :=
  match s.wpc with
  | .wait_go => some { s with wpc := if s.parse_thread_go then .check_stop else .wait_stop }
  | .wait_stop => some { s with wpc := if s.parse_thread_stop then .check_stop else .wait_go }
  | .check_stop => some { s with wpc := if s.parse_thread_stop then .exited else .check_mapped }
  | .check_mapped =>
    some { s with wpc := if !s.parse_thread_mapped then .clear_go else .recheck_mapped }
  | .clear_go => some { s with parse_thread_go := false, wpc := .emit_start }
  | .emit_start => some { s with pending_start := s.pending_start + 1, wpc := .wait_go }
  | .recheck_mapped =>
    some { s with wpc := if s.parse_thread_mapped then .try_parsing else .wait_go }
  | .try_parsing =>
    if s.parsing_mutex = none then
      some { s with parsing_mutex := some .worker, wpc := .try_buffer_map }
    else some { s with wpc := .wait_go }
  | .try_buffer_map =>
    if s.parse_thread_buffer_map_mutex = none then
      some { s with parse_thread_buffer_map_mutex := some .worker, wpc := .call_reparse }
    else some { s with wpc := .wait_go }
  | .call_reparse =>
    some { s with
      tu := ⟨s.tu.generation + 1, s.parse_thread_buffer_map.getD s.tu.content, true⟩,
      wpc := .in_reparse }
  | .in_reparse => some { s with tu := { s.tu with busy := false }, wpc := .clear_go_done }
  | .clear_go_done => some { s with parse_thread_go := false, wpc := .unlock_parsing }
  | .unlock_parsing => some { s with parsing_mutex := none, wpc := .unlock_buffer_map }
  | .unlock_buffer_map =>
    some { s with parse_thread_buffer_map_mutex := none, wpc := .emit_done }
  | .emit_done => some { s with pending_done := s.pending_done + 1, wpc := .wait_go }
  | .exited => none

/-- One statement of the handler, query or destructor the main thread is in. A
blocking `lock()` and the `join()` have no step until they can proceed. -/
def mainStep (s : State) : Option State :=
  match s.mpc with
  | .idle => none
  | .ps_try_lock =>
    if s.parse_thread_buffer_map_mutex = none then
      some { s with parse_thread_buffer_map_mutex := some .main, mpc := .ps_copy }
    else some { s with mpc := .ps_set_go }
  | .ps_copy => some { s with parse_thread_buffer_map := some s.buffer, mpc := .ps_set_mapped }
  | .ps_set_mapped => some { s with parse_thread_mapped := true, mpc := .ps_unlock }
  | .ps_unlock => some { s with parse_thread_buffer_map_mutex := none, mpc := .ps_set_go }
  | .ps_set_go => some { s with parse_thread_go := true, mpc := .idle }
  | .pd_check =>
    some { s with mpc := if s.parse_thread_mapped then .pd_extract_call else .pd_set_go }
  | .pd_extract_call => some { s with tokens_from := observe s.tu, mpc := .pd_extract_run }
  | .pd_extract_run => some { s with mpc := .pd_diagnostics_call }
  | .pd_diagnostics_call =>
    some { s with diagnostics_from := observe s.tu, mpc := .pd_diagnostics_run }
  | .pd_diagnostics_run => some { s with mpc := .idle }
  | .pd_set_go => some { s with parse_thread_go := true, mpc := .idle }
  | .ch_set_mapped => some { s with parse_thread_mapped := false, mpc := .ch_set_go }
  | .ch_set_go => some { s with parse_thread_go := true, mpc := .idle }
  | .ac_lock =>
    if s.parsing_mutex = none then some { s with parsing_mutex := some .main, mpc := .ac_call }
    else none
  | .ac_call => some { s with mpc := .ac_run }
  | .ac_run => some { s with mpc := .ac_unlock }
  | .ac_unlock => some { s with parsing_mutex := none, mpc := .idle }
  | .d_set_stop => some { s with parse_thread_stop := true, mpc := .d_join }
  | .d_join => if s.wpc = .exited then some { s with mpc := .d_lock } else none
  | .d_lock =>
    if s.parsing_mutex = none then some { s with parsing_mutex := some .main, mpc := .d_unlock }
    else none
  | .d_unlock => some { s with parsing_mutex := none, mpc := .destroyed }
  | .destroyed => none

/-- What can happen next: a statement of the worker, a statement of the main thread,
or, while the main thread is idle, the start of a handler: a buffer edit (the buffer
takes the new content and `signal_changed` fires), a completion request, the
destructor, or the delivery of a queued `parse_start` or `parse_done` emission. -/
inductive Action where
  | worker
  | main
  | edit (content : String)
  | complete
  | destroy
  | dispatch_start
  | dispatch_done
  deriving DecidableEq, Repr

/-- The step relation, as a function to the successor state when the action is enabled. -/
def step (s : State) : Action → Option State
  | .worker => workerStep s
  | .main => mainStep s
  | .edit content =>
    if s.mpc = .idle then some { s with buffer := content, mpc := .ch_set_mapped } else none
  | .complete => if s.mpc = .idle then some { s with mpc := .ac_lock } else none
  | .destroy => if s.mpc = .idle then some { s with mpc := .d_set_stop } else none
  | .dispatch_start =>
    if s.mpc = .idle ∧ 0 < s.pending_start then
      some { s with pending_start := s.pending_start - 1, mpc := .ps_try_lock }
    else none
  | .dispatch_done =>
    if s.mpc = .idle ∧ 0 < s.pending_done then
      some { s with pending_done := s.pending_done - 1, mpc := .pd_check }
    else none

/-- An execution: the actions are taken one after the other, all of them enabled. -/
def run : State → List Action → Option State
  | s, [] => some s
  | s, a :: rest =>
    match step s a with
    | none => none
    | some s' => run s' rest

/-- A state some execution of a freshly constructed view reaches. -/
def Reachable (s : State) : Prop :=
  ∃ content actions, run (init content) actions = some s

/-- The worker is inside `reparse`. -/
def workerInBackend (s : State) : Bool :=
  s.wpc = .in_reparse

/-- The main thread is inside a backend call: token or diagnostic extraction of the
`parse_done` handler, or the completion query. -/
def mainInBackend (s : State) : Bool :=
  s.mpc = .pd_extract_run ∨ s.mpc = .pd_diagnostics_run ∨ s.mpc = .ac_run

/-- Quiescence as the flags and queues show it: no stop requested, the dirty flag
clear, no `parse_start` or `parse_done` emission queued and the worker in its wait
loop. -/
def Quiescent (s : State) : Prop :=
  s.parse_thread_stop = false ∧ s.parse_thread_go = false ∧
  s.pending_start = 0 ∧ s.pending_done = 0 ∧
  (s.wpc = .wait_go ∨ s.wpc = .wait_stop)

instance (s : State) : Decidable (Quiescent s) := by
  unfold Quiescent; infer_instance

/-- Quiescence between handler runs: the view is quiescent and the main thread is idle,
so that no delivered emission is still being handled. -/
def QuiescentIdle (s : State) : Prop :=
  Quiescent s ∧ s.mpc = .idle

instance (s : State) : Decidable (QuiescentIdle s) := by
  unfold QuiescentIdle; infer_instance

/-! ### The coordinator's invariant -/

/-- The worker holds `parse_thread_buffer_map_mutex` (lines 204-207). -/
def WorkerPc.holdsBufferMap : WorkerPc → Bool
  | .call_reparse | .in_reparse | .clear_go_done | .unlock_parsing | .unlock_buffer_map => true
  | _ => false

/-- The worker has left the wait loop and has not cleared the dirty flag yet. -/
def WorkerPc.sawGo : WorkerPc → Bool
  | .check_stop | .check_mapped | .clear_go | .recheck_mapped | .try_parsing
  | .try_buffer_map | .call_reparse | .in_reparse | .clear_go_done => true
  | _ => false

/-- The worker has called `reparse` and not yet released the snapshot lock. -/
def WorkerPc.reparsed : WorkerPc → Bool
  | .in_reparse | .clear_go_done | .unlock_parsing | .unlock_buffer_map => true
  | _ => false

/-- The worker has cleared the dirty flag after a `reparse` and not yet emitted
`parse_done`. -/
def WorkerPc.doneDue : WorkerPc → Bool
  | .unlock_parsing | .unlock_buffer_map | .emit_done => true
  | _ => false

/-- The main thread holds `parse_thread_buffer_map_mutex` (lines 172-174). -/
def MainPc.holdsBufferMap : MainPc → Bool
  | .ps_copy | .ps_set_mapped | .ps_unlock => true
  | _ => false

/-- The main thread is in a handler that ends by setting the dirty flag. -/
def MainPc.willSetGo : MainPc → Bool
  | .ps_try_lock | .ps_copy | .ps_set_mapped | .ps_unlock | .ps_set_go
  | .pd_set_go | .ch_set_mapped | .ch_set_go => true
  | _ => false

/-- The destructor has returned from `parse_thread.join()` (lines 230-232). -/
def MainPc.pastJoin : MainPc → Bool
  | .d_lock | .d_unlock | .destroyed => true
  | _ => false

/-- The destructor has set `parse_thread_stop` (lines 228-232). -/
def MainPc.inDestructor : MainPc → Bool
  | .d_join | .d_lock | .d_unlock | .destroyed => true
  | _ => false

/-- The main thread is in the `parse_done` handler before the token extraction. -/
def MainPc.tokensDue : MainPc → Bool
  | .pd_check | .pd_extract_call => true
  | _ => false

/-- The main thread is in the `parse_done` handler before the diagnostic extraction. -/
def MainPc.diagnosticsDue : MainPc → Bool
  | .pd_check | .pd_extract_call | .pd_extract_run | .pd_diagnostics_call => true
  | _ => false

/-- Something is under way that will set the dirty flag again or emit `parse_start`:
a queued `parse_start`, a handler that ends with `parse_thread_go = true`, the worker
about to emit `parse_start`, or, while the snapshot is invalid, a `parse_done` that is
queued, being handled or about to be emitted. -/
def Triggered (s : State) : Prop :=
  0 < s.pending_start ∨ s.mpc.willSetGo = true ∨ s.wpc = .emit_start ∨
  (s.parse_thread_mapped = false ∧
    (0 < s.pending_done ∨ s.mpc = .pd_check ∨ s.wpc.doneDue = true))

instance (s : State) : Decidable (Triggered s) := by
  unfold Triggered; infer_instance

/-- The invariant of the coordinator. -/
structure Inv (s : State) : Prop where
  /-- the worker's critical section holds the snapshot lock -/
  worker_lock : s.wpc.holdsBufferMap = true → s.parse_thread_buffer_map_mutex = some .worker
  /-- the `parse_start` handler's critical section holds the snapshot lock -/
  main_lock : s.mpc.holdsBufferMap = true → s.parse_thread_buffer_map_mutex = some .main
  /-- only the worker clears the dirty flag -/
  go_seen : s.parse_thread_stop = false → s.wpc.sawGo = true → s.parse_thread_go = true
  /-- the backend is busy only inside `reparse` -/
  busy_in_reparse : s.tu.busy = true → s.wpc = .in_reparse
  /-- a `reparse` was called, and the snapshot passed to it is still the one in the map -/
  parsed_map : s.wpc.reparsed = true →
    0 < s.tu.generation ∧ ∀ m, s.parse_thread_buffer_map = some m → s.tu.content = m
  /-- a valid snapshot is the buffer content -/
  mapped_current : s.parse_thread_mapped = true → s.mpc ≠ .ch_set_mapped →
    s.parse_thread_buffer_map = some s.buffer
  /-- the snapshot just taken is the buffer content -/
  copied_current : s.mpc = .ps_set_mapped → s.parse_thread_buffer_map = some s.buffer
  /-- with the dirty flag clear and nothing under way, a `reparse` has given the backend
  the buffer content -/
  settled : s.parse_thread_stop = false → s.parse_thread_go = false → ¬ Triggered s →
    s.parse_thread_mapped = true ∧ s.tu.content = s.buffer ∧ 0 < s.tu.generation
  /-- and the tokens were extracted from that parse -/
  tokens_current : s.parse_thread_stop = false → s.parse_thread_go = false →
    ¬ Triggered s → s.pending_done = 0 → s.wpc.doneDue = false → s.mpc.tokensDue = false →
    s.tokens_from = some s.tu.generation
  /-- and so were the diagnostics -/
  diagnostics_current : s.parse_thread_stop = false → s.parse_thread_go = false →
    ¬ Triggered s → s.pending_done = 0 → s.wpc.doneDue = false →
    s.mpc.diagnosticsDue = false → s.diagnostics_from = some s.tu.generation
  /-- the destructor gets past `join()` only when the worker has exited -/
  joined : s.mpc.pastJoin = true → s.wpc = .exited
  /-- once `parse_thread_stop` is set the main thread stays in the destructor -/
  stopping : s.parse_thread_stop = true → s.mpc.inDestructor = true

/-! ### The published annotations

The coordinator state is paired with the annotations of the view. The `parse_done`
handler changes them where `update_syntax(extract_tokens(...))` and
`update_diagnostics()` return (lines 183 and 186); what these calls read is the
backend state for the content given to the latest parse. When a `reparse` overlaps
such a call the read is torn; the model then takes the state at the return, and the
theorems below speak of extractions that no `reparse` overlaps. -/

/-- What the re-extraction of a view depends on besides the coordinator: its
configuration, its file path, whether the tag class has the property
`underline-rgba`, and the backend, taken as a parameter: `parse content` is what the
translation unit exposes after a parse of `content`. -/
structure Environment where
  config : Config
  file_path : String
  underline_rgba : Bool
  parse : String → TranslationUnit

/-- The statement `update_syntax(extract_tokens(...))` of lines 166 and 183, with the
backend holding the parse of `content`. -/
def highlight (env : Environment) (content : String) (a : Annotations) : Annotations :=
  match update_syntax env.config (extract_tokens env.file_path (env.parse content) a).1
      (extract_tokens env.file_path (env.parse content) a).2 with
  | .ok a' => a'
  | .error _ => (extract_tokens env.file_path (env.parse content) a).2

/-- The effect on the annotations of the main-thread statement that `s.mpc` names. -/
def publish (env : Environment) (s : State) (a : Annotations) : Annotations :=
  match s.mpc with
  | .pd_extract_run => highlight env s.tu.content a
  | .pd_diagnostics_run =>
    update_diagnostics env.config env.file_path env.underline_rgba (env.parse s.tu.content) a
  | _ => a

/-- The annotations computed by parsing `content` directly: the re-extraction of the
`parse_done` handler on the backend's parse of `content`, on a view without
annotations. -/
def directAnnotations (env : Environment) (content : String) : Annotations :=
  update_diagnostics env.config env.file_path env.underline_rgba (env.parse content)
    (highlight env content ⟨[], [], []⟩)

/-- One step of the view: a step of the coordinator, and for a main-thread statement
its effect on the annotations. -/
def viewStep (env : Environment) (v : State × Annotations) (a : Action) :
    Option (State × Annotations) :=
  match step v.1 a with
  | none => none
  | some s' => some (s', if a = Action.main then publish env v.1 v.2 else v.2)

/-- An execution of the view. -/
def viewRun (env : Environment) : State × Annotations → List Action →
    Option (State × Annotations)
  | v, [] => some v
  | v, a :: rest =>
    match viewStep env v a with
    | none => none
    | some v' => viewRun env v' rest

/-- The view when the constructor returns: the tokens of the first parse are
highlighted (line 166). -/
def viewInit (env : Environment) (content : String) : State × Annotations :=
  (init content, highlight env (init content).tu.content ⟨[], [], []⟩)

/-- A view state that some execution of a freshly constructed view reaches. -/
def ViewReachable (env : Environment) (v : State × Annotations) : Prop :=
  ∃ content actions, viewRun env (viewInit env content) actions = some v

/-- The main thread is between the return of the token extraction and the return of
`update_diagnostics`. -/
def MainPc.betweenExtractions : MainPc → Bool
  | .pd_diagnostics_call | .pd_diagnostics_run => true
  | _ => false

/-- The main thread is inside the re-extraction of the `parse_done` handler. -/
def MainPc.extracting : MainPc → Bool
  | .pd_extract_run | .pd_diagnostics_call | .pd_diagnostics_run => true
  | _ => false

/-- The invariant that ties the annotations to what the extractions read. -/
structure ViewInv (env : Environment) (v : State × Annotations) : Prop where
  /-- the tokens were read at a generation that exists -/
  tokens_le : ∀ g, v.1.tokens_from = some g → g ≤ v.1.tu.generation
  /-- the diagnostics were read at a generation that exists -/
  diagnostics_le : ∀ g, v.1.diagnostics_from = some g → g ≤ v.1.tu.generation
  /-- after the token extraction of the current parse, the annotations are its result -/
  highlighted : v.1.tokens_from = some v.1.tu.generation →
    v.1.mpc.betweenExtractions = true →
    ∃ prev, v.2 = highlight env v.1.tu.content prev
  /-- after a whole re-extraction of the current parse, the annotations are its result -/
  published : v.1.tokens_from = some v.1.tu.generation →
    v.1.diagnostics_from = some v.1.tu.generation → v.1.mpc.extracting = false →
    ∃ prev, reExtract env.config env.file_path env.underline_rgba
      (env.parse v.1.tu.content) prev = .ok v.2

/-- The thread statements between which the worker holds `parsing_mutex` by design
(lines 203-206). -/
def WorkerPc.holdsParsing : WorkerPc → Bool
  | .try_buffer_map | .call_reparse | .in_reparse | .clear_go_done | .unlock_parsing => true
  | _ => false

/-- The main-thread statements between which the main thread holds `parsing_mutex`
(lines 266-280 and 230-231). -/
def MainPc.holdsParsing : MainPc → Bool
  | .ac_call | .ac_run | .ac_unlock | .d_unlock => true
  | _ => false

/-- The worker has kept `parsing_mutex` after a failed `try_lock` on the snapshot lock
(line 203): the mutex is the worker's although the worker is outside lines 203-206.
Unless a stop is requested, the dirty flag is set or about to be set again. -/
structure Leaked (s : State) : Prop where
  held : s.parsing_mutex = some .worker
  worker_outside : s.wpc.holdsParsing = false
  main_outside : s.mpc.holdsParsing = false
  dirty : s.parse_thread_stop = false →
    s.parse_thread_go = true ∨ 0 < s.pending_start ∨ s.mpc.willSetGo = true ∨
      s.wpc = .emit_start

/-! ### Executions used as examples -/

/-- The given number of consecutive worker statements. -/
def workerSteps (n : Nat) : List Action :=
  List.replicate n Action.worker

/-- The given number of consecutive main-thread statements. -/
def mainSteps (n : Nat) : List Action :=
  List.replicate n Action.main

/-- The worker sees the dirty flag without a snapshot, clears the flag and emits
`parse_start`; the handler runs and takes the snapshot. -/
def snapshotCycle : List Action :=
  workerSteps 5 ++ [Action.dispatch_start] ++ mainSteps 5

/-- The worker goes once round its loop with a valid snapshot and both locks free:
from the wait loop through `reparse` to the emission of `parse_done`. -/
def reparseCycle : List Action :=
  workerSteps 12

/-- The `parse_done` handler runs to its end. -/
def publishCycle : List Action :=
  [Action.dispatch_done] ++ mainSteps 5

/-- The destructor starts and sets `parse_thread_stop` after the worker has passed its
stop check; the worker goes on to the call of `reparse`. -/
def stopAfterCheck : List Action :=
  snapshotCycle ++ workerSteps 2 ++ [Action.destroy, Action.main] ++ workerSteps 4

/-- A first cycle completes and its `parse_done` stays queued; an edit starts a second
cycle whose `reparse` is executing when the queued `parse_done` is delivered and its
handler begins to extract the tokens. -/
def extractDuringReparse : List Action :=
  snapshotCycle ++ reparseCycle ++ [Action.edit "b"] ++ mainSteps 2 ++ snapshotCycle ++
    workerSteps 7 ++ [Action.dispatch_done] ++ mainSteps 2

/-- An edit sets the dirty flag while a `parse_start` is queued; its handler has taken
the snapshot lock and set `parse_thread_mapped` when the worker leaves the wait loop
(two statements). -/
def snapshotLockHeld : List Action :=
  workerSteps 5 ++ [Action.edit "b"] ++ mainSteps 2 ++ [Action.dispatch_start] ++
    mainSteps 3 ++ workerSteps 2

/-- A view is opened, parsed and left alone. -/
def openAndSettle : List Action :=
  snapshotCycle ++ reparseCycle ++ publishCycle

/-- The view is destroyed right after its construction. -/
def destroyAtOnce : List Action :=
  [Action.destroy, Action.main] ++ workerSteps 2 ++ mainSteps 3

/-- The worker reaches the inside of `reparse` with the first snapshot. -/
def intoReparse : List Action :=
  snapshotCycle ++ workerSteps 7

/-- The state that `openAndSettle` ends in. -/
def settledState : State where
  parse_thread_go := false
  parse_thread_mapped := true
  parse_thread_stop := false
  parsing_mutex := none
  parse_thread_buffer_map_mutex := none
  parse_thread_buffer_map := some "a"
  buffer := "a"
  tu := ⟨1, "a", false⟩
  tokens_from := some 1
  diagnostics_from := some 1
  pending_start := 0
  pending_done := 0
  wpc := .wait_go
  mpc := .idle

/-- The state that `destroyAtOnce` ends in. -/
def destroyedState : State where
  parse_thread_go := true
  parse_thread_mapped := false
  parse_thread_stop := true
  parsing_mutex := none
  parse_thread_buffer_map_mutex := none
  parse_thread_buffer_map := none
  buffer := "a"
  tu := ⟨0, "a", false⟩
  tokens_from := some 0
  diagnostics_from := none
  pending_start := 0
  pending_done := 0
  wpc := .exited
  mpc := .destroyed

/-- The state that `intoReparse` ends in. -/
def reparsingState : State where
  parse_thread_go := true
  parse_thread_mapped := true
  parse_thread_stop := false
  parsing_mutex := some .worker
  parse_thread_buffer_map_mutex := some .worker
  parse_thread_buffer_map := some "a"
  buffer := "a"
  tu := ⟨1, "a", true⟩
  tokens_from := some 0
  diagnostics_from := none
  pending_start := 0
  pending_done := 0
  wpc := .in_reparse
  mpc := .idle

/-- A first cycle has completed and its `parse_done` has been delivered; the handler
has not yet executed a statement. -/
def handlingDone : List Action :=
  snapshotCycle ++ reparseCycle ++ [Action.dispatch_done]

/-- An edit to `b` arrives while the first `reparse` executes; the cycle ends, its
`parse_done` handler finds the snapshot invalid, and a second cycle takes the snapshot
of `b`, parses it and publishes. -/
def editDuringReparse : List Action :=
  intoReparse ++ [Action.edit "b"] ++ mainSteps 2 ++ workerSteps 5 ++
    [Action.dispatch_done] ++ mainSteps 2 ++ snapshotCycle ++ reparseCycle ++ publishCycle

/-- The worker has kept `parsing_mutex`: `snapshotLockHeld` followed by the rest of the
worker's iteration. -/
def leak : List Action :=
  snapshotLockHeld ++ workerSteps 4

/-- A view of the file `a.cc` over a backend that reports one keyword token for every
content and one error for every content but `b`. -/
def exampleEnvironment : Environment where
  config := exampleConfig
  file_path := "a.cc"
  underline_rgba := true
  parse := fun content =>
    ⟨exampleUnit.tokens, if content = "b" then [] else exampleUnit.diagnostics⟩

/-- The view that `editDuringReparse` ends in: the buffer holds `b`, and the
annotations are those of the parse of `b`. -/
def editedView : State × Annotations :=
  ({ parse_thread_go := false
     parse_thread_mapped := true
     parse_thread_stop := false
     parsing_mutex := none
     parse_thread_buffer_map_mutex := none
     parse_thread_buffer_map := some "b"
     buffer := "b"
     tu := ⟨2, "b", false⟩
     tokens_from := some 2
     diagnostics_from := some 2
     pending_start := 0
     pending_done := 0
     wpc := .wait_go
     mpc := .idle },
   { tags := [AppliedTag.named "keyword" 0 0 0 3]
     type_tooltips := []
     diagnostic_tooltips := [] })

/-- The state that `leak` ends in. -/
def leakedState : State where
  parse_thread_go := true
  parse_thread_mapped := true
  parse_thread_stop := false
  parsing_mutex := some .worker
  parse_thread_buffer_map_mutex := some .main
  parse_thread_buffer_map := some "b"
  buffer := "b"
  tu := ⟨0, "a", false⟩
  tokens_from := some 0
  diagnostics_from := none
  pending_start := 0
  pending_done := 0
  wpc := .wait_go
  mpc := .ps_unlock

/-! ## Include removal: offsets are preserved -/

theorem findFrom_some (pat : List Char) (s : List Char) (i k : Nat)
    (h : findFrom pat s i = some k) :
    ∃ d, k = i + d ∧ d ≤ s.length ∧ pat.isPrefixOf (s.drop d) = true ∧
      ∀ e, e < d → pat.isPrefixOf (s.drop e) = false := by
  induction s generalizing i with
  | nil =>
    simp only [findFrom] at h
    split at h
    · rename_i hp
      refine ⟨0, by simpa using h.symm, by simp, by simp [hp], by simp⟩
    · cases h
  | cons c cs ih =>
    simp only [findFrom] at h
    split at h
    · rename_i hp
      refine ⟨0, by simpa using h.symm, by simp, by simpa using hp, by simp⟩
    · rename_i hp
      have hp' : pat.isPrefixOf (c :: cs) = false := Bool.eq_false_iff.mpr hp
      obtain ⟨d, hk, hd, hpre, hmin⟩ := ih (i + 1) h
      refine ⟨d + 1, by omega, by simp; omega, by simpa using hpre, ?_⟩
      intro e he
      cases e with
      | zero => exact hp'
      | succ e => simpa using hmin e (by omega)

theorem find_some (str pat : List Char) (pos k : Nat) (h : find str pat pos = some k) :
    pos ≤ k ∧ k ≤ str.length ∧ pat.isPrefixOf (str.drop k) = true ∧
      ∀ j, pos ≤ j → j < k → pat.isPrefixOf (str.drop j) = false := by
  unfold find at h
  split at h
  · cases h
  · rename_i hlen
    obtain ⟨d, hk, hd, hpre, hmin⟩ := findFrom_some pat _ pos k h
    simp only [List.length_drop] at hd
    simp only [List.drop_drop] at hpre hmin
    subst hk
    refine ⟨by omega, by omega, by simpa [Nat.add_comm] using hpre, ?_⟩
    intro j hj hjk
    have := hmin (j - pos) (by omega)
    have e : pos + (j - pos) = j := by omega
    simpa [e, Nat.add_comm] using this

theorem isPrefixOf_drop_getElem? (pat l : List Char) (k : Nat)
    (h : pat.isPrefixOf (l.drop k) = true) (j : Nat) (hj : j < pat.length) :
    l[k + j]? = pat[j]? := by
  rw [List.isPrefixOf_iff_prefix] at h
  obtain ⟨t, ht⟩ := h
  have : (l.drop k)[j]? = (pat ++ t)[j]? := by rw [ht]
  rw [List.getElem?_drop, List.getElem?_append_left hj] at this
  exact this

theorem newline_isPrefixOf_drop (l : List Char) (k : Nat) :
    (['\n'] : List Char).isPrefixOf (l.drop k) = true ↔ l[k]? = some '\n' := by
  rw [List.isPrefixOf_iff_prefix]
  constructor
  · rintro ⟨t, ht⟩
    have : (l.drop k)[0]? = (['\n'] ++ t)[0]? := by rw [ht]
    simpa [List.getElem?_drop] using this
  · intro h
    refine ⟨l.drop (k + 1), ?_⟩
    have hk : k < l.length := by
      by_contra hc
      rw [List.getElem?_eq_none (by omega)] at h
      cases h
    rw [List.getElem?_eq_getElem hk] at h
    rw [List.drop_eq_getElem_cons hk]
    simp at h
    simp [h]

theorem getElem?_replaceWithSpaces (str : List Char) (pos n i : Nat)
    (h : pos + n ≤ str.length) :
    (replaceWithSpaces str pos n)[i]? =
      if pos ≤ i ∧ i < pos + n then some ' ' else str[i]? := by
  unfold replaceWithSpaces
  have hl : (List.take pos str).length = pos := by simp; omega
  by_cases h1 : i < pos
  · rw [if_neg (by omega), List.append_assoc, List.getElem?_append_left (by omega)]
    rw [List.getElem?_take_of_lt h1]
  · by_cases h2 : i < pos + n
    · rw [if_pos (by omega), List.getElem?_append_left (by simp; omega),
        List.getElem?_append_right (by omega), List.getElem?_replicate, if_pos (by omega)]
    · rw [if_neg (by omega), List.getElem?_append_right (by simp; omega),
        List.getElem?_drop]
      congr 1
      simp only [List.length_append, List.length_replicate, hl]
      omega

theorem length_replaceWithSpaces (str : List Char) (pos n : Nat)
    (h : pos + n ≤ str.length) : (replaceWithSpaces str pos n).length = str.length := by
  unfold replaceWithSpaces
  simp
  omega

theorem includeDirective_no_newline (j : Nat) (hj : j < 8) :
    includeDirective[j]? ≠ some '\n' := by
  have : ∀ j, j < 8 → includeDirective[j]? ≠ some '\n' := by decide
  exact this j hj

theorem redactInv_step (s str : List Char) (pos sp q : Nat) (h : RedactInv s str pos)
    (h1 : find str includeDirective pos = some sp)
    (h2 : find str ['\n'] (sp + 8) = some q) :
    RedactInv s
      (if sp = 0 ∨ str[sp - 1]? = some '\n' then replaceWithSpaces str sp (q - sp) else str)
      (q + 1) := by
  obtain ⟨hlen, hsame, hdiff⟩ := h
  obtain ⟨hsp, _, hpre, _⟩ := find_some _ _ _ _ h1
  obtain ⟨hq, hqlen, hnl, hmin⟩ := find_some _ _ _ _ h2
  split
  · rename_i hstart
    have hb : sp + (q - sp) ≤ str.length := by omega
    refine ⟨by rw [length_replaceWithSpaces _ _ _ hb, hlen], ?_, ?_⟩
    · intro i hi
      rw [getElem?_replaceWithSpaces _ _ _ _ hb, if_neg (by omega)]
      exact hsame i (by omega)
    · intro i hi
      rw [getElem?_replaceWithSpaces _ _ _ _ hb] at hi ⊢
      by_cases hin : sp ≤ i ∧ i < sp + (q - sp)
      · rw [if_pos hin]
        refine ⟨rfl, sp, by omega, ?_, ?_, ?_⟩
        · rcases hstart with h0 | hprev
          · exact Or.inl h0
          · by_cases h0 : sp = 0
            · exact Or.inl h0
            · right
              rw [← hsame (sp - 1) (by omega)]
              exact hprev
        · have e : s.drop sp = str.drop sp := by
            apply List.ext_getElem?
            intro n
            rw [List.getElem?_drop, List.getElem?_drop]
            exact (hsame (sp + n) (by omega)).symm
          rw [e]
          exact hpre
        · intro j hj hsj
          rw [← hsame j (by omega)]
          by_cases hj8 : j < sp + 8
          · have := isPrefixOf_drop_getElem? _ _ _ hpre (j - sp) (by simp [includeDirective]; omega)
            have e : sp + (j - sp) = j := by omega
            rw [e] at this
            rw [this]
            exact includeDirective_no_newline _ (by omega)
          · have := hmin j (by omega) (by omega)
            intro hc
            rw [(newline_isPrefixOf_drop str j).mpr hc] at this
            cases this
      · rw [if_neg hin] at hi ⊢
        exact hdiff i hi
  · refine ⟨hlen, ?_, hdiff⟩
    intro i hi
    exact hsame i (by omega)

theorem removeIncludesLoop_inv (s : List Char) (fuel : Nat) (str : List Char) (pos : Nat)
    (h : RedactInv s str pos) :
    ∃ pos', RedactInv s (removeIncludesLoop fuel str pos) pos' := by
  induction fuel generalizing str pos with
  | zero => exact ⟨pos, h⟩
  | succ fuel ih =>
    cases h1 : find str includeDirective pos with
    | none =>
      simp only [removeIncludesLoop, h1]
      exact ⟨pos, h⟩
    | some sp =>
      cases h2 : find str ['\n'] (sp + 8) with
      | none =>
        simp only [removeIncludesLoop, h1, h2]
        exact ⟨pos, h⟩
      | some q =>
        simp only [removeIncludesLoop, h1, h2]
        exact ih _ _ (redactInv_step s str pos sp q h h1 h2)

/-- The fuel given by `removeIncludes` is never used up: any two amounts of fuel that
exceed the distance of `pos` to the end of the string give the same result. -/
theorem removeIncludesLoop_fuel (fuel fuel' : Nat) (str : List Char) (pos : Nat)
    (h : str.length + 1 ≤ pos + fuel) (h' : str.length + 1 ≤ pos + fuel') :
    removeIncludesLoop fuel str pos = removeIncludesLoop fuel' str pos := by
  induction fuel generalizing fuel' str pos with
  | zero =>
    have hf : find str includeDirective pos = none := by
      unfold find; rw [if_pos (by omega)]
    cases fuel' with
    | zero => rfl
    | succ f => simp [removeIncludesLoop, hf]
  | succ fuel ih =>
    cases fuel' with
    | zero =>
      have hf : find str includeDirective pos = none := by
        unfold find; rw [if_pos (by omega)]
      simp [removeIncludesLoop, hf]
    | succ f =>
      cases h1 : find str includeDirective pos with
      | none => simp only [removeIncludesLoop, h1]
      | some sp =>
        cases h2 : find str ['\n'] (sp + 8) with
        | none => simp only [removeIncludesLoop, h1, h2]
        | some q =>
          simp only [removeIncludesLoop, h1, h2]
          obtain ⟨hsp, _, _, _⟩ := find_some _ _ _ _ h1
          obtain ⟨hq, hqlen, _, _⟩ := find_some _ _ _ _ h2
          have hl : (if sp = 0 ∨ str[sp - 1]? = some '\n' then
              replaceWithSpaces str sp (q - sp) else str).length = str.length := by
            split
            · exact length_replaceWithSpaces _ _ _ (by omega)
            · rfl
          apply ih
          · rw [hl]; omega
          · rw [hl]; omega

/-- C10. First-parse include redaction preserves offsets: the redacted string has the
length of the original, has a newline at exactly the positions where the original has
one, and wherever it differs from the original it holds a space and the position lies
in a line of the original that begins with `#include`. -/
theorem removeIncludes_preserves_offsets (str : List Char) :
    (removeIncludes str).length = str.length ∧
    ∀ i, ((removeIncludes str)[i]? = some '\n' ↔ str[i]? = some '\n') ∧
      ((removeIncludes str)[i]? ≠ str[i]? →
        (removeIncludes str)[i]? = some ' ' ∧ InIncludeLine str i) := by
  obtain ⟨pos', hlen, _, hdiff⟩ :=
    removeIncludesLoop_inv str (str.length + 1) str 0 ⟨rfl, fun _ _ => rfl, fun _ h => absurd rfl h⟩
  refine ⟨hlen, fun i => ⟨?_, hdiff i⟩⟩
  by_cases he : (removeIncludes str)[i]? = str[i]?
  · rw [he]
  · obtain ⟨hsp, start, hs, _, _, hno⟩ := hdiff i he
    have hn := hno i (by omega) (by omega)
    constructor
    · intro hc
      have : (removeIncludes str)[i]? = some ' ' := hsp
      rw [this] at hc
      exact absurd hc (by decide)
    · intro hc
      exact absurd hc hn
/-! ## Include removal: which lines are blanked -/

theorem findFrom_none (pat : List Char) (s : List Char) (i : Nat)
    (h : findFrom pat s i = none) :
    ∀ e, e ≤ s.length → pat.isPrefixOf (s.drop e) = false := by
  induction s generalizing i with
  | nil =>
    intro e he
    simp only [findFrom] at h
    split at h
    · cases h
    · rename_i hp
      cases pat with
      | nil => exact absurd rfl hp
      | cons c cs => simp [List.isPrefixOf]
  | cons c cs ih =>
    intro e he
    simp only [findFrom] at h
    split at h
    · cases h
    · rename_i hp
      cases e with
      | zero => exact Bool.eq_false_iff.mpr hp
      | succ e =>
        simp only [List.length_cons] at he
        simpa using ih (i + 1) h e (by omega)

theorem find_none (str pat : List Char) (pos : Nat) (h : find str pat pos = none) :
    ∀ j, pos ≤ j → j ≤ str.length → pat.isPrefixOf (str.drop j) = false := by
  intro j hj hjl
  unfold find at h
  split at h
  · omega
  · have := findFrom_none pat _ pos h (j - pos) (by simp only [List.length_drop]; omega)
    rw [List.drop_drop] at this
    have e : pos + (j - pos) = j := by omega
    simpa [e, Nat.add_comm] using this

theorem includeLine_newline_far (s : List Char) (start q : Nat) (h : IncludeLine s start q) :
    start + 8 ≤ q := by
  obtain ⟨_, hpre, hsq, hq, _⟩ := h
  by_contra hc
  have := isPrefixOf_drop_getElem? _ _ _ hpre (q - start) (by simp [includeDirective]; omega)
  have e : start + (q - start) = q := by omega
  rw [e, hq] at this
  exact includeDirective_no_newline (q - start) (by omega) this.symm

theorem drop_eq_of_redactInv (s str : List Char) (pos j : Nat) (h : RedactInv s str pos)
    (hj : pos ≤ j) : str.drop j = s.drop j := by
  apply List.ext_getElem?
  intro n
  rw [List.getElem?_drop, List.getElem?_drop]
  exact h.2.1 (j + n) (by omega)

theorem blanked_step (s str : List Char) (pos sp q : Nat) (h : RedactInv s str pos)
    (hdone : ∀ start e, IncludeLine s start e → start < pos → Blanked str start e)
    (h1 : find str includeDirective pos = some sp)
    (h2 : find str ['\n'] (sp + 8) = some q) :
    ∀ start e, IncludeLine s start e → start < q + 1 →
      Blanked
        (if sp = 0 ∨ str[sp - 1]? = some '\n' then replaceWithSpaces str sp (q - sp) else str)
        start e := by
  obtain ⟨hsp, _, hpre, hfirst⟩ := find_some _ _ _ _ h1
  obtain ⟨hq, hqlen, hnl, hmin⟩ := find_some _ _ _ _ h2
  have hb : sp + (q - sp) ≤ str.length := by omega
  intro start e hl hlt i hi hie
  by_cases hsp0 : start < pos
  · have hbl := hdone start e hl hsp0 i hi hie
    split
    · rw [getElem?_replaceWithSpaces _ _ _ _ hb]
      split
      · rfl
      · exact hbl
    · exact hbl
  · have hge : pos ≤ start := by omega
    have hfar := includeLine_newline_far s start e hl
    obtain ⟨hstart, hpres, hse, he, hnone⟩ := hl
    have hprestr : includeDirective.isPrefixOf (str.drop start) = true := by
      rw [drop_eq_of_redactInv s str pos start h hge]
      exact hpres
    have hle : sp ≤ start := by
      by_contra hc
      have := hfirst start hge (by omega)
      rw [hprestr] at this
      cases this
    have hsame : ∀ j, pos ≤ j → str[j]? = s[j]? := fun j hj => h.2.1 j (by omega)
    have hnosp : ∀ j, sp ≤ j → j < q → s[j]? ≠ some '\n' := by
      intro j hj hjq
      rw [← hsame j (by omega)]
      by_cases hj8 : j < sp + 8
      · have := isPrefixOf_drop_getElem? _ _ _ hpre (j - sp)
          (by simp [includeDirective]; omega)
        have e' : sp + (j - sp) = j := by omega
        rw [e'] at this
        rw [this]
        exact includeDirective_no_newline _ (by omega)
      · have := hmin j (by omega) hjq
        intro hc
        rw [(newline_isPrefixOf_drop str j).mpr hc] at this
        cases this
    have heq : start = sp := by
      by_contra hne
      rcases hstart with h0 | hprev
      · omega
      · exact hnosp (start - 1) (by omega) (by omega) hprev
    subst heq
    have hqe : e = q := by
      have hsq : s[q]? = some '\n' := by
        rw [← hsame q (by omega)]
        exact (newline_isPrefixOf_drop str q).mp hnl
      by_contra hne
      rcases Nat.lt_or_gt_of_ne hne with hlt' | hgt
      · exact hnosp e (by omega) hlt' he
      · exact hnone q (by omega) hgt hsq
    subst hqe
    have hcond : start = 0 ∨ str[start - 1]? = some '\n' := by
      rcases hstart with h0 | hprev
      · exact Or.inl h0
      · by_cases h0 : start = 0
        · exact Or.inl h0
        · right
          rw [h.2.1 (start - 1) (by omega)]
          exact hprev
    rw [if_pos hcond, getElem?_replaceWithSpaces _ _ _ _ hb, if_pos (by omega)]

theorem removeIncludesLoop_blanks (s : List Char) (fuel : Nat) (str : List Char) (pos : Nat)
    (h : RedactInv s str pos)
    (hdone : ∀ start e, IncludeLine s start e → start < pos → Blanked str start e)
    (hfuel : str.length + 1 ≤ pos + fuel) :
    ∀ start e, IncludeLine s start e → Blanked (removeIncludesLoop fuel str pos) start e := by
  induction fuel generalizing str pos with
  | zero =>
    intro start e hl
    have hq : e < s.length := by
      by_contra hc
      have := hl.2.2.2.1
      rw [List.getElem?_eq_none (by omega)] at this
      cases this
    exact hdone start e hl (by have := hl.2.2.1; have := h.1; omega)
  | succ fuel ih =>
    intro start e hl
    have hfar := includeLine_newline_far s start e hl
    have he : e < s.length := by
      by_contra hc
      have := hl.2.2.2.1
      rw [List.getElem?_eq_none (by omega)] at this
      cases this
    have hlen := h.1
    cases h1 : find str includeDirective pos with
    | none =>
      simp only [removeIncludesLoop, h1]
      by_cases hlt : start < pos
      · exact hdone start e hl hlt
      · have := find_none _ _ _ h1 start (by omega) (by omega)
        rw [drop_eq_of_redactInv s str pos start h (by omega), hl.2.1] at this
        cases this
    | some sp =>
      obtain ⟨hsp, _, hpre, hfirst⟩ := find_some _ _ _ _ h1
      cases h2 : find str ['\n'] (sp + 8) with
      | none =>
        simp only [removeIncludesLoop, h1, h2]
        by_cases hlt : start < pos
        · exact hdone start e hl hlt
        · have hle : sp ≤ start := by
            by_contra hc
            have := hfirst start (by omega) (by omega)
            rw [drop_eq_of_redactInv s str pos start h (by omega), hl.2.1] at this
            cases this
          have := find_none _ _ _ h2 e (by omega) (by omega)
          have hstr : str[e]? = some '\n' := by
            rw [h.2.1 e (by omega)]
            exact hl.2.2.2.1
          rw [(newline_isPrefixOf_drop str e).mpr hstr] at this
          cases this
      | some q =>
        simp only [removeIncludesLoop, h1, h2]
        obtain ⟨hq, hqlen, _, _⟩ := find_some _ _ _ _ h2
        have hstep := redactInv_step s str pos sp q h h1 h2
        refine ih _ _ hstep (blanked_step s str pos sp q h hdone h1 h2) ?_ start e hl
        rw [hstep.1, ← hlen]
        omega

theorem removeIncludes_redactInv (str : List Char) :
    ∃ pos, RedactInv str (removeIncludes str) pos :=
  removeIncludesLoop_inv str (str.length + 1) str 0
    ⟨rfl, fun _ _ => rfl, fun _ h => absurd rfl h⟩

theorem redactInv_unchanged (s r : List Char) (pos i : Nat) (c : Char)
    (h : RedactInv s r pos) (hc : c ≠ ' ') :
    (r[i]? = some c → s[i]? = some c) ∧ (c = '\n' → s[i]? = some c → r[i]? = some c) := by
  constructor
  · intro hr
    by_contra hne
    have := (h.2.2 i (by rw [hr]; exact fun e => hne e.symm)).1
    rw [hr] at this
    exact hc (Option.some.inj this)
  · intro hn hs
    by_contra hne
    obtain ⟨_, start, _, _, _, hno⟩ := h.2.2 i (by rw [hs]; exact hne)
    subst hn
    exact hno i (by omega) (by omega) hs

theorem isPrefixOf_drop_of_getElem? (pat l : List Char) (k : Nat)
    (h : ∀ j, j < pat.length → l[k + j]? = pat[j]?) :
    pat.isPrefixOf (l.drop k) = true := by
  induction pat generalizing k with
  | nil => simp [List.isPrefixOf]
  | cons c cs ih =>
    have h0 := h 0 (by simp)
    simp only [Nat.add_zero, List.getElem?_cons_zero] at h0
    have hk : k < l.length := by
      by_contra hc
      rw [List.getElem?_eq_none (by omega)] at h0
      cases h0
    rw [List.getElem?_eq_getElem hk] at h0
    rw [List.drop_eq_getElem_cons hk, List.isPrefixOf]
    simp only [Bool.and_eq_true, beq_iff_eq]
    refine ⟨(Option.some.inj h0).symm, ih (k + 1) ?_⟩
    intro j hj
    have := h (j + 1) (by simp; omega)
    simpa [Nat.add_assoc, Nat.add_comm 1 j] using this

/-- C11 (the code at the failing input). A last line that begins with `#include` and
has no newline after it is not redacted: the loop stops at line 156 and the
first-parse snapshot still holds the directive. -/
theorem removeIncludes_keeps_unterminated_last_line :
    removeIncludes "#include <a>".toList = "#include <a>".toList ∧
    removeIncludes "int x;\n#include <a>".toList = "int x;\n#include <a>".toList := by
  decide

theorem includeLine_example : IncludeLine "#include <a>\nint x;".toList 0 12 := by
  refine ⟨Or.inl rfl, by decide, by decide, by decide, ?_⟩
  have : ∀ j, j < 12 → "#include <a>\nint x;".toList[j]? ≠ some '\n' := by decide
  exact fun j _ hj => this j hj

/-- Include redaction is complete for terminated lines: every line of the buffer that
begins with `#include` and is terminated by a newline is replaced entirely by spaces
in the first-parse snapshot, and no newline-terminated line of the redacted snapshot
begins with `#include`. -/
theorem removeIncludes_blanks_terminated_lines (str : List Char) :
    (∀ start q, IncludeLine str start q → Blanked (removeIncludes str) start q) ∧
    (∀ start q, ¬ IncludeLine (removeIncludes str) start q) := by
  have hblank : ∀ start q, IncludeLine str start q →
      Blanked (removeIncludes str) start q :=
    removeIncludesLoop_blanks str (str.length + 1) str 0
      ⟨rfl, fun _ _ => rfl, fun _ h => absurd rfl h⟩
      (fun _ _ _ h => absurd h (Nat.not_lt_zero _)) (by omega)
  refine ⟨hblank, ?_⟩
  intro start q hl
  obtain ⟨pos, hinv⟩ := removeIncludes_redactInv str
  have hfar := includeLine_newline_far _ start q hl
  obtain ⟨hstart, hpre, hsq, hq, hnone⟩ := hl
  have hchar : ∀ j, j < 8 → str[start + j]? = includeDirective[j]? := by
    intro j hj
    have hr := isPrefixOf_drop_getElem? _ _ _ hpre j (by simp [includeDirective]; omega)
    have hj' : ∀ j, j < 8 → ∃ c, includeDirective[j]? = some c ∧ c ≠ ' ' := by decide
    obtain ⟨c, hc, hcs⟩ := hj' j hj
    rw [hc] at hr ⊢
    exact (redactInv_unchanged str _ pos (start + j) c hinv hcs).1 hr
  have horig : IncludeLine str start q := by
    refine ⟨?_, isPrefixOf_drop_of_getElem? _ _ _
      (fun j hj => hchar j (by simpa [includeDirective] using hj)), hsq, ?_, ?_⟩
    · rcases hstart with h0 | hprev
      · exact Or.inl h0
      · exact Or.inr ((redactInv_unchanged str _ pos (start - 1) '\n' hinv (by decide)).1 hprev)
    · exact (redactInv_unchanged str _ pos q '\n' hinv (by decide)).1 hq
    · intro j hj hjq hs
      exact hnone j hj hjq
        ((redactInv_unchanged str _ pos j '\n' hinv (by decide)).2 rfl hs)
  have hsp := hblank start q horig start (Nat.le_refl _) (by omega)
  have h0 := isPrefixOf_drop_getElem? _ _ _ hpre 0 (by simp [includeDirective])
  rw [Nat.add_zero, hsp] at h0
  exact absurd h0 (by decide)

theorem removeIncludes_blanks_terminated_lines_witness :
    IncludeLine "#include <a>\nint x;".toList 0 12 ∧
    Blanked (removeIncludes "#include <a>\nint x;".toList) 0 12 :=
  ⟨includeLine_example,
    (removeIncludes_blanks_terminated_lines "#include <a>\nint x;".toList).1 0 12
      includeLine_example⟩

theorem removeIncludesLoop_keeps_unterminated (s : List Char) (fuel : Nat) (str : List Char)
    (pos i : Nat) (h : RedactInv s str pos) (hi : ∀ j, i ≤ j → s[j]? ≠ some '\n')
    (hsame : str[i]? = s[i]?) : (removeIncludesLoop fuel str pos)[i]? = s[i]? := by
  induction fuel generalizing str pos with
  | zero => exact hsame
  | succ fuel ih =>
    cases h1 : find str includeDirective pos with
    | none =>
      simp only [removeIncludesLoop, h1]
      exact hsame
    | some sp =>
      cases h2 : find str ['\n'] (sp + 8) with
      | none =>
        simp only [removeIncludesLoop, h1, h2]
        exact hsame
      | some q =>
        simp only [removeIncludesLoop, h1, h2]
        obtain ⟨hsp, _, _, _⟩ := find_some _ _ _ _ h1
        obtain ⟨hq, hqlen, hnl, _⟩ := find_some _ _ _ _ h2
        refine ih _ _ (redactInv_step s str pos sp q h h1 h2) ?_
        split
        · rw [getElem?_replaceWithSpaces _ _ _ _ (by omega)]
          split
          · rename_i hin
            have hsq : s[q]? = some '\n' := by
              rw [← h.2.1 q (by omega)]
              exact (newline_isPrefixOf_drop str q).mp hnl
            exact absurd hsq (hi q (by omega))
          · exact hsame
        · exact hsame

/-- Whatever follows the last newline of the buffer is kept by the include removal, a
last line that begins with `#include` included. -/
theorem removeIncludes_keeps_unterminated (str : List Char) (i : Nat)
    (hi : ∀ j, i ≤ j → str[j]? ≠ some '\n') : (removeIncludes str)[i]? = str[i]? :=
  removeIncludesLoop_keeps_unterminated str (str.length + 1) str 0 i
    ⟨rfl, fun _ _ => rfl, fun _ h => absurd rfl h⟩ hi rfl
/-! ## Completion rows are never empty -/

theorem mapAssign_ne_nil (m : List (String × String)) (key value : String) :
    mapAssign m key value ≠ [] := by
  cases m with
  | nil => simp [mapAssign]
  | cons e rest =>
    obtain ⟨k, v⟩ := e
    simp only [mapAssign]
    split
    · simp
    · split <;> simp

theorem fillRows_ne_nil (acdata : List AutoCompleteData) (rows : List (String × String))
    (h : rows ≠ []) : fillRows acdata rows ≠ [] := by
  induction acdata generalizing rows with
  | nil => simpa [fillRows] using h
  | cons data rest ih =>
    simp only [fillRows]
    split
    · exact ih _ (mapAssign_ne_nil _ _ _)
    · exact ih _ h

theorem fillRows_all_empty (acdata : List AutoCompleteData) (rows : List (String × String))
    (h : ∀ data ∈ acdata, insertableText data = "") : fillRows acdata rows = rows := by
  induction acdata generalizing rows with
  | nil => rfl
  | cons data rest ih =>
    have hd : (scanChunks data.chunks ("", "")).1 = "" := h data (by simp)
    have hr := ih rows (fun d hd => h d (by simp [hd]))
    simp only [fillRows]
    rw [if_neg (by rw [hd]; decide)]
    exact hr

/-- C6. Completion non-emptiness: for every list of backend results the row map built
by `on_key_release` is non-empty; when the backend yields no suggestion, and likewise
when every suggestion has empty insertable text, it is exactly the single sentinel
entry `No suggestions found...` mapped to the empty string. -/
theorem completionRows_nonempty (results : List (List CompletionChunk)) :
    completionRows (get_autocomplete_suggestions results) ≠ [] ∧
    (results = [] →
      completionRows (get_autocomplete_suggestions results) =
        [("No suggestions found...", "")]) ∧
    ((∀ data ∈ get_autocomplete_suggestions results, insertableText data = "") →
      completionRows (get_autocomplete_suggestions results) =
        [("No suggestions found...", "")]) := by
  refine ⟨?_, ?_, ?_⟩
  · unfold completionRows
    simp only
    split
    · exact mapAssign_ne_nil _ _ _
    · rename_i h
      intro hc
      rw [hc] at h
      exact h rfl
  · intro h
    subst h
    rfl
  · intro h
    unfold completionRows
    rw [fillRows_all_empty _ _ h]
    rfl

/-! ## Completion rows: one entry per display text, the last suggestion wins -/

theorem lookup_cons_eq (rest : List (String × String)) (k k' v : String) :
    List.lookup k ((k', v) :: rest) = if k = k' then some v else List.lookup k rest := by
  by_cases h : k = k'
  · have : (k == k') = true := by simpa using h
    rw [if_pos h, List.lookup, this]
  · have : (k == k') = false := by simpa using h
    rw [if_neg h, List.lookup, this]

theorem lookup_mapAssign (m : List (String × String)) (key value k : String) :
    (mapAssign m key value).lookup k = if k = key then some value else m.lookup k := by
  induction m with
  | nil =>
    simp only [mapAssign, lookup_cons_eq]
  | cons e rest ih =>
    obtain ⟨k', v'⟩ := e
    simp only [mapAssign]
    by_cases h1 : key = k'
    · subst h1
      rw [if_pos rfl, lookup_cons_eq, lookup_cons_eq]
      split <;> rfl
    · rw [if_neg h1]
      by_cases h2 : key < k'
      · rw [if_pos h2, lookup_cons_eq]
      · rw [if_neg h2, lookup_cons_eq, lookup_cons_eq, ih]
        by_cases hk' : k = k'
        · have hne : ¬ k = key := fun e => h1 (e.symm.trans hk')
          rw [if_pos hk', if_neg hne, if_pos hk']
        · rw [if_neg hk', if_neg hk']

theorem mem_mapAssign (m : List (String × String)) (key value : String)
    (e : String × String) (h : e ∈ mapAssign m key value) : e.1 = key ∨ e ∈ m := by
  induction m with
  | nil =>
    simp only [mapAssign, List.mem_singleton] at h
    exact Or.inl (by rw [h])
  | cons e' rest ih =>
    obtain ⟨k', v'⟩ := e'
    simp only [mapAssign] at h
    split at h
    · rcases List.mem_cons.mp h with h | h
      · exact Or.inl (by rw [h])
      · exact Or.inr (List.mem_cons_of_mem _ h)
    · split at h
      · rcases List.mem_cons.mp h with h | h
        · exact Or.inl (by rw [h])
        · exact Or.inr h
      · rcases List.mem_cons.mp h with h | h
        · exact Or.inr (by rw [h]; exact List.mem_cons_self _ _)
        · rcases ih h with h | h
          · exact Or.inl h
          · exact Or.inr (List.mem_cons_of_mem _ h)

theorem sortedKeys_mapAssign (m : List (String × String)) (key value : String)
    (h : SortedKeys m) : SortedKeys (mapAssign m key value) := by
  induction m with
  | nil => simp [mapAssign, SortedKeys]
  | cons e rest ih =>
    obtain ⟨k', v'⟩ := e
    unfold SortedKeys at h ih ⊢
    rw [List.pairwise_cons] at h
    simp only [mapAssign]
    by_cases h1 : key = k'
    · rw [if_pos h1, List.pairwise_cons]
      subst h1
      exact h
    · rw [if_neg h1]
      by_cases h2 : key < k'
      · rw [if_pos h2, List.pairwise_cons, List.pairwise_cons]
        refine ⟨?_, h⟩
        intro b hb
        rcases List.mem_cons.mp hb with hb | hb
        · rw [hb]; exact h2
        · exact lt_trans h2 (h.1 b hb)
      · rw [if_neg h2, List.pairwise_cons]
        refine ⟨?_, ih h.2⟩
        intro b hb
        rcases mem_mapAssign rest key value b hb with hb | hb
        · rw [hb]
          exact lt_of_le_of_ne (not_lt.mp h2) (Ne.symm h1)
        · exact h.1 b hb

theorem sortedKeys_fillRows (acdata : List AutoCompleteData) (rows : List (String × String))
    (h : SortedKeys rows) : SortedKeys (fillRows acdata rows) := by
  induction acdata generalizing rows with
  | nil => exact h
  | cons data rest ih =>
    simp only [fillRows]
    split
    · exact ih _ (sortedKeys_mapAssign _ _ _ h)
    · exact ih _ h

theorem nodup_keys_of_sortedKeys (rows : List (String × String)) (h : SortedKeys rows) :
    (rows.map Prod.fst).Nodup := by
  unfold SortedKeys at h
  rw [List.Nodup, List.pairwise_map]
  exact h.imp (fun hab => ne_of_lt hab)

theorem length_pos_iff_ne_empty (s : String) : s.length > 0 ↔ s ≠ "" := by
  constructor
  · intro h he
    rw [he] at h
    exact absurd h (by decide)
  · intro h
    by_contra hc
    apply h
    have h0 : s.data.length = 0 := by
      have : s.length = s.data.length := rfl
      omega
    exact String.ext (List.length_eq_zero.mp h0)

theorem lookup_fillRows (acdata : List AutoCompleteData) (rows : List (String × String))
    (display : String) :
    (fillRows acdata rows).lookup display =
      match (suggestionsFor display acdata).getLast? with
      | some data => some (insertableText data)
      | none => rows.lookup display := by
  induction acdata generalizing rows with
  | nil => simp [fillRows, suggestionsFor]
  | cons data rest ih =>
    have hrest : ∀ rows', (fillRows rest rows').lookup display =
        match (suggestionsFor display rest).getLast? with
        | some d => some (insertableText d)
        | none => rows'.lookup display := fun rows' => ih rows'
    have hfill : fillRows (data :: rest) rows =
        fillRows rest (if (insertableText data).length > 0 then
          mapAssign rows (displayText data) (insertableText data) else rows) := by
      simp only [fillRows, insertableText, displayText, returnValue]
      split <;> rfl
    rw [hfill, hrest]
    unfold suggestionsFor at *
    rw [List.filter_cons]
    cases hl : (List.filter (fun d => decide (insertableText d ≠ "" ∧ displayText d = display))
        rest).getLast? with
    | some d =>
      cases hf : List.filter
          (fun d => decide (insertableText d ≠ "" ∧ displayText d = display)) rest with
      | nil =>
        rw [hf] at hl
        cases hl
      | cons b l =>
        rw [hf] at hl
        by_cases hp : decide (insertableText data ≠ "" ∧ displayText data = display) = true
        · rw [if_pos hp, List.getLast?_cons_cons, hl]
        · rw [if_neg hp, hl]
    | none =>
      have hnil : List.filter (fun d => decide (insertableText d ≠ "" ∧ displayText d = display))
          rest = [] := List.getLast?_eq_none_iff.mp hl
      rw [hnil]
      by_cases hp : insertableText data ≠ "" ∧ displayText data = display
      · have hdec : decide (insertableText data ≠ "" ∧ displayText data = display) = true :=
          decide_eq_true hp
        have hpos : (insertableText data).length > 0 := (length_pos_iff_ne_empty _).mpr hp.1
        rw [if_pos hdec, if_pos hpos]
        simp only [List.getLast?_singleton]
        rw [lookup_mapAssign, if_pos hp.2.symm]
      · have hdec : ¬ decide (insertableText data ≠ "" ∧ displayText data = display) = true :=
          fun h => hp (of_decide_eq_true h)
        rw [if_neg hdec]
        simp only [List.getLast?_nil]
        by_cases he : insertableText data ≠ ""
        · have hpos : (insertableText data).length > 0 := (length_pos_iff_ne_empty _).mpr he
          rw [if_pos hpos, lookup_mapAssign, if_neg (fun e => hp ⟨he, e.symm⟩)]
        · have hpos : ¬ (insertableText data).length > 0 :=
            fun h => he ((length_pos_iff_ne_empty _).mp h)
          rw [if_neg hpos]

/-- C12. Completion suggestions are unique by display text with last-write-wins: the
row map built by `on_key_release` has at most one entry per display text, and when
suggestions with non-empty insertable text produce a display text, its entry holds
the insertable text of the last of them in backend order. -/
theorem completionRows_unique_last_wins (results : List (List CompletionChunk)) :
    ((completionRows (get_autocomplete_suggestions results)).map Prod.fst).Nodup ∧
    ∀ display data,
      (suggestionsFor display (get_autocomplete_suggestions results)).getLast? = some data →
      (completionRows (get_autocomplete_suggestions results)).lookup display =
        some (insertableText data) := by
  constructor
  · apply nodup_keys_of_sortedKeys
    unfold completionRows
    simp only
    split
    · exact sortedKeys_mapAssign _ _ _
        (sortedKeys_fillRows _ _ (by simp [SortedKeys]))
    · exact sortedKeys_fillRows _ _ (by simp [SortedKeys])
  · intro display data h
    have hl := lookup_fillRows (get_autocomplete_suggestions results) [] display
    rw [h] at hl
    unfold completionRows
    simp only
    split
    · rename_i he
      have hnil : fillRows (get_autocomplete_suggestions results) [] = [] := by
        simpa using he
      rw [hnil] at hl
      simp [List.lookup] at hl
    · exact hl

theorem completionRows_unique_last_wins_witness :
    (suggestionsFor "a --> b --> " (get_autocomplete_suggestions collidingResults)).getLast? =
      some ⟨[⟨"b --> ", .CompletionChunk_ResultType⟩, ⟨"a", .other 1⟩]⟩ ∧
    (completionRows (get_autocomplete_suggestions collidingResults)).lookup "a --> b --> " =
      some "a" :=
  ⟨by decide,
    (completionRows_unique_last_wins collidingResults).2 "a --> b --> "
      ⟨[⟨"b --> ", .CompletionChunk_ResultType⟩, ⟨"a", .other 1⟩]⟩ (by decide)⟩

/-! ## Re-extraction: tokens, tags and diagnostics -/

theorem extract_tokens_loop_eq (tokens : List Token) (ranges : List Range) :
    extract_tokens_loop tokens ranges = ranges ++ tokens.filterMap tokenRange := by
  induction tokens generalizing ranges with
  | nil => simp [extract_tokens_loop]
  | cons token rest ih =>
    simp only [extract_tokens_loop, tokenRange, highlight_cursor, highlight_token]
    by_cases h0 : token.kind = 0
    · simp [h0, ih, tokenRange]
    · by_cases h1 : token.kind = 1
      · simp [h1, ih, tokenRange]
      · by_cases h2 : token.kind = 2
        · simp [h2, ih, tokenRange]
        · by_cases h3 : token.kind = 3
          · simp [h3, ih, tokenRange]
          · by_cases h4 : token.kind = 4
            · simp [h4, ih, tokenRange]
            · simp [h0, h1, h2, h3, h4, ih, tokenRange]

theorem tokenRange_eq_none (token : Token) :
    tokenRange token = none ↔ (token.kind < 0 ∨ 4 < token.kind) := by
  unfold tokenRange
  constructor
  · intro h
    split at h
    · cases h
    · split at h
      · cases h
      · split at h
        · cases h
        · split at h
          · cases h
          · omega
  · intro h
    rw [if_neg (by omega), if_neg (by omega), if_neg (by omega), if_neg (by omega)]

theorem update_syntax_loop_eq (config : Config) (ranges : List Range) (tags : List AppliedTag) :
    update_syntax_loop config ranges tags =
      .ok (tags ++ ranges.filterMap fun range =>
        (config.types.lookup (toString range.kind)).map fun name => rangeTag name range) := by
  induction ranges generalizing tags with
  | nil => simp [update_syntax_loop]
  | cons range rest ih =>
    simp only [update_syntax_loop, mapAt]
    cases h : config.types.lookup (toString range.kind) with
    | none => simp [h, ih]
    | some name => simp [h, ih, rangeTag]

theorem update_diagnostics_loop_eq (config : Config) (file_path : String) (rg : Bool)
    (diagnostics : List Diagnostic) (tooltips : List DiagnosticTooltip)
    (tags : List AppliedTag) :
    update_diagnostics_loop config file_path rg diagnostics (tooltips, tags) =
      (tooltips ++ (diagnostics.filter fun d => d.path = file_path).map diagnosticTooltip,
        tags ++ (diagnostics.filter fun d => d.path = file_path).map
          (diagnosticUnderline config rg)) := by
  induction diagnostics generalizing tooltips tags with
  | nil => simp [update_diagnostics_loop]
  | cons d rest ih =>
    simp only [update_diagnostics_loop]
    by_cases hp : d.path = file_path
    · simp [hp, ih, diagnosticTooltip, diagnosticUnderline, diagnosticClass]
    · simp [hp, ih]

theorem update_syntax_eq (config : Config) (ranges : List Range) (a : Annotations) :
    update_syntax config ranges a =
      .ok (if ranges = [] then a
        else { a with tags := ranges.filterMap fun range =>
          (config.types.lookup (toString range.kind)).map fun name => rangeTag name range }) := by
  unfold update_syntax
  cases ranges with
  | nil => simp
  | cons r rest => simp [update_syntax_loop_eq]

/-- C8. `update_diagnostics` produces exactly one tooltip and one underline per backend
diagnostic whose path is the view's `file_path`, in backend order, and none for the
diagnostics of other files; a kept diagnostic gets the class `diagnostic_warning` when
its severity is at most `CXDiagnostic_Warning` and `diagnostic_error` otherwise. -/
theorem update_diagnostics_filters_and_classifies (config : Config) (file_path : String)
    (rg : Bool) (tu : TranslationUnit) (a : Annotations) :
    (update_diagnostics config file_path rg tu a).diagnostic_tooltips =
      (tu.diagnostics.filter fun d => d.path = file_path).map diagnosticTooltip ∧
    (update_diagnostics config file_path rg tu a).tags =
      a.tags ++ (tu.diagnostics.filter fun d => d.path = file_path).map
        (diagnosticUnderline config rg) ∧
    (update_diagnostics config file_path rg tu a).type_tooltips = a.type_tooltips ∧
    ∀ d : Diagnostic,
      (diagnosticTooltip d).diagnostic_tag_name =
        (if d.severity ≤ CXDiagnostic_Warning then "diagnostic_warning"
          else "diagnostic_error") := by
  refine ⟨?_, ?_, rfl, fun d => rfl⟩
  · simp [update_diagnostics, update_diagnostics_loop_eq]
  · simp [update_diagnostics, update_diagnostics_loop_eq]

/-- C9. Highlighting never fails on an unrecognized category: `extract_tokens` emits
the ranges of the tokens whose kind is in 0..4, in order, and nothing for any other
token; `update_syntax` always returns normally, and when there is a range it leaves on
the buffer exactly the tags `config.types[kind]` of the ranges whose kind, as decimal
text, is a key of `config.types`, every other range being skipped. -/
theorem highlighting_skips_unrecognized (config : Config) (file_path : String)
    (tu : TranslationUnit) (a : Annotations) (ranges : List Range) :
    (extract_tokens file_path tu a).1 = tu.tokens.filterMap tokenRange ∧
    (∀ token : Token, tokenRange token = none ↔ (token.kind < 0 ∨ 4 < token.kind)) ∧
    update_syntax config ranges a =
      .ok (if ranges = [] then a
        else { a with tags := ranges.filterMap fun range =>
          (config.types.lookup (toString range.kind)).map fun name => rangeTag name range }) := by
  refine ⟨?_, tokenRange_eq_none, update_syntax_eq config ranges a⟩
  simp [extract_tokens, extract_tokens_loop_eq]

/-- C7 (amended). Idempotent re-extraction when the backend yields at least one range:
the re-extraction of the `parse_done` handler returns normally, its result is the same
whatever annotations were there before, and running it again on its own result gives
that result again. -/
theorem reExtract_idempotent (config : Config) (file_path : String) (rg : Bool)
    (tu : TranslationUnit) (a a' : Annotations)
    (h : (extract_tokens file_path tu a).1 ≠ []) :
    ∃ r, reExtract config file_path rg tu a = .ok r ∧
      reExtract config file_path rg tu a' = .ok r ∧
      reExtract config file_path rg tu r = .ok r := by
  have hr : extract_tokens_loop tu.tokens [] ≠ [] := h
  have key : ∀ b : Annotations, reExtract config file_path rg tu b =
      .ok { tags := (tu.tokens.filterMap tokenRange).filterMap (fun range =>
              (config.types.lookup (toString range.kind)).map fun name => rangeTag name range)
              ++ (tu.diagnostics.filter fun d => d.path = file_path).map
                (diagnosticUnderline config rg),
            type_tooltips := update_types_loop file_path tu.tokens [],
            diagnostic_tooltips :=
              (tu.diagnostics.filter fun d => d.path = file_path).map diagnosticTooltip } := by
    intro b
    have h2 := update_syntax_eq config (extract_tokens_loop tu.tokens [])
      (update_types file_path tu.tokens b)
    rw [if_neg hr] at h2
    simp only [reExtract, extract_tokens, h2]
    simp [update_diagnostics, update_diagnostics_loop_eq, update_types, extract_tokens_loop_eq]
  exact ⟨_, key a, key a', key _⟩

theorem reExtract_idempotent_witness :
    (extract_tokens "a.cc" exampleUnit noAnnotations).1 ≠ [] ∧
    ∃ r, reExtract exampleConfig "a.cc" true exampleUnit noAnnotations = .ok r ∧
      reExtract exampleConfig "a.cc" true exampleUnit staleAnnotations = .ok r ∧
      reExtract exampleConfig "a.cc" true exampleUnit r = .ok r :=
  ⟨by decide,
    reExtract_idempotent exampleConfig "a.cc" true exampleUnit noAnnotations staleAnnotations
      (by decide)⟩

/-- C7 (as stated, refuted). With no range extracted the re-extraction keeps the tags
that were on the buffer, so its result depends on the annotations present before: from
one stale keyword tag the tag survives, from no annotations there is none. -/
theorem reExtract_keeps_tags_without_ranges :
    reExtract exampleConfig "a.cc" true blankUnit staleAnnotations = .ok staleAnnotations ∧
    reExtract exampleConfig "a.cc" true blankUnit noAnnotations = .ok noAnnotations ∧
    staleAnnotations ≠ noAnnotations := by
  refine ⟨rfl, rfl, by decide⟩

/-! ## Compilation arguments -/

theorem loopBound_of_le (size : Nat) (h4 : 4 ≤ size) (hs : size < sizeModulus) :
    loopBound size = size - 4 := by
  unfold loopBound sizeModulus at *
  omega

theorem loopBound_of_lt (size : Nat) (h4 : size < 4) : size < loopBound size := by
  unfold loopBound sizeModulus
  omega

theorem sliceLoop_in_bounds (fuel : Nat) (lol : List String) (a : Nat)
    (arguments : List String) (h4 : 4 ≤ lol.length) (hs : lol.length < sizeModulus)
    (hfuel : lol.length - 4 - a < fuel) :
    sliceLoop fuel lol a arguments =
      .ok (arguments ++ (lol.drop a).take (lol.length - 4 - a)) := by
  induction fuel generalizing a arguments with
  | zero => omega
  | succ fuel ih =>
    rw [sliceLoop, loopBound_of_le _ h4 hs]
    by_cases ha : a < lol.length - 4
    · have hlt : a < lol.length := by omega
      rw [if_pos ha, List.getElem?_eq_getElem hlt]
      simp only
      rw [ih (a + 1) _ (by omega), List.drop_eq_getElem_cons hlt]
      have e : lol.length - 4 - a = (lol.length - 4 - (a + 1)) + 1 := by omega
      rw [e, List.take_succ_cons, List.append_assoc]
      rfl
    · rw [if_neg ha]
      have e : lol.length - 4 - a = 0 := by omega
      rw [e, List.take_zero, List.append_nil]

theorem sliceLoop_out_of_bounds (fuel : Nat) (lol : List String) (a : Nat)
    (arguments : List String) (h4 : lol.length < 4) (ha : a ≤ lol.length)
    (hfuel : lol.length - a < fuel) :
    sliceLoop fuel lol a arguments = .error (.out_of_bounds lol.length lol.length) := by
  induction fuel generalizing a arguments with
  | zero => omega
  | succ fuel ih =>
    have hb := loopBound_of_lt _ h4
    rw [sliceLoop, if_pos (by omega)]
    by_cases hlt : a < lol.length
    · rw [List.getElem?_eq_getElem hlt]
      simp only
      exact ih (a + 1) _ (by omega) (by omega)
    · have e : a = lol.length := by omega
      rw [List.getElem?_eq_none (by omega), e]

/-- The argument loop of one command, for every vector a program can hold: with at
least four elements it appends exactly the elements at the indices 1 .. size-5; with
fewer it reads outside the vector. -/
theorem sliceArguments_eq (lol : List String) (arguments : List String)
    (hs : lol.length < sizeModulus) :
    (4 ≤ lol.length →
      sliceArguments lol arguments =
        .ok (arguments ++ (lol.drop 1).take (lol.length - 5))) ∧
    (lol.length < 4 →
      sliceArguments lol arguments =
        .error (.out_of_bounds (max 1 lol.length) lol.length)) := by
  constructor
  · intro h4
    unfold sliceArguments
    rw [sliceLoop_in_bounds _ _ _ _ h4 hs (by omega)]
    have e : lol.length - 4 - 1 = lol.length - 5 := by omega
    rw [e]
  · intro h4
    unfold sliceArguments
    by_cases h0 : lol.length = 0
    · have hnil : lol = [] := List.length_eq_zero.mp h0
      subst hnil
      have hb : 1 < loopBound ([] : List String).length := by decide
      show sliceLoop (0 + 1) [] 1 arguments = _
      rw [sliceLoop, if_pos hb]
      rfl
    · rw [sliceLoop_out_of_bounds _ _ _ _ h4 (by omega) (by omega)]
      have e : max 1 lol.length = lol.length := by omega
      rw [e]

/-- C13 (as stated, refuted). With no compile command for the file, the argument list
of a `.h` file is not empty: it holds `-xc++`, and the backend is constructed with
it. -/
theorem header_gets_argument_without_commands :
    get_compilation_commands "a.h" [] = .ok ["-xc++"] ∧
    init_syntax_highlighting "a.h" [] [("a.h", "")] =
      .ok ⟨"a.h", ["-xc++"], [("a.h", "")]⟩ :=
  ⟨by decide, by rfl⟩

/-- C13 (amended). When the compilation database has no command for the file,
`get_compilation_commands` returns normally: the empty argument list, or the single
argument `-xc++` when the extension of the file path is `.h`; the backend is
constructed with that list. -/
theorem no_commands_no_arguments (file_path : String) (buffers : List (String × String)) :
    get_compilation_commands file_path [] =
      .ok (if extension file_path = ".h" then ["-xc++"] else []) ∧
    init_syntax_highlighting file_path [] buffers =
      .ok ⟨file_path, if extension file_path = ".h" then ["-xc++"] else [], buffers⟩ := by
  have h : get_compilation_commands file_path [] =
      .ok (if extension file_path = ".h" then ["-xc++"] else []) := by
    unfold get_compilation_commands
    simp only [commandsLoop]
    by_cases he : extension file_path = ".h"
    · rw [if_pos he, if_pos he]
      rfl
    · rw [if_neg he, if_neg he]
  refine ⟨h, ?_⟩
  unfold init_syntax_highlighting
  rw [h]

/-- C14 (the code at the failing input). For a command with three arguments the bound
`lol.size()-4` wraps round to `2^64 - 1`; the loop appends the elements at the
indices 1 and 2 and then reads index 3, outside the vector. Vectors of two, one and
no element are read at the indices 2, 1 and 1. -/
theorem slice_reads_outside_short_vector :
    loopBound 3 = 2 ^ 64 - 1 ∧
    sliceArguments ["clang++", "-c", "a.cc"] [] = .error (.out_of_bounds 3 3) ∧
    get_compilation_commands "a.cc" [["clang++", "-c", "a.cc"]] =
      .error (.out_of_bounds 3 3) ∧
    sliceArguments ["cc", "a.c"] [] = .error (.out_of_bounds 2 2) ∧
    sliceArguments ["cc"] [] = .error (.out_of_bounds 1 1) ∧
    sliceArguments [] [] = .error (.out_of_bounds 1 0) :=
  ⟨by decide, by decide, by decide, by decide, by decide, by decide⟩

/-! ## The coordinator: every step preserves the invariant -/

theorem inv_worker_wait_go_set (s : State) (h : Inv s) (hw : s.wpc = .wait_go)
    (hg : s.parse_thread_go = true) :
    Inv { s with wpc := .check_stop } := by
  obtain ⟨h1, h2, h3, h4, h5, h6, h7, h8, h9, h10, h11, h12⟩ := h
  refine ⟨?_, h2, ?_, ?_, ?_, h6, h7, ?_, ?_, ?_, ?_, h12⟩
  · clear h3 h4 h5 h6 h7 h8 h9 h10 h11 h12
    simp_all [WorkerPc.holdsBufferMap, MainPc.holdsBufferMap]
  · clear h1 h2 h4 h5 h6 h7 h8 h9 h10 h11 h12
    simp_all [WorkerPc.sawGo]
  · clear h1 h2 h3 h5 h6 h7 h8 h9 h10 h11 h12
    simp_all
  · clear h3 h4 h6 h7 h8 h9 h10 h11 h12
    simp_all [WorkerPc.reparsed, WorkerPc.holdsBufferMap, MainPc.holdsBufferMap]
  · clear h1 h2 h4 h7 h9 h10 h11 h12
    simp_all [Triggered, WorkerPc.sawGo, WorkerPc.doneDue, WorkerPc.reparsed, MainPc.willSetGo]
  · clear h1 h2 h5 h6 h7 h8 h10 h11 h12
    simp_all [Triggered, WorkerPc.sawGo, WorkerPc.doneDue, MainPc.willSetGo, MainPc.tokensDue,
      observe]
  · clear h1 h2 h5 h6 h7 h8 h9 h11 h12
    simp_all [Triggered, WorkerPc.sawGo, WorkerPc.doneDue, MainPc.willSetGo,
      MainPc.diagnosticsDue, observe]
  · clear h1 h2 h3 h4 h5 h6 h7 h8 h9 h10 h12
    simp_all [MainPc.pastJoin]

theorem inv_worker_wait_go_clear (s : State) (h : Inv s) (hw : s.wpc = .wait_go)
    (hg : s.parse_thread_go = false) :
    Inv { s with wpc := .wait_stop } := by
  obtain ⟨h1, h2, h3, h4, h5, h6, h7, h8, h9, h10, h11, h12⟩ := h
  refine ⟨?_, h2, ?_, ?_, ?_, h6, h7, ?_, ?_, ?_, ?_, h12⟩
  · clear h3 h4 h5 h6 h7 h8 h9 h10 h11 h12
    simp_all [WorkerPc.holdsBufferMap, MainPc.holdsBufferMap]
  · clear h1 h2 h4 h5 h6 h7 h8 h9 h10 h11 h12
    simp_all [WorkerPc.sawGo]
  · clear h1 h2 h3 h5 h6 h7 h8 h9 h10 h11 h12
    simp_all
  · clear h3 h4 h6 h7 h8 h9 h10 h11 h12
    simp_all [WorkerPc.reparsed, WorkerPc.holdsBufferMap, MainPc.holdsBufferMap]
  · clear h1 h2 h4 h7 h9 h10 h11 h12
    simp_all [Triggered, WorkerPc.sawGo, WorkerPc.doneDue, WorkerPc.reparsed, MainPc.willSetGo]
  · clear h1 h2 h5 h6 h7 h8 h10 h11 h12
    simp_all [Triggered, WorkerPc.sawGo, WorkerPc.doneDue, MainPc.willSetGo, MainPc.tokensDue,
      observe]
  · clear h1 h2 h5 h6 h7 h8 h9 h11 h12
    simp_all [Triggered, WorkerPc.sawGo, WorkerPc.doneDue, MainPc.willSetGo,
      MainPc.diagnosticsDue, observe]
  · clear h1 h2 h3 h4 h5 h6 h7 h8 h9 h10 h12
    simp_all [MainPc.pastJoin]

theorem inv_worker_wait_stop_set (s : State) (h : Inv s) (hw : s.wpc = .wait_stop)
    (hg : s.parse_thread_stop = true) :
    Inv { s with wpc := .check_stop } := by
  obtain ⟨h1, h2, h3, h4, h5, h6, h7, h8, h9, h10, h11, h12⟩ := h
  refine ⟨?_, h2, ?_, ?_, ?_, h6, h7, ?_, ?_, ?_, ?_, h12⟩
  · clear h3 h4 h5 h6 h7 h8 h9 h10 h11 h12
    simp_all [WorkerPc.holdsBufferMap, MainPc.holdsBufferMap]
  · clear h1 h2 h4 h5 h6 h7 h8 h9 h10 h11 h12
    simp_all [WorkerPc.sawGo]
  · clear h1 h2 h3 h5 h6 h7 h8 h9 h10 h11 h12
    simp_all
  · clear h3 h4 h6 h7 h8 h9 h10 h11 h12
    simp_all [WorkerPc.reparsed, WorkerPc.holdsBufferMap, MainPc.holdsBufferMap]
  · clear h1 h2 h4 h7 h9 h10 h11 h12
    simp_all [Triggered, WorkerPc.sawGo, WorkerPc.doneDue, WorkerPc.reparsed, MainPc.willSetGo]
  · clear h1 h2 h5 h6 h7 h8 h10 h11 h12
    simp_all [Triggered, WorkerPc.sawGo, WorkerPc.doneDue, MainPc.willSetGo, MainPc.tokensDue,
      observe]
  · clear h1 h2 h5 h6 h7 h8 h9 h11 h12
    simp_all [Triggered, WorkerPc.sawGo, WorkerPc.doneDue, MainPc.willSetGo,
      MainPc.diagnosticsDue, observe]
  · clear h1 h2 h3 h4 h5 h6 h7 h8 h9 h10 h12
    simp_all [MainPc.pastJoin]

theorem inv_worker_wait_stop_clear (s : State) (h : Inv s) (hw : s.wpc = .wait_stop)
    (hg : s.parse_thread_stop = false) :
    Inv { s with wpc := .wait_go } := by
  obtain ⟨h1, h2, h3, h4, h5, h6, h7, h8, h9, h10, h11, h12⟩ := h
  refine ⟨?_, h2, ?_, ?_, ?_, h6, h7, ?_, ?_, ?_, ?_, h12⟩
  · clear h3 h4 h5 h6 h7 h8 h9 h10 h11 h12
    simp_all [WorkerPc.holdsBufferMap, MainPc.holdsBufferMap]
  · clear h1 h2 h4 h5 h6 h7 h8 h9 h10 h11 h12
    simp_all [WorkerPc.sawGo]
  · clear h1 h2 h3 h5 h6 h7 h8 h9 h10 h11 h12
    simp_all
  · clear h3 h4 h6 h7 h8 h9 h10 h11 h12
    simp_all [WorkerPc.reparsed, WorkerPc.holdsBufferMap, MainPc.holdsBufferMap]
  · clear h1 h2 h4 h7 h9 h10 h11 h12
    simp_all [Triggered, WorkerPc.sawGo, WorkerPc.doneDue, WorkerPc.reparsed, MainPc.willSetGo]
  · clear h1 h2 h5 h6 h7 h8 h10 h11 h12
    simp_all [Triggered, WorkerPc.sawGo, WorkerPc.doneDue, MainPc.willSetGo, MainPc.tokensDue,
      observe]
  · clear h1 h2 h5 h6 h7 h8 h9 h11 h12
    simp_all [Triggered, WorkerPc.sawGo, WorkerPc.doneDue, MainPc.willSetGo,
      MainPc.diagnosticsDue, observe]
  · clear h1 h2 h3 h4 h5 h6 h7 h8 h9 h10 h12
    simp_all [MainPc.pastJoin]

theorem inv_worker_check_stop_set (s : State) (h : Inv s) (hw : s.wpc = .check_stop)
    (hg : s.parse_thread_stop = true) :
    Inv { s with wpc := .exited } := by
  obtain ⟨h1, h2, h3, h4, h5, h6, h7, h8, h9, h10, h11, h12⟩ := h
  refine ⟨?_, h2, ?_, ?_, ?_, h6, h7, ?_, ?_, ?_, ?_, h12⟩
  · clear h3 h4 h5 h6 h7 h8 h9 h10 h11 h12
    simp_all [WorkerPc.holdsBufferMap, MainPc.holdsBufferMap]
  · clear h1 h2 h4 h5 h6 h7 h8 h9 h10 h11 h12
    simp_all [WorkerPc.sawGo]
  · clear h1 h2 h3 h5 h6 h7 h8 h9 h10 h11 h12
    simp_all
  · clear h3 h4 h6 h7 h8 h9 h10 h11 h12
    simp_all [WorkerPc.reparsed, WorkerPc.holdsBufferMap, MainPc.holdsBufferMap]
  · clear h1 h2 h4 h7 h9 h10 h11 h12
    simp_all [Triggered, WorkerPc.sawGo, WorkerPc.doneDue, WorkerPc.reparsed, MainPc.willSetGo]
  · clear h1 h2 h5 h6 h7 h8 h10 h11 h12
    simp_all [Triggered, WorkerPc.sawGo, WorkerPc.doneDue, MainPc.willSetGo, MainPc.tokensDue,
      observe]
  · clear h1 h2 h5 h6 h7 h8 h9 h11 h12
    simp_all [Triggered, WorkerPc.sawGo, WorkerPc.doneDue, MainPc.willSetGo,
      MainPc.diagnosticsDue, observe]
  · clear h1 h2 h3 h4 h5 h6 h7 h8 h9 h10 h12
    simp_all [MainPc.pastJoin]

theorem inv_worker_check_stop_clear (s : State) (h : Inv s) (hw : s.wpc = .check_stop)
    (hg : s.parse_thread_stop = false) :
    Inv { s with wpc := .check_mapped } := by
  obtain ⟨h1, h2, h3, h4, h5, h6, h7, h8, h9, h10, h11, h12⟩ := h
  refine ⟨?_, h2, ?_, ?_, ?_, h6, h7, ?_, ?_, ?_, ?_, h12⟩
  · clear h3 h4 h5 h6 h7 h8 h9 h10 h11 h12
    simp_all [WorkerPc.holdsBufferMap, MainPc.holdsBufferMap]
  · clear h1 h2 h4 h5 h6 h7 h8 h9 h10 h11 h12
    simp_all [WorkerPc.sawGo]
  · clear h1 h2 h3 h5 h6 h7 h8 h9 h10 h11 h12
    simp_all
  · clear h3 h4 h6 h7 h8 h9 h10 h11 h12
    simp_all [WorkerPc.reparsed, WorkerPc.holdsBufferMap, MainPc.holdsBufferMap]
  · clear h1 h2 h4 h7 h9 h10 h11 h12
    simp_all [Triggered, WorkerPc.sawGo, WorkerPc.doneDue, WorkerPc.reparsed, MainPc.willSetGo]
  · clear h1 h2 h5 h6 h7 h8 h10 h11 h12
    simp_all [Triggered, WorkerPc.sawGo, WorkerPc.doneDue, MainPc.willSetGo, MainPc.tokensDue,
      observe]
  · clear h1 h2 h5 h6 h7 h8 h9 h11 h12
    simp_all [Triggered, WorkerPc.sawGo, WorkerPc.doneDue, MainPc.willSetGo,
      MainPc.diagnosticsDue, observe]
  · clear h1 h2 h3 h4 h5 h6 h7 h8 h9 h10 h12
    simp_all [MainPc.pastJoin]

theorem inv_worker_check_mapped_clear (s : State) (h : Inv s) (hw : s.wpc = .check_mapped)
    (hg : s.parse_thread_mapped = false) :
    Inv { s with wpc := .clear_go } := by
  obtain ⟨h1, h2, h3, h4, h5, h6, h7, h8, h9, h10, h11, h12⟩ := h
  refine ⟨?_, h2, ?_, ?_, ?_, h6, h7, ?_, ?_, ?_, ?_, h12⟩
  · clear h3 h4 h5 h6 h7 h8 h9 h10 h11 h12
    simp_all [WorkerPc.holdsBufferMap, MainPc.holdsBufferMap]
  · clear h1 h2 h4 h5 h6 h7 h8 h9 h10 h11 h12
    simp_all [WorkerPc.sawGo]
  · clear h1 h2 h3 h5 h6 h7 h8 h9 h10 h11 h12
    simp_all
  · clear h3 h4 h6 h7 h8 h9 h10 h11 h12
    simp_all [WorkerPc.reparsed, WorkerPc.holdsBufferMap, MainPc.holdsBufferMap]
  · clear h1 h2 h4 h7 h9 h10 h11 h12
    simp_all [Triggered, WorkerPc.sawGo, WorkerPc.doneDue, WorkerPc.reparsed, MainPc.willSetGo]
  · clear h1 h2 h5 h6 h7 h8 h10 h11 h12
    simp_all [Triggered, WorkerPc.sawGo, WorkerPc.doneDue, MainPc.willSetGo, MainPc.tokensDue,
      observe]
  · clear h1 h2 h5 h6 h7 h8 h9 h11 h12
    simp_all [Triggered, WorkerPc.sawGo, WorkerPc.doneDue, MainPc.willSetGo,
      MainPc.diagnosticsDue, observe]
  · clear h1 h2 h3 h4 h5 h6 h7 h8 h9 h10 h12
    simp_all [MainPc.pastJoin]

theorem inv_worker_check_mapped_set (s : State) (h : Inv s) (hw : s.wpc = .check_mapped)
    (hg : s.parse_thread_mapped = true) :
    Inv { s with wpc := .recheck_mapped } := by
  obtain ⟨h1, h2, h3, h4, h5, h6, h7, h8, h9, h10, h11, h12⟩ := h
  refine ⟨?_, h2, ?_, ?_, ?_, h6, h7, ?_, ?_, ?_, ?_, h12⟩
  · clear h3 h4 h5 h6 h7 h8 h9 h10 h11 h12
    simp_all [WorkerPc.holdsBufferMap, MainPc.holdsBufferMap]
  · clear h1 h2 h4 h5 h6 h7 h8 h9 h10 h11 h12
    simp_all [WorkerPc.sawGo]
  · clear h1 h2 h3 h5 h6 h7 h8 h9 h10 h11 h12
    simp_all
  · clear h3 h4 h6 h7 h8 h9 h10 h11 h12
    simp_all [WorkerPc.reparsed, WorkerPc.holdsBufferMap, MainPc.holdsBufferMap]
  · clear h1 h2 h4 h7 h9 h10 h11 h12
    simp_all [Triggered, WorkerPc.sawGo, WorkerPc.doneDue, WorkerPc.reparsed, MainPc.willSetGo]
  · clear h1 h2 h5 h6 h7 h8 h10 h11 h12
    simp_all [Triggered, WorkerPc.sawGo, WorkerPc.doneDue, MainPc.willSetGo, MainPc.tokensDue,
      observe]
  · clear h1 h2 h5 h6 h7 h8 h9 h11 h12
    simp_all [Triggered, WorkerPc.sawGo, WorkerPc.doneDue, MainPc.willSetGo,
      MainPc.diagnosticsDue, observe]
  · clear h1 h2 h3 h4 h5 h6 h7 h8 h9 h10 h12
    simp_all [MainPc.pastJoin]

theorem inv_worker_clear_go (s : State) (h : Inv s) (hw : s.wpc = .clear_go) :
    Inv { s with parse_thread_go := false, wpc := .emit_start } := by
  obtain ⟨h1, h2, h3, h4, h5, h6, h7, h8, h9, h10, h11, h12⟩ := h
  refine ⟨?_, h2, ?_, ?_, ?_, h6, h7, ?_, ?_, ?_, ?_, h12⟩
  · clear h3 h4 h5 h6 h7 h8 h9 h10 h11 h12
    simp_all [WorkerPc.holdsBufferMap, MainPc.holdsBufferMap]
  · clear h1 h2 h4 h5 h6 h7 h8 h9 h10 h11 h12
    simp_all [WorkerPc.sawGo]
  · clear h1 h2 h3 h5 h6 h7 h8 h9 h10 h11 h12
    simp_all
  · clear h3 h4 h6 h7 h8 h9 h10 h11 h12
    simp_all [WorkerPc.reparsed, WorkerPc.holdsBufferMap, MainPc.holdsBufferMap]
  · clear h1 h2 h4 h7 h9 h10 h11 h12
    simp_all [Triggered, WorkerPc.sawGo, WorkerPc.doneDue, WorkerPc.reparsed, MainPc.willSetGo]
  · clear h1 h2 h5 h6 h7 h8 h10 h11 h12
    simp_all [Triggered, WorkerPc.sawGo, WorkerPc.doneDue, MainPc.willSetGo, MainPc.tokensDue,
      observe]
  · clear h1 h2 h5 h6 h7 h8 h9 h11 h12
    simp_all [Triggered, WorkerPc.sawGo, WorkerPc.doneDue, MainPc.willSetGo,
      MainPc.diagnosticsDue, observe]
  · clear h1 h2 h3 h4 h5 h6 h7 h8 h9 h10 h12
    simp_all [MainPc.pastJoin]

theorem inv_worker_emit_start (s : State) (h : Inv s) (hw : s.wpc = .emit_start) :
    Inv { s with pending_start := s.pending_start + 1, wpc := .wait_go } := by
  obtain ⟨h1, h2, h3, h4, h5, h6, h7, h8, h9, h10, h11, h12⟩ := h
  refine ⟨?_, h2, ?_, ?_, ?_, h6, h7, ?_, ?_, ?_, ?_, h12⟩
  · clear h3 h4 h5 h6 h7 h8 h9 h10 h11 h12
    simp_all [WorkerPc.holdsBufferMap, MainPc.holdsBufferMap]
  · clear h1 h2 h4 h5 h6 h7 h8 h9 h10 h11 h12
    simp_all [WorkerPc.sawGo]
  · clear h1 h2 h3 h5 h6 h7 h8 h9 h10 h11 h12
    simp_all
  · clear h3 h4 h6 h7 h8 h9 h10 h11 h12
    simp_all [WorkerPc.reparsed, WorkerPc.holdsBufferMap, MainPc.holdsBufferMap]
  · clear h1 h2 h4 h7 h9 h10 h11 h12
    simp_all [Triggered, WorkerPc.sawGo, WorkerPc.doneDue, WorkerPc.reparsed, MainPc.willSetGo]
  · clear h1 h2 h5 h6 h7 h8 h10 h11 h12
    simp_all [Triggered, WorkerPc.sawGo, WorkerPc.doneDue, MainPc.willSetGo, MainPc.tokensDue,
      observe]
  · clear h1 h2 h5 h6 h7 h8 h9 h11 h12
    simp_all [Triggered, WorkerPc.sawGo, WorkerPc.doneDue, MainPc.willSetGo,
      MainPc.diagnosticsDue, observe]
  · clear h1 h2 h3 h4 h5 h6 h7 h8 h9 h10 h12
    simp_all [MainPc.pastJoin]

theorem inv_worker_recheck_mapped_set (s : State) (h : Inv s) (hw : s.wpc = .recheck_mapped)
    (hg : s.parse_thread_mapped = true) :
    Inv { s with wpc := .try_parsing } := by
  obtain ⟨h1, h2, h3, h4, h5, h6, h7, h8, h9, h10, h11, h12⟩ := h
  refine ⟨?_, h2, ?_, ?_, ?_, h6, h7, ?_, ?_, ?_, ?_, h12⟩
  · clear h3 h4 h5 h6 h7 h8 h9 h10 h11 h12
    simp_all [WorkerPc.holdsBufferMap, MainPc.holdsBufferMap]
  · clear h1 h2 h4 h5 h6 h7 h8 h9 h10 h11 h12
    simp_all [WorkerPc.sawGo]
  · clear h1 h2 h3 h5 h6 h7 h8 h9 h10 h11 h12
    simp_all
  · clear h3 h4 h6 h7 h8 h9 h10 h11 h12
    simp_all [WorkerPc.reparsed, WorkerPc.holdsBufferMap, MainPc.holdsBufferMap]
  · clear h1 h2 h4 h7 h9 h10 h11 h12
    simp_all [Triggered, WorkerPc.sawGo, WorkerPc.doneDue, WorkerPc.reparsed, MainPc.willSetGo]
  · clear h1 h2 h5 h6 h7 h8 h10 h11 h12
    simp_all [Triggered, WorkerPc.sawGo, WorkerPc.doneDue, MainPc.willSetGo, MainPc.tokensDue,
      observe]
  · clear h1 h2 h5 h6 h7 h8 h9 h11 h12
    simp_all [Triggered, WorkerPc.sawGo, WorkerPc.doneDue, MainPc.willSetGo,
      MainPc.diagnosticsDue, observe]
  · clear h1 h2 h3 h4 h5 h6 h7 h8 h9 h10 h12
    simp_all [MainPc.pastJoin]

theorem inv_worker_recheck_mapped_clear (s : State) (h : Inv s) (hw : s.wpc = .recheck_mapped)
    (hg : s.parse_thread_mapped = false) :
    Inv { s with wpc := .wait_go } := by
  obtain ⟨h1, h2, h3, h4, h5, h6, h7, h8, h9, h10, h11, h12⟩ := h
  refine ⟨?_, h2, ?_, ?_, ?_, h6, h7, ?_, ?_, ?_, ?_, h12⟩
  · clear h3 h4 h5 h6 h7 h8 h9 h10 h11 h12
    simp_all [WorkerPc.holdsBufferMap, MainPc.holdsBufferMap]
  · clear h1 h2 h4 h5 h6 h7 h8 h9 h10 h11 h12
    simp_all [WorkerPc.sawGo]
  · clear h1 h2 h3 h5 h6 h7 h8 h9 h10 h11 h12
    simp_all
  · clear h3 h4 h6 h7 h8 h9 h10 h11 h12
    simp_all [WorkerPc.reparsed, WorkerPc.holdsBufferMap, MainPc.holdsBufferMap]
  · clear h1 h2 h4 h7 h9 h10 h11 h12
    simp_all [Triggered, WorkerPc.sawGo, WorkerPc.doneDue, WorkerPc.reparsed, MainPc.willSetGo]
  · clear h1 h2 h5 h6 h7 h8 h10 h11 h12
    simp_all [Triggered, WorkerPc.sawGo, WorkerPc.doneDue, MainPc.willSetGo, MainPc.tokensDue,
      observe]
  · clear h1 h2 h5 h6 h7 h8 h9 h11 h12
    simp_all [Triggered, WorkerPc.sawGo, WorkerPc.doneDue, MainPc.willSetGo,
      MainPc.diagnosticsDue, observe]
  · clear h1 h2 h3 h4 h5 h6 h7 h8 h9 h10 h12
    simp_all [MainPc.pastJoin]

theorem inv_worker_try_parsing_free (s : State) (h : Inv s) (hw : s.wpc = .try_parsing) :
    Inv { s with parsing_mutex := some .worker, wpc := .try_buffer_map } := by
  obtain ⟨h1, h2, h3, h4, h5, h6, h7, h8, h9, h10, h11, h12⟩ := h
  refine ⟨?_, h2, ?_, ?_, ?_, h6, h7, ?_, ?_, ?_, ?_, h12⟩
  · clear h3 h4 h5 h6 h7 h8 h9 h10 h11 h12
    simp_all [WorkerPc.holdsBufferMap, MainPc.holdsBufferMap]
  · clear h1 h2 h4 h5 h6 h7 h8 h9 h10 h11 h12
    simp_all [WorkerPc.sawGo]
  · clear h1 h2 h3 h5 h6 h7 h8 h9 h10 h11 h12
    simp_all
  · clear h3 h4 h6 h7 h8 h9 h10 h11 h12
    simp_all [WorkerPc.reparsed, WorkerPc.holdsBufferMap, MainPc.holdsBufferMap]
  · clear h1 h2 h4 h7 h9 h10 h11 h12
    simp_all [Triggered, WorkerPc.sawGo, WorkerPc.doneDue, WorkerPc.reparsed, MainPc.willSetGo]
  · clear h1 h2 h5 h6 h7 h8 h10 h11 h12
    simp_all [Triggered, WorkerPc.sawGo, WorkerPc.doneDue, MainPc.willSetGo, MainPc.tokensDue,
      observe]
  · clear h1 h2 h5 h6 h7 h8 h9 h11 h12
    simp_all [Triggered, WorkerPc.sawGo, WorkerPc.doneDue, MainPc.willSetGo,
      MainPc.diagnosticsDue, observe]
  · clear h1 h2 h3 h4 h5 h6 h7 h8 h9 h10 h12
    simp_all [MainPc.pastJoin]

theorem inv_worker_try_parsing_held (s : State) (h : Inv s) (hw : s.wpc = .try_parsing) :
    Inv { s with wpc := .wait_go } := by
  obtain ⟨h1, h2, h3, h4, h5, h6, h7, h8, h9, h10, h11, h12⟩ := h
  refine ⟨?_, h2, ?_, ?_, ?_, h6, h7, ?_, ?_, ?_, ?_, h12⟩
  · clear h3 h4 h5 h6 h7 h8 h9 h10 h11 h12
    simp_all [WorkerPc.holdsBufferMap, MainPc.holdsBufferMap]
  · clear h1 h2 h4 h5 h6 h7 h8 h9 h10 h11 h12
    simp_all [WorkerPc.sawGo]
  · clear h1 h2 h3 h5 h6 h7 h8 h9 h10 h11 h12
    simp_all
  · clear h3 h4 h6 h7 h8 h9 h10 h11 h12
    simp_all [WorkerPc.reparsed, WorkerPc.holdsBufferMap, MainPc.holdsBufferMap]
  · clear h1 h2 h4 h7 h9 h10 h11 h12
    simp_all [Triggered, WorkerPc.sawGo, WorkerPc.doneDue, WorkerPc.reparsed, MainPc.willSetGo]
  · clear h1 h2 h5 h6 h7 h8 h10 h11 h12
    simp_all [Triggered, WorkerPc.sawGo, WorkerPc.doneDue, MainPc.willSetGo, MainPc.tokensDue,
      observe]
  · clear h1 h2 h5 h6 h7 h8 h9 h11 h12
    simp_all [Triggered, WorkerPc.sawGo, WorkerPc.doneDue, MainPc.willSetGo,
      MainPc.diagnosticsDue, observe]
  · clear h1 h2 h3 h4 h5 h6 h7 h8 h9 h10 h12
    simp_all [MainPc.pastJoin]

theorem inv_worker_try_buffer_map_free (s : State) (h : Inv s) (hw : s.wpc = .try_buffer_map)
    (hg : s.parse_thread_buffer_map_mutex = none) :
    Inv { s with parse_thread_buffer_map_mutex := some .worker, wpc := .call_reparse } := by
  obtain ⟨h1, h2, h3, h4, h5, h6, h7, h8, h9, h10, h11, h12⟩ := h
  refine ⟨?_, ?_, ?_, ?_, ?_, h6, h7, ?_, ?_, ?_, ?_, h12⟩
  · clear h3 h4 h5 h6 h7 h8 h9 h10 h11 h12
    simp_all [WorkerPc.holdsBufferMap, MainPc.holdsBufferMap]
  · clear h3 h4 h5 h6 h7 h8 h9 h10 h11 h12
    simp_all [WorkerPc.holdsBufferMap, MainPc.holdsBufferMap]
  · clear h1 h2 h4 h5 h6 h7 h8 h9 h10 h11 h12
    simp_all [WorkerPc.sawGo]
  · clear h1 h2 h3 h5 h6 h7 h8 h9 h10 h11 h12
    simp_all
  · clear h3 h4 h6 h7 h8 h9 h10 h11 h12
    simp_all [WorkerPc.reparsed, WorkerPc.holdsBufferMap, MainPc.holdsBufferMap]
  · clear h1 h2 h4 h7 h9 h10 h11 h12
    simp_all [Triggered, WorkerPc.sawGo, WorkerPc.doneDue, WorkerPc.reparsed, MainPc.willSetGo]
  · clear h1 h2 h5 h6 h7 h8 h10 h11 h12
    simp_all [Triggered, WorkerPc.sawGo, WorkerPc.doneDue, MainPc.willSetGo, MainPc.tokensDue,
      observe]
  · clear h1 h2 h5 h6 h7 h8 h9 h11 h12
    simp_all [Triggered, WorkerPc.sawGo, WorkerPc.doneDue, MainPc.willSetGo,
      MainPc.diagnosticsDue, observe]
  · clear h1 h2 h3 h4 h5 h6 h7 h8 h9 h10 h12
    simp_all [MainPc.pastJoin]

theorem inv_worker_try_buffer_map_held (s : State) (h : Inv s) (hw : s.wpc = .try_buffer_map) :
    Inv { s with wpc := .wait_go } := by
  obtain ⟨h1, h2, h3, h4, h5, h6, h7, h8, h9, h10, h11, h12⟩ := h
  refine ⟨?_, h2, ?_, ?_, ?_, h6, h7, ?_, ?_, ?_, ?_, h12⟩
  · clear h3 h4 h5 h6 h7 h8 h9 h10 h11 h12
    simp_all [WorkerPc.holdsBufferMap, MainPc.holdsBufferMap]
  · clear h1 h2 h4 h5 h6 h7 h8 h9 h10 h11 h12
    simp_all [WorkerPc.sawGo]
  · clear h1 h2 h3 h5 h6 h7 h8 h9 h10 h11 h12
    simp_all
  · clear h3 h4 h6 h7 h8 h9 h10 h11 h12
    simp_all [WorkerPc.reparsed, WorkerPc.holdsBufferMap, MainPc.holdsBufferMap]
  · clear h1 h2 h4 h7 h9 h10 h11 h12
    simp_all [Triggered, WorkerPc.sawGo, WorkerPc.doneDue, WorkerPc.reparsed, MainPc.willSetGo]
  · clear h1 h2 h5 h6 h7 h8 h10 h11 h12
    simp_all [Triggered, WorkerPc.sawGo, WorkerPc.doneDue, MainPc.willSetGo, MainPc.tokensDue,
      observe]
  · clear h1 h2 h5 h6 h7 h8 h9 h11 h12
    simp_all [Triggered, WorkerPc.sawGo, WorkerPc.doneDue, MainPc.willSetGo,
      MainPc.diagnosticsDue, observe]
  · clear h1 h2 h3 h4 h5 h6 h7 h8 h9 h10 h12
    simp_all [MainPc.pastJoin]

theorem inv_worker_call_reparse (s : State) (h : Inv s) (hw : s.wpc = .call_reparse) :
    Inv { s with
      tu := ⟨s.tu.generation + 1, s.parse_thread_buffer_map.getD s.tu.content, true⟩,
      wpc := .in_reparse } := by
  obtain ⟨h1, h2, h3, h4, h5, h6, h7, h8, h9, h10, h11, h12⟩ := h
  refine ⟨?_, h2, ?_, ?_, ?_, h6, h7, ?_, ?_, ?_, ?_, h12⟩
  · clear h3 h4 h5 h6 h7 h8 h9 h10 h11 h12
    simp_all [WorkerPc.holdsBufferMap, MainPc.holdsBufferMap]
  · clear h1 h2 h4 h5 h6 h7 h8 h9 h10 h11 h12
    simp_all [WorkerPc.sawGo]
  · clear h1 h2 h3 h5 h6 h7 h8 h9 h10 h11 h12
    simp_all
  · clear h3 h4 h6 h7 h8 h9 h10 h11 h12
    simp_all [WorkerPc.reparsed, WorkerPc.holdsBufferMap, MainPc.holdsBufferMap]
  · clear h1 h2 h4 h7 h9 h10 h11 h12
    simp_all [Triggered, WorkerPc.sawGo, WorkerPc.doneDue, WorkerPc.reparsed, MainPc.willSetGo]
  · clear h1 h2 h5 h6 h7 h8 h10 h11 h12
    simp_all [Triggered, WorkerPc.sawGo, WorkerPc.doneDue, MainPc.willSetGo, MainPc.tokensDue,
      observe]
  · clear h1 h2 h5 h6 h7 h8 h9 h11 h12
    simp_all [Triggered, WorkerPc.sawGo, WorkerPc.doneDue, MainPc.willSetGo,
      MainPc.diagnosticsDue, observe]
  · clear h1 h2 h3 h4 h5 h6 h7 h8 h9 h10 h12
    simp_all [MainPc.pastJoin]

theorem inv_worker_in_reparse (s : State) (h : Inv s) (hw : s.wpc = .in_reparse) :
    Inv { s with tu := { s.tu with busy := false }, wpc := .clear_go_done } := by
  obtain ⟨h1, h2, h3, h4, h5, h6, h7, h8, h9, h10, h11, h12⟩ := h
  refine ⟨?_, h2, ?_, ?_, ?_, h6, h7, ?_, ?_, ?_, ?_, h12⟩
  · clear h3 h4 h5 h6 h7 h8 h9 h10 h11 h12
    simp_all [WorkerPc.holdsBufferMap, MainPc.holdsBufferMap]
  · clear h1 h2 h4 h5 h6 h7 h8 h9 h10 h11 h12
    simp_all [WorkerPc.sawGo]
  · clear h1 h2 h3 h5 h6 h7 h8 h9 h10 h11 h12
    simp_all
  · clear h3 h4 h6 h7 h8 h9 h10 h11 h12
    simp_all [WorkerPc.reparsed, WorkerPc.holdsBufferMap, MainPc.holdsBufferMap]
  · clear h1 h2 h4 h7 h9 h10 h11 h12
    simp_all [Triggered, WorkerPc.sawGo, WorkerPc.doneDue, WorkerPc.reparsed, MainPc.willSetGo]
  · clear h1 h2 h5 h6 h7 h8 h10 h11 h12
    simp_all [Triggered, WorkerPc.sawGo, WorkerPc.doneDue, MainPc.willSetGo, MainPc.tokensDue,
      observe]
  · clear h1 h2 h5 h6 h7 h8 h9 h11 h12
    simp_all [Triggered, WorkerPc.sawGo, WorkerPc.doneDue, MainPc.willSetGo,
      MainPc.diagnosticsDue, observe]
  · clear h1 h2 h3 h4 h5 h6 h7 h8 h9 h10 h12
    simp_all [MainPc.pastJoin]

theorem inv_worker_clear_go_done (s : State) (h : Inv s) (hw : s.wpc = .clear_go_done) :
    Inv { s with parse_thread_go := false, wpc := .unlock_parsing } := by
  obtain ⟨h1, h2, h3, h4, h5, h6, h7, h8, h9, h10, h11, h12⟩ := h
  refine ⟨?_, h2, ?_, ?_, ?_, h6, h7, ?_, ?_, ?_, ?_, h12⟩
  · clear h3 h4 h5 h6 h7 h8 h9 h10 h11 h12
    simp_all [WorkerPc.holdsBufferMap, MainPc.holdsBufferMap]
  · clear h1 h2 h4 h5 h6 h7 h8 h9 h10 h11 h12
    simp_all [WorkerPc.sawGo]
  · clear h1 h2 h3 h5 h6 h7 h8 h9 h10 h11 h12
    simp_all
  · clear h3 h4 h6 h7 h8 h9 h10 h11 h12
    simp_all [WorkerPc.reparsed, WorkerPc.holdsBufferMap, MainPc.holdsBufferMap]
  · clear h1 h2 h4 h7 h9 h10 h11 h12
    cases hm : s.mpc <;> simp_all [Triggered, WorkerPc.sawGo, WorkerPc.doneDue,
      WorkerPc.reparsed, MainPc.willSetGo]
  · clear h1 h2 h5 h6 h7 h8 h10 h11 h12
    simp_all [Triggered, WorkerPc.sawGo, WorkerPc.doneDue, MainPc.willSetGo, MainPc.tokensDue,
      observe]
  · clear h1 h2 h5 h6 h7 h8 h9 h11 h12
    simp_all [Triggered, WorkerPc.sawGo, WorkerPc.doneDue, MainPc.willSetGo,
      MainPc.diagnosticsDue, observe]
  · clear h1 h2 h3 h4 h5 h6 h7 h8 h9 h10 h12
    simp_all [MainPc.pastJoin]

theorem inv_worker_unlock_parsing (s : State) (h : Inv s) (hw : s.wpc = .unlock_parsing) :
    Inv { s with parsing_mutex := none, wpc := .unlock_buffer_map } := by
  obtain ⟨h1, h2, h3, h4, h5, h6, h7, h8, h9, h10, h11, h12⟩ := h
  refine ⟨?_, h2, ?_, ?_, ?_, h6, h7, ?_, ?_, ?_, ?_, h12⟩
  · clear h3 h4 h5 h6 h7 h8 h9 h10 h11 h12
    simp_all [WorkerPc.holdsBufferMap, MainPc.holdsBufferMap]
  · clear h1 h2 h4 h5 h6 h7 h8 h9 h10 h11 h12
    simp_all [WorkerPc.sawGo]
  · clear h1 h2 h3 h5 h6 h7 h8 h9 h10 h11 h12
    simp_all
  · clear h3 h4 h6 h7 h8 h9 h10 h11 h12
    simp_all [WorkerPc.reparsed, WorkerPc.holdsBufferMap, MainPc.holdsBufferMap]
  · clear h1 h2 h4 h7 h9 h10 h11 h12
    simp_all [Triggered, WorkerPc.sawGo, WorkerPc.doneDue, WorkerPc.reparsed, MainPc.willSetGo]
  · clear h1 h2 h5 h6 h7 h8 h10 h11 h12
    simp_all [Triggered, WorkerPc.sawGo, WorkerPc.doneDue, MainPc.willSetGo, MainPc.tokensDue,
      observe]
  · clear h1 h2 h5 h6 h7 h8 h9 h11 h12
    simp_all [Triggered, WorkerPc.sawGo, WorkerPc.doneDue, MainPc.willSetGo,
      MainPc.diagnosticsDue, observe]
  · clear h1 h2 h3 h4 h5 h6 h7 h8 h9 h10 h12
    simp_all [MainPc.pastJoin]

theorem inv_worker_unlock_buffer_map (s : State) (h : Inv s) (hw : s.wpc = .unlock_buffer_map) :
    Inv { s with parse_thread_buffer_map_mutex := none, wpc := .emit_done } := by
  obtain ⟨h1, h2, h3, h4, h5, h6, h7, h8, h9, h10, h11, h12⟩ := h
  refine ⟨?_, ?_, ?_, ?_, ?_, h6, h7, ?_, ?_, ?_, ?_, h12⟩
  · clear h3 h4 h5 h6 h7 h8 h9 h10 h11 h12
    simp_all [WorkerPc.holdsBufferMap, MainPc.holdsBufferMap]
  · clear h3 h4 h5 h6 h7 h8 h9 h10 h11 h12
    simp_all [WorkerPc.holdsBufferMap, MainPc.holdsBufferMap]
  · clear h1 h2 h4 h5 h6 h7 h8 h9 h10 h11 h12
    simp_all [WorkerPc.sawGo]
  · clear h1 h2 h3 h5 h6 h7 h8 h9 h10 h11 h12
    simp_all
  · clear h3 h4 h6 h7 h8 h9 h10 h11 h12
    simp_all [WorkerPc.reparsed, WorkerPc.holdsBufferMap, MainPc.holdsBufferMap]
  · clear h1 h2 h4 h7 h9 h10 h11 h12
    simp_all [Triggered, WorkerPc.sawGo, WorkerPc.doneDue, WorkerPc.reparsed, MainPc.willSetGo]
  · clear h1 h2 h5 h6 h7 h8 h10 h11 h12
    simp_all [Triggered, WorkerPc.sawGo, WorkerPc.doneDue, MainPc.willSetGo, MainPc.tokensDue,
      observe]
  · clear h1 h2 h5 h6 h7 h8 h9 h11 h12
    simp_all [Triggered, WorkerPc.sawGo, WorkerPc.doneDue, MainPc.willSetGo,
      MainPc.diagnosticsDue, observe]
  · clear h1 h2 h3 h4 h5 h6 h7 h8 h9 h10 h12
    simp_all [MainPc.pastJoin]

theorem inv_worker_emit_done (s : State) (h : Inv s) (hw : s.wpc = .emit_done) :
    Inv { s with pending_done := s.pending_done + 1, wpc := .wait_go } := by
  obtain ⟨h1, h2, h3, h4, h5, h6, h7, h8, h9, h10, h11, h12⟩ := h
  refine ⟨?_, h2, ?_, ?_, ?_, h6, h7, ?_, ?_, ?_, ?_, h12⟩
  · clear h3 h4 h5 h6 h7 h8 h9 h10 h11 h12
    simp_all [WorkerPc.holdsBufferMap, MainPc.holdsBufferMap]
  · clear h1 h2 h4 h5 h6 h7 h8 h9 h10 h11 h12
    simp_all [WorkerPc.sawGo]
  · clear h1 h2 h3 h5 h6 h7 h8 h9 h10 h11 h12
    simp_all
  · clear h3 h4 h6 h7 h8 h9 h10 h11 h12
    simp_all [WorkerPc.reparsed, WorkerPc.holdsBufferMap, MainPc.holdsBufferMap]
  · clear h1 h2 h4 h7 h9 h10 h11 h12
    simp_all [Triggered, WorkerPc.sawGo, WorkerPc.doneDue, WorkerPc.reparsed, MainPc.willSetGo]
  · clear h1 h2 h5 h6 h7 h8 h10 h11 h12
    simp_all [Triggered, WorkerPc.sawGo, WorkerPc.doneDue, MainPc.willSetGo, MainPc.tokensDue,
      observe]
  · clear h1 h2 h5 h6 h7 h8 h9 h11 h12
    simp_all [Triggered, WorkerPc.sawGo, WorkerPc.doneDue, MainPc.willSetGo,
      MainPc.diagnosticsDue, observe]
  · clear h1 h2 h3 h4 h5 h6 h7 h8 h9 h10 h12
    simp_all [MainPc.pastJoin]

theorem inv_main_ps_try_lock_free (s : State) (h : Inv s) (hw : s.mpc = .ps_try_lock)
    (hg : s.parse_thread_buffer_map_mutex = none) :
    Inv { s with parse_thread_buffer_map_mutex := some .main, mpc := .ps_copy } := by
  obtain ⟨h1, h2, h3, h4, h5, h6, h7, h8, h9, h10, h11, h12⟩ := h
  refine ⟨?_, ?_, h3, h4, h5, ?_, ?_, ?_, ?_, ?_, ?_, ?_⟩
  · clear h3 h4 h5 h6 h7 h8 h9 h10 h11 h12
    simp_all [WorkerPc.holdsBufferMap, MainPc.holdsBufferMap]
  · clear h3 h4 h5 h6 h7 h8 h9 h10 h11 h12
    simp_all [WorkerPc.holdsBufferMap, MainPc.holdsBufferMap]
  · clear h1 h2 h3 h4 h5 h8 h9 h10 h11 h12
    simp_all
  · clear h1 h2 h3 h4 h5 h6 h8 h9 h10 h11 h12
    simp_all
  · clear h1 h2 h4 h7 h9 h10 h11 h12
    simp_all [Triggered, WorkerPc.sawGo, WorkerPc.doneDue, WorkerPc.reparsed, MainPc.willSetGo]
  · clear h1 h2 h5 h6 h7 h8 h10 h11 h12
    simp_all [Triggered, WorkerPc.sawGo, WorkerPc.doneDue, MainPc.willSetGo, MainPc.tokensDue,
      observe]
  · clear h1 h2 h5 h6 h7 h8 h9 h11 h12
    simp_all [Triggered, WorkerPc.sawGo, WorkerPc.doneDue, MainPc.willSetGo,
      MainPc.diagnosticsDue, observe]
  · clear h1 h2 h3 h4 h5 h6 h7 h8 h9 h10 h12
    simp_all [MainPc.pastJoin]
  · clear h1 h2 h3 h4 h5 h6 h7 h8 h9 h10 h11
    simp_all [MainPc.inDestructor]

theorem inv_main_ps_try_lock_held (s : State) (h : Inv s) (hw : s.mpc = .ps_try_lock) :
    Inv { s with mpc := .ps_set_go } := by
  obtain ⟨h1, h2, h3, h4, h5, h6, h7, h8, h9, h10, h11, h12⟩ := h
  refine ⟨h1, ?_, h3, h4, h5, ?_, ?_, ?_, ?_, ?_, ?_, ?_⟩
  · clear h3 h4 h5 h6 h7 h8 h9 h10 h11 h12
    simp_all [WorkerPc.holdsBufferMap, MainPc.holdsBufferMap]
  · clear h1 h2 h3 h4 h5 h8 h9 h10 h11 h12
    simp_all
  · clear h1 h2 h3 h4 h5 h6 h8 h9 h10 h11 h12
    simp_all
  · clear h1 h2 h4 h7 h9 h10 h11 h12
    simp_all [Triggered, WorkerPc.sawGo, WorkerPc.doneDue, WorkerPc.reparsed, MainPc.willSetGo]
  · clear h1 h2 h5 h6 h7 h8 h10 h11 h12
    simp_all [Triggered, WorkerPc.sawGo, WorkerPc.doneDue, MainPc.willSetGo, MainPc.tokensDue,
      observe]
  · clear h1 h2 h5 h6 h7 h8 h9 h11 h12
    simp_all [Triggered, WorkerPc.sawGo, WorkerPc.doneDue, MainPc.willSetGo,
      MainPc.diagnosticsDue, observe]
  · clear h1 h2 h3 h4 h5 h6 h7 h8 h9 h10 h12
    simp_all [MainPc.pastJoin]
  · clear h1 h2 h3 h4 h5 h6 h7 h8 h9 h10 h11
    simp_all [MainPc.inDestructor]

theorem inv_main_ps_copy (s : State) (h : Inv s) (hw : s.mpc = .ps_copy) :
    Inv { s with parse_thread_buffer_map := some s.buffer, mpc := .ps_set_mapped } := by
  obtain ⟨h1, h2, h3, h4, h5, h6, h7, h8, h9, h10, h11, h12⟩ := h
  refine ⟨h1, ?_, h3, h4, ?_, ?_, ?_, ?_, ?_, ?_, ?_, ?_⟩
  · clear h3 h4 h5 h6 h7 h8 h9 h10 h11 h12
    simp_all [WorkerPc.holdsBufferMap, MainPc.holdsBufferMap]
  · clear h3 h4 h6 h7 h8 h9 h10 h11 h12
    cases hc : s.wpc <;> simp_all [WorkerPc.reparsed, WorkerPc.holdsBufferMap,
      MainPc.holdsBufferMap]
  · clear h1 h2 h3 h4 h5 h8 h9 h10 h11 h12
    simp_all
  · clear h1 h2 h3 h4 h5 h6 h8 h9 h10 h11 h12
    simp_all
  · clear h1 h2 h4 h7 h9 h10 h11 h12
    simp_all [Triggered, WorkerPc.sawGo, WorkerPc.doneDue, WorkerPc.reparsed, MainPc.willSetGo]
  · clear h1 h2 h5 h6 h7 h8 h10 h11 h12
    simp_all [Triggered, WorkerPc.sawGo, WorkerPc.doneDue, MainPc.willSetGo, MainPc.tokensDue,
      observe]
  · clear h1 h2 h5 h6 h7 h8 h9 h11 h12
    simp_all [Triggered, WorkerPc.sawGo, WorkerPc.doneDue, MainPc.willSetGo,
      MainPc.diagnosticsDue, observe]
  · clear h1 h2 h3 h4 h5 h6 h7 h8 h9 h10 h12
    simp_all [MainPc.pastJoin]
  · clear h1 h2 h3 h4 h5 h6 h7 h8 h9 h10 h11
    simp_all [MainPc.inDestructor]

theorem inv_main_ps_set_mapped (s : State) (h : Inv s) (hw : s.mpc = .ps_set_mapped) :
    Inv { s with parse_thread_mapped := true, mpc := .ps_unlock } := by
  obtain ⟨h1, h2, h3, h4, h5, h6, h7, h8, h9, h10, h11, h12⟩ := h
  refine ⟨h1, ?_, h3, h4, h5, ?_, ?_, ?_, ?_, ?_, ?_, ?_⟩
  · clear h3 h4 h5 h6 h7 h8 h9 h10 h11 h12
    simp_all [WorkerPc.holdsBufferMap, MainPc.holdsBufferMap]
  · clear h1 h2 h3 h4 h5 h8 h9 h10 h11 h12
    simp_all
  · clear h1 h2 h3 h4 h5 h6 h8 h9 h10 h11 h12
    simp_all
  · clear h1 h2 h4 h7 h9 h10 h11 h12
    simp_all [Triggered, WorkerPc.sawGo, WorkerPc.doneDue, WorkerPc.reparsed, MainPc.willSetGo]
  · clear h1 h2 h5 h6 h7 h8 h10 h11 h12
    simp_all [Triggered, WorkerPc.sawGo, WorkerPc.doneDue, MainPc.willSetGo, MainPc.tokensDue,
      observe]
  · clear h1 h2 h5 h6 h7 h8 h9 h11 h12
    simp_all [Triggered, WorkerPc.sawGo, WorkerPc.doneDue, MainPc.willSetGo,
      MainPc.diagnosticsDue, observe]
  · clear h1 h2 h3 h4 h5 h6 h7 h8 h9 h10 h12
    simp_all [MainPc.pastJoin]
  · clear h1 h2 h3 h4 h5 h6 h7 h8 h9 h10 h11
    simp_all [MainPc.inDestructor]

theorem inv_main_ps_unlock (s : State) (h : Inv s) (hw : s.mpc = .ps_unlock) :
    Inv { s with parse_thread_buffer_map_mutex := none, mpc := .ps_set_go } := by
  obtain ⟨h1, h2, h3, h4, h5, h6, h7, h8, h9, h10, h11, h12⟩ := h
  refine ⟨?_, ?_, h3, h4, h5, ?_, ?_, ?_, ?_, ?_, ?_, ?_⟩
  · clear h3 h4 h5 h6 h7 h8 h9 h10 h11 h12
    simp_all [WorkerPc.holdsBufferMap, MainPc.holdsBufferMap]
  · clear h3 h4 h5 h6 h7 h8 h9 h10 h11 h12
    simp_all [WorkerPc.holdsBufferMap, MainPc.holdsBufferMap]
  · clear h1 h2 h3 h4 h5 h8 h9 h10 h11 h12
    simp_all
  · clear h1 h2 h3 h4 h5 h6 h8 h9 h10 h11 h12
    simp_all
  · clear h1 h2 h4 h7 h9 h10 h11 h12
    simp_all [Triggered, WorkerPc.sawGo, WorkerPc.doneDue, WorkerPc.reparsed, MainPc.willSetGo]
  · clear h1 h2 h5 h6 h7 h8 h10 h11 h12
    simp_all [Triggered, WorkerPc.sawGo, WorkerPc.doneDue, MainPc.willSetGo, MainPc.tokensDue,
      observe]
  · clear h1 h2 h5 h6 h7 h8 h9 h11 h12
    simp_all [Triggered, WorkerPc.sawGo, WorkerPc.doneDue, MainPc.willSetGo,
      MainPc.diagnosticsDue, observe]
  · clear h1 h2 h3 h4 h5 h6 h7 h8 h9 h10 h12
    simp_all [MainPc.pastJoin]
  · clear h1 h2 h3 h4 h5 h6 h7 h8 h9 h10 h11
    simp_all [MainPc.inDestructor]

theorem inv_main_ps_set_go (s : State) (h : Inv s) (hw : s.mpc = .ps_set_go) :
    Inv { s with parse_thread_go := true, mpc := .idle } := by
  obtain ⟨h1, h2, h3, h4, h5, h6, h7, h8, h9, h10, h11, h12⟩ := h
  refine ⟨h1, ?_, ?_, h4, h5, ?_, ?_, ?_, ?_, ?_, ?_, ?_⟩
  · clear h3 h4 h5 h6 h7 h8 h9 h10 h11 h12
    simp_all [WorkerPc.holdsBufferMap, MainPc.holdsBufferMap]
  · clear h1 h2 h4 h5 h6 h7 h8 h9 h10 h11 h12
    simp_all [WorkerPc.sawGo]
  · clear h1 h2 h3 h4 h5 h8 h9 h10 h11 h12
    simp_all
  · clear h1 h2 h3 h4 h5 h6 h8 h9 h10 h11 h12
    simp_all
  · clear h1 h2 h4 h7 h9 h10 h11 h12
    simp_all [Triggered, WorkerPc.sawGo, WorkerPc.doneDue, WorkerPc.reparsed, MainPc.willSetGo]
  · clear h1 h2 h5 h6 h7 h8 h10 h11 h12
    simp_all [Triggered, WorkerPc.sawGo, WorkerPc.doneDue, MainPc.willSetGo, MainPc.tokensDue,
      observe]
  · clear h1 h2 h5 h6 h7 h8 h9 h11 h12
    simp_all [Triggered, WorkerPc.sawGo, WorkerPc.doneDue, MainPc.willSetGo,
      MainPc.diagnosticsDue, observe]
  · clear h1 h2 h3 h4 h5 h6 h7 h8 h9 h10 h12
    simp_all [MainPc.pastJoin]
  · clear h1 h2 h3 h4 h5 h6 h7 h8 h9 h10 h11
    simp_all [MainPc.inDestructor]

theorem inv_main_pd_check_set (s : State) (h : Inv s) (hw : s.mpc = .pd_check)
    (hg : s.parse_thread_mapped = true) :
    Inv { s with mpc := .pd_extract_call } := by
  obtain ⟨h1, h2, h3, h4, h5, h6, h7, h8, h9, h10, h11, h12⟩ := h
  refine ⟨h1, ?_, h3, h4, h5, ?_, ?_, ?_, ?_, ?_, ?_, ?_⟩
  · clear h3 h4 h5 h6 h7 h8 h9 h10 h11 h12
    simp_all [WorkerPc.holdsBufferMap, MainPc.holdsBufferMap]
  · clear h1 h2 h3 h4 h5 h8 h9 h10 h11 h12
    simp_all
  · clear h1 h2 h3 h4 h5 h6 h8 h9 h10 h11 h12
    simp_all
  · clear h1 h2 h4 h7 h9 h10 h11 h12
    simp_all [Triggered, WorkerPc.sawGo, WorkerPc.doneDue, WorkerPc.reparsed, MainPc.willSetGo]
  · clear h1 h2 h5 h6 h7 h8 h10 h11 h12
    simp_all [Triggered, WorkerPc.sawGo, WorkerPc.doneDue, MainPc.willSetGo, MainPc.tokensDue,
      observe]
  · clear h1 h2 h5 h6 h7 h8 h9 h11 h12
    simp_all [Triggered, WorkerPc.sawGo, WorkerPc.doneDue, MainPc.willSetGo,
      MainPc.diagnosticsDue, observe]
  · clear h1 h2 h3 h4 h5 h6 h7 h8 h9 h10 h12
    simp_all [MainPc.pastJoin]
  · clear h1 h2 h3 h4 h5 h6 h7 h8 h9 h10 h11
    simp_all [MainPc.inDestructor]

theorem inv_main_pd_check_clear (s : State) (h : Inv s) (hw : s.mpc = .pd_check)
    (hg : s.parse_thread_mapped = false) :
    Inv { s with mpc := .pd_set_go } := by
  obtain ⟨h1, h2, h3, h4, h5, h6, h7, h8, h9, h10, h11, h12⟩ := h
  refine ⟨h1, ?_, h3, h4, h5, ?_, ?_, ?_, ?_, ?_, ?_, ?_⟩
  · clear h3 h4 h5 h6 h7 h8 h9 h10 h11 h12
    simp_all [WorkerPc.holdsBufferMap, MainPc.holdsBufferMap]
  · clear h1 h2 h3 h4 h5 h8 h9 h10 h11 h12
    simp_all
  · clear h1 h2 h3 h4 h5 h6 h8 h9 h10 h11 h12
    simp_all
  · clear h1 h2 h4 h7 h9 h10 h11 h12
    simp_all [Triggered, WorkerPc.sawGo, WorkerPc.doneDue, WorkerPc.reparsed, MainPc.willSetGo]
  · clear h1 h2 h5 h6 h7 h8 h10 h11 h12
    simp_all [Triggered, WorkerPc.sawGo, WorkerPc.doneDue, MainPc.willSetGo, MainPc.tokensDue,
      observe]
  · clear h1 h2 h5 h6 h7 h8 h9 h11 h12
    simp_all [Triggered, WorkerPc.sawGo, WorkerPc.doneDue, MainPc.willSetGo,
      MainPc.diagnosticsDue, observe]
  · clear h1 h2 h3 h4 h5 h6 h7 h8 h9 h10 h12
    simp_all [MainPc.pastJoin]
  · clear h1 h2 h3 h4 h5 h6 h7 h8 h9 h10 h11
    simp_all [MainPc.inDestructor]

theorem inv_main_pd_extract_call (s : State) (h : Inv s) (hw : s.mpc = .pd_extract_call) :
    Inv { s with tokens_from := observe s.tu, mpc := .pd_extract_run } := by
  obtain ⟨h1, h2, h3, h4, h5, h6, h7, h8, h9, h10, h11, h12⟩ := h
  refine ⟨h1, ?_, h3, h4, h5, ?_, ?_, ?_, ?_, ?_, ?_, ?_⟩
  · clear h3 h4 h5 h6 h7 h8 h9 h10 h11 h12
    simp_all [WorkerPc.holdsBufferMap, MainPc.holdsBufferMap]
  · clear h1 h2 h3 h4 h5 h8 h9 h10 h11 h12
    simp_all
  · clear h1 h2 h3 h4 h5 h6 h8 h9 h10 h11 h12
    simp_all
  · clear h1 h2 h4 h7 h9 h10 h11 h12
    simp_all [Triggered, WorkerPc.sawGo, WorkerPc.doneDue, WorkerPc.reparsed, MainPc.willSetGo]
  · clear h1 h2 h5 h6 h7 h8 h10 h11 h12
    cases hc : s.wpc <;> simp_all [Triggered, WorkerPc.sawGo, WorkerPc.doneDue,
      MainPc.willSetGo, MainPc.tokensDue, observe]
  · clear h1 h2 h5 h6 h7 h8 h9 h11 h12
    simp_all [Triggered, WorkerPc.sawGo, WorkerPc.doneDue, MainPc.willSetGo,
      MainPc.diagnosticsDue, observe]
  · clear h1 h2 h3 h4 h5 h6 h7 h8 h9 h10 h12
    simp_all [MainPc.pastJoin]
  · clear h1 h2 h3 h4 h5 h6 h7 h8 h9 h10 h11
    simp_all [MainPc.inDestructor]

theorem inv_main_pd_extract_run (s : State) (h : Inv s) (hw : s.mpc = .pd_extract_run) :
    Inv { s with mpc := .pd_diagnostics_call } := by
  obtain ⟨h1, h2, h3, h4, h5, h6, h7, h8, h9, h10, h11, h12⟩ := h
  refine ⟨h1, ?_, h3, h4, h5, ?_, ?_, ?_, ?_, ?_, ?_, ?_⟩
  · clear h3 h4 h5 h6 h7 h8 h9 h10 h11 h12
    simp_all [WorkerPc.holdsBufferMap, MainPc.holdsBufferMap]
  · clear h1 h2 h3 h4 h5 h8 h9 h10 h11 h12
    simp_all
  · clear h1 h2 h3 h4 h5 h6 h8 h9 h10 h11 h12
    simp_all
  · clear h1 h2 h4 h7 h9 h10 h11 h12
    simp_all [Triggered, WorkerPc.sawGo, WorkerPc.doneDue, WorkerPc.reparsed, MainPc.willSetGo]
  · clear h1 h2 h5 h6 h7 h8 h10 h11 h12
    simp_all [Triggered, WorkerPc.sawGo, WorkerPc.doneDue, MainPc.willSetGo, MainPc.tokensDue,
      observe]
  · clear h1 h2 h5 h6 h7 h8 h9 h11 h12
    simp_all [Triggered, WorkerPc.sawGo, WorkerPc.doneDue, MainPc.willSetGo,
      MainPc.diagnosticsDue, observe]
  · clear h1 h2 h3 h4 h5 h6 h7 h8 h9 h10 h12
    simp_all [MainPc.pastJoin]
  · clear h1 h2 h3 h4 h5 h6 h7 h8 h9 h10 h11
    simp_all [MainPc.inDestructor]

theorem inv_main_pd_diagnostics_call (s : State) (h : Inv s) (hw : s.mpc = .pd_diagnostics_call) :
    Inv { s with diagnostics_from := observe s.tu, mpc := .pd_diagnostics_run } := by
  obtain ⟨h1, h2, h3, h4, h5, h6, h7, h8, h9, h10, h11, h12⟩ := h
  refine ⟨h1, ?_, h3, h4, h5, ?_, ?_, ?_, ?_, ?_, ?_, ?_⟩
  · clear h3 h4 h5 h6 h7 h8 h9 h10 h11 h12
    simp_all [WorkerPc.holdsBufferMap, MainPc.holdsBufferMap]
  · clear h1 h2 h3 h4 h5 h8 h9 h10 h11 h12
    simp_all
  · clear h1 h2 h3 h4 h5 h6 h8 h9 h10 h11 h12
    simp_all
  · clear h1 h2 h4 h7 h9 h10 h11 h12
    simp_all [Triggered, WorkerPc.sawGo, WorkerPc.doneDue, WorkerPc.reparsed, MainPc.willSetGo]
  · clear h1 h2 h5 h6 h7 h8 h10 h11 h12
    simp_all [Triggered, WorkerPc.sawGo, WorkerPc.doneDue, MainPc.willSetGo, MainPc.tokensDue,
      observe]
  · clear h1 h2 h5 h6 h7 h8 h9 h11 h12
    cases hc : s.wpc <;> simp_all [Triggered, WorkerPc.sawGo, WorkerPc.doneDue,
      MainPc.willSetGo, MainPc.diagnosticsDue, observe]
  · clear h1 h2 h3 h4 h5 h6 h7 h8 h9 h10 h12
    simp_all [MainPc.pastJoin]
  · clear h1 h2 h3 h4 h5 h6 h7 h8 h9 h10 h11
    simp_all [MainPc.inDestructor]

theorem inv_main_pd_diagnostics_run (s : State) (h : Inv s) (hw : s.mpc = .pd_diagnostics_run) :
    Inv { s with mpc := .idle } := by
  obtain ⟨h1, h2, h3, h4, h5, h6, h7, h8, h9, h10, h11, h12⟩ := h
  refine ⟨h1, ?_, h3, h4, h5, ?_, ?_, ?_, ?_, ?_, ?_, ?_⟩
  · clear h3 h4 h5 h6 h7 h8 h9 h10 h11 h12
    simp_all [WorkerPc.holdsBufferMap, MainPc.holdsBufferMap]
  · clear h1 h2 h3 h4 h5 h8 h9 h10 h11 h12
    simp_all
  · clear h1 h2 h3 h4 h5 h6 h8 h9 h10 h11 h12
    simp_all
  · clear h1 h2 h4 h7 h9 h10 h11 h12
    simp_all [Triggered, WorkerPc.sawGo, WorkerPc.doneDue, WorkerPc.reparsed, MainPc.willSetGo]
  · clear h1 h2 h5 h6 h7 h8 h10 h11 h12
    simp_all [Triggered, WorkerPc.sawGo, WorkerPc.doneDue, MainPc.willSetGo, MainPc.tokensDue,
      observe]
  · clear h1 h2 h5 h6 h7 h8 h9 h11 h12
    simp_all [Triggered, WorkerPc.sawGo, WorkerPc.doneDue, MainPc.willSetGo,
      MainPc.diagnosticsDue, observe]
  · clear h1 h2 h3 h4 h5 h6 h7 h8 h9 h10 h12
    simp_all [MainPc.pastJoin]
  · clear h1 h2 h3 h4 h5 h6 h7 h8 h9 h10 h11
    simp_all [MainPc.inDestructor]

theorem inv_main_pd_set_go (s : State) (h : Inv s) (hw : s.mpc = .pd_set_go) :
    Inv { s with parse_thread_go := true, mpc := .idle } := by
  obtain ⟨h1, h2, h3, h4, h5, h6, h7, h8, h9, h10, h11, h12⟩ := h
  refine ⟨h1, ?_, ?_, h4, h5, ?_, ?_, ?_, ?_, ?_, ?_, ?_⟩
  · clear h3 h4 h5 h6 h7 h8 h9 h10 h11 h12
    simp_all [WorkerPc.holdsBufferMap, MainPc.holdsBufferMap]
  · clear h1 h2 h4 h5 h6 h7 h8 h9 h10 h11 h12
    simp_all [WorkerPc.sawGo]
  · clear h1 h2 h3 h4 h5 h8 h9 h10 h11 h12
    simp_all
  · clear h1 h2 h3 h4 h5 h6 h8 h9 h10 h11 h12
    simp_all
  · clear h1 h2 h4 h7 h9 h10 h11 h12
    simp_all [Triggered, WorkerPc.sawGo, WorkerPc.doneDue, WorkerPc.reparsed, MainPc.willSetGo]
  · clear h1 h2 h5 h6 h7 h8 h10 h11 h12
    simp_all [Triggered, WorkerPc.sawGo, WorkerPc.doneDue, MainPc.willSetGo, MainPc.tokensDue,
      observe]
  · clear h1 h2 h5 h6 h7 h8 h9 h11 h12
    simp_all [Triggered, WorkerPc.sawGo, WorkerPc.doneDue, MainPc.willSetGo,
      MainPc.diagnosticsDue, observe]
  · clear h1 h2 h3 h4 h5 h6 h7 h8 h9 h10 h12
    simp_all [MainPc.pastJoin]
  · clear h1 h2 h3 h4 h5 h6 h7 h8 h9 h10 h11
    simp_all [MainPc.inDestructor]

theorem inv_main_ch_set_mapped (s : State) (h : Inv s) (hw : s.mpc = .ch_set_mapped) :
    Inv { s with parse_thread_mapped := false, mpc := .ch_set_go } := by
  obtain ⟨h1, h2, h3, h4, h5, h6, h7, h8, h9, h10, h11, h12⟩ := h
  refine ⟨h1, ?_, h3, h4, h5, ?_, ?_, ?_, ?_, ?_, ?_, ?_⟩
  · clear h3 h4 h5 h6 h7 h8 h9 h10 h11 h12
    simp_all [WorkerPc.holdsBufferMap, MainPc.holdsBufferMap]
  · clear h1 h2 h3 h4 h5 h8 h9 h10 h11 h12
    simp_all
  · clear h1 h2 h3 h4 h5 h6 h8 h9 h10 h11 h12
    simp_all
  · clear h1 h2 h4 h7 h9 h10 h11 h12
    simp_all [Triggered, WorkerPc.sawGo, WorkerPc.doneDue, WorkerPc.reparsed, MainPc.willSetGo]
  · clear h1 h2 h5 h6 h7 h8 h10 h11 h12
    simp_all [Triggered, WorkerPc.sawGo, WorkerPc.doneDue, MainPc.willSetGo, MainPc.tokensDue,
      observe]
  · clear h1 h2 h5 h6 h7 h8 h9 h11 h12
    simp_all [Triggered, WorkerPc.sawGo, WorkerPc.doneDue, MainPc.willSetGo,
      MainPc.diagnosticsDue, observe]
  · clear h1 h2 h3 h4 h5 h6 h7 h8 h9 h10 h12
    simp_all [MainPc.pastJoin]
  · clear h1 h2 h3 h4 h5 h6 h7 h8 h9 h10 h11
    simp_all [MainPc.inDestructor]

theorem inv_main_ch_set_go (s : State) (h : Inv s) (hw : s.mpc = .ch_set_go) :
    Inv { s with parse_thread_go := true, mpc := .idle } := by
  obtain ⟨h1, h2, h3, h4, h5, h6, h7, h8, h9, h10, h11, h12⟩ := h
  refine ⟨h1, ?_, ?_, h4, h5, ?_, ?_, ?_, ?_, ?_, ?_, ?_⟩
  · clear h3 h4 h5 h6 h7 h8 h9 h10 h11 h12
    simp_all [WorkerPc.holdsBufferMap, MainPc.holdsBufferMap]
  · clear h1 h2 h4 h5 h6 h7 h8 h9 h10 h11 h12
    simp_all [WorkerPc.sawGo]
  · clear h1 h2 h3 h4 h5 h8 h9 h10 h11 h12
    simp_all
  · clear h1 h2 h3 h4 h5 h6 h8 h9 h10 h11 h12
    simp_all
  · clear h1 h2 h4 h7 h9 h10 h11 h12
    simp_all [Triggered, WorkerPc.sawGo, WorkerPc.doneDue, WorkerPc.reparsed, MainPc.willSetGo]
  · clear h1 h2 h5 h6 h7 h8 h10 h11 h12
    simp_all [Triggered, WorkerPc.sawGo, WorkerPc.doneDue, MainPc.willSetGo, MainPc.tokensDue,
      observe]
  · clear h1 h2 h5 h6 h7 h8 h9 h11 h12
    simp_all [Triggered, WorkerPc.sawGo, WorkerPc.doneDue, MainPc.willSetGo,
      MainPc.diagnosticsDue, observe]
  · clear h1 h2 h3 h4 h5 h6 h7 h8 h9 h10 h12
    simp_all [MainPc.pastJoin]
  · clear h1 h2 h3 h4 h5 h6 h7 h8 h9 h10 h11
    simp_all [MainPc.inDestructor]

theorem inv_main_ac_lock (s : State) (h : Inv s) (hw : s.mpc = .ac_lock) :
    Inv { s with parsing_mutex := some .main, mpc := .ac_call } := by
  obtain ⟨h1, h2, h3, h4, h5, h6, h7, h8, h9, h10, h11, h12⟩ := h
  refine ⟨h1, ?_, h3, h4, h5, ?_, ?_, ?_, ?_, ?_, ?_, ?_⟩
  · clear h3 h4 h5 h6 h7 h8 h9 h10 h11 h12
    simp_all [WorkerPc.holdsBufferMap, MainPc.holdsBufferMap]
  · clear h1 h2 h3 h4 h5 h8 h9 h10 h11 h12
    simp_all
  · clear h1 h2 h3 h4 h5 h6 h8 h9 h10 h11 h12
    simp_all
  · clear h1 h2 h4 h7 h9 h10 h11 h12
    simp_all [Triggered, WorkerPc.sawGo, WorkerPc.doneDue, WorkerPc.reparsed, MainPc.willSetGo]
  · clear h1 h2 h5 h6 h7 h8 h10 h11 h12
    simp_all [Triggered, WorkerPc.sawGo, WorkerPc.doneDue, MainPc.willSetGo, MainPc.tokensDue,
      observe]
  · clear h1 h2 h5 h6 h7 h8 h9 h11 h12
    simp_all [Triggered, WorkerPc.sawGo, WorkerPc.doneDue, MainPc.willSetGo,
      MainPc.diagnosticsDue, observe]
  · clear h1 h2 h3 h4 h5 h6 h7 h8 h9 h10 h12
    simp_all [MainPc.pastJoin]
  · clear h1 h2 h3 h4 h5 h6 h7 h8 h9 h10 h11
    simp_all [MainPc.inDestructor]

theorem inv_main_ac_call (s : State) (h : Inv s) (hw : s.mpc = .ac_call) :
    Inv { s with mpc := .ac_run } := by
  obtain ⟨h1, h2, h3, h4, h5, h6, h7, h8, h9, h10, h11, h12⟩ := h
  refine ⟨h1, ?_, h3, h4, h5, ?_, ?_, ?_, ?_, ?_, ?_, ?_⟩
  · clear h3 h4 h5 h6 h7 h8 h9 h10 h11 h12
    simp_all [WorkerPc.holdsBufferMap, MainPc.holdsBufferMap]
  · clear h1 h2 h3 h4 h5 h8 h9 h10 h11 h12
    simp_all
  · clear h1 h2 h3 h4 h5 h6 h8 h9 h10 h11 h12
    simp_all
  · clear h1 h2 h4 h7 h9 h10 h11 h12
    simp_all [Triggered, WorkerPc.sawGo, WorkerPc.doneDue, WorkerPc.reparsed, MainPc.willSetGo]
  · clear h1 h2 h5 h6 h7 h8 h10 h11 h12
    simp_all [Triggered, WorkerPc.sawGo, WorkerPc.doneDue, MainPc.willSetGo, MainPc.tokensDue,
      observe]
  · clear h1 h2 h5 h6 h7 h8 h9 h11 h12
    simp_all [Triggered, WorkerPc.sawGo, WorkerPc.doneDue, MainPc.willSetGo,
      MainPc.diagnosticsDue, observe]
  · clear h1 h2 h3 h4 h5 h6 h7 h8 h9 h10 h12
    simp_all [MainPc.pastJoin]
  · clear h1 h2 h3 h4 h5 h6 h7 h8 h9 h10 h11
    simp_all [MainPc.inDestructor]

theorem inv_main_ac_run (s : State) (h : Inv s) (hw : s.mpc = .ac_run) :
    Inv { s with mpc := .ac_unlock } := by
  obtain ⟨h1, h2, h3, h4, h5, h6, h7, h8, h9, h10, h11, h12⟩ := h
  refine ⟨h1, ?_, h3, h4, h5, ?_, ?_, ?_, ?_, ?_, ?_, ?_⟩
  · clear h3 h4 h5 h6 h7 h8 h9 h10 h11 h12
    simp_all [WorkerPc.holdsBufferMap, MainPc.holdsBufferMap]
  · clear h1 h2 h3 h4 h5 h8 h9 h10 h11 h12
    simp_all
  · clear h1 h2 h3 h4 h5 h6 h8 h9 h10 h11 h12
    simp_all
  · clear h1 h2 h4 h7 h9 h10 h11 h12
    simp_all [Triggered, WorkerPc.sawGo, WorkerPc.doneDue, WorkerPc.reparsed, MainPc.willSetGo]
  · clear h1 h2 h5 h6 h7 h8 h10 h11 h12
    simp_all [Triggered, WorkerPc.sawGo, WorkerPc.doneDue, MainPc.willSetGo, MainPc.tokensDue,
      observe]
  · clear h1 h2 h5 h6 h7 h8 h9 h11 h12
    simp_all [Triggered, WorkerPc.sawGo, WorkerPc.doneDue, MainPc.willSetGo,
      MainPc.diagnosticsDue, observe]
  · clear h1 h2 h3 h4 h5 h6 h7 h8 h9 h10 h12
    simp_all [MainPc.pastJoin]
  · clear h1 h2 h3 h4 h5 h6 h7 h8 h9 h10 h11
    simp_all [MainPc.inDestructor]

theorem inv_main_ac_unlock (s : State) (h : Inv s) (hw : s.mpc = .ac_unlock) :
    Inv { s with parsing_mutex := none, mpc := .idle } := by
  obtain ⟨h1, h2, h3, h4, h5, h6, h7, h8, h9, h10, h11, h12⟩ := h
  refine ⟨h1, ?_, h3, h4, h5, ?_, ?_, ?_, ?_, ?_, ?_, ?_⟩
  · clear h3 h4 h5 h6 h7 h8 h9 h10 h11 h12
    simp_all [WorkerPc.holdsBufferMap, MainPc.holdsBufferMap]
  · clear h1 h2 h3 h4 h5 h8 h9 h10 h11 h12
    simp_all
  · clear h1 h2 h3 h4 h5 h6 h8 h9 h10 h11 h12
    simp_all
  · clear h1 h2 h4 h7 h9 h10 h11 h12
    simp_all [Triggered, WorkerPc.sawGo, WorkerPc.doneDue, WorkerPc.reparsed, MainPc.willSetGo]
  · clear h1 h2 h5 h6 h7 h8 h10 h11 h12
    simp_all [Triggered, WorkerPc.sawGo, WorkerPc.doneDue, MainPc.willSetGo, MainPc.tokensDue,
      observe]
  · clear h1 h2 h5 h6 h7 h8 h9 h11 h12
    simp_all [Triggered, WorkerPc.sawGo, WorkerPc.doneDue, MainPc.willSetGo,
      MainPc.diagnosticsDue, observe]
  · clear h1 h2 h3 h4 h5 h6 h7 h8 h9 h10 h12
    simp_all [MainPc.pastJoin]
  · clear h1 h2 h3 h4 h5 h6 h7 h8 h9 h10 h11
    simp_all [MainPc.inDestructor]

theorem inv_main_d_set_stop (s : State) (h : Inv s) (hw : s.mpc = .d_set_stop) :
    Inv { s with parse_thread_stop := true, mpc := .d_join } := by
  obtain ⟨h1, h2, h3, h4, h5, h6, h7, h8, h9, h10, h11, h12⟩ := h
  refine ⟨h1, ?_, ?_, h4, h5, ?_, ?_, ?_, ?_, ?_, ?_, ?_⟩
  · clear h3 h4 h5 h6 h7 h8 h9 h10 h11 h12
    simp_all [WorkerPc.holdsBufferMap, MainPc.holdsBufferMap]
  · clear h1 h2 h4 h5 h6 h7 h8 h9 h10 h11 h12
    simp_all [WorkerPc.sawGo]
  · clear h1 h2 h3 h4 h5 h8 h9 h10 h11 h12
    simp_all
  · clear h1 h2 h3 h4 h5 h6 h8 h9 h10 h11 h12
    simp_all
  · clear h1 h2 h4 h7 h9 h10 h11 h12
    simp_all [Triggered, WorkerPc.sawGo, WorkerPc.doneDue, WorkerPc.reparsed, MainPc.willSetGo]
  · clear h1 h2 h5 h6 h7 h8 h10 h11 h12
    simp_all [Triggered, WorkerPc.sawGo, WorkerPc.doneDue, MainPc.willSetGo, MainPc.tokensDue,
      observe]
  · clear h1 h2 h5 h6 h7 h8 h9 h11 h12
    simp_all [Triggered, WorkerPc.sawGo, WorkerPc.doneDue, MainPc.willSetGo,
      MainPc.diagnosticsDue, observe]
  · clear h1 h2 h3 h4 h5 h6 h7 h8 h9 h10 h12
    simp_all [MainPc.pastJoin]
  · clear h1 h2 h3 h4 h5 h6 h7 h8 h9 h10 h11
    simp_all [MainPc.inDestructor]

theorem inv_main_d_join (s : State) (h : Inv s) (hw : s.mpc = .d_join) (hg : s.wpc = .exited) :
    Inv { s with mpc := .d_lock } := by
  obtain ⟨h1, h2, h3, h4, h5, h6, h7, h8, h9, h10, h11, h12⟩ := h
  refine ⟨h1, ?_, h3, h4, h5, ?_, ?_, ?_, ?_, ?_, ?_, ?_⟩
  · clear h3 h4 h5 h6 h7 h8 h9 h10 h11 h12
    simp_all [WorkerPc.holdsBufferMap, MainPc.holdsBufferMap]
  · clear h1 h2 h3 h4 h5 h8 h9 h10 h11 h12
    simp_all
  · clear h1 h2 h3 h4 h5 h6 h8 h9 h10 h11 h12
    simp_all
  · clear h1 h2 h4 h7 h9 h10 h11 h12
    simp_all [Triggered, WorkerPc.sawGo, WorkerPc.doneDue, WorkerPc.reparsed, MainPc.willSetGo]
  · clear h1 h2 h5 h6 h7 h8 h10 h11 h12
    simp_all [Triggered, WorkerPc.sawGo, WorkerPc.doneDue, MainPc.willSetGo, MainPc.tokensDue,
      observe]
  · clear h1 h2 h5 h6 h7 h8 h9 h11 h12
    simp_all [Triggered, WorkerPc.sawGo, WorkerPc.doneDue, MainPc.willSetGo,
      MainPc.diagnosticsDue, observe]
  · clear h1 h2 h3 h4 h5 h6 h7 h8 h9 h10 h12
    simp_all [MainPc.pastJoin]
  · clear h1 h2 h3 h4 h5 h6 h7 h8 h9 h10 h11
    simp_all [MainPc.inDestructor]

theorem inv_main_d_lock (s : State) (h : Inv s) (hw : s.mpc = .d_lock) :
    Inv { s with parsing_mutex := some .main, mpc := .d_unlock } := by
  obtain ⟨h1, h2, h3, h4, h5, h6, h7, h8, h9, h10, h11, h12⟩ := h
  refine ⟨h1, ?_, h3, h4, h5, ?_, ?_, ?_, ?_, ?_, ?_, ?_⟩
  · clear h3 h4 h5 h6 h7 h8 h9 h10 h11 h12
    simp_all [WorkerPc.holdsBufferMap, MainPc.holdsBufferMap]
  · clear h1 h2 h3 h4 h5 h8 h9 h10 h11 h12
    simp_all
  · clear h1 h2 h3 h4 h5 h6 h8 h9 h10 h11 h12
    simp_all
  · clear h1 h2 h4 h7 h9 h10 h11 h12
    simp_all [Triggered, WorkerPc.sawGo, WorkerPc.doneDue, WorkerPc.reparsed, MainPc.willSetGo]
  · clear h1 h2 h5 h6 h7 h8 h10 h11 h12
    simp_all [Triggered, WorkerPc.sawGo, WorkerPc.doneDue, MainPc.willSetGo, MainPc.tokensDue,
      observe]
  · clear h1 h2 h5 h6 h7 h8 h9 h11 h12
    simp_all [Triggered, WorkerPc.sawGo, WorkerPc.doneDue, MainPc.willSetGo,
      MainPc.diagnosticsDue, observe]
  · clear h1 h2 h3 h4 h5 h6 h7 h8 h9 h10 h12
    simp_all [MainPc.pastJoin]
  · clear h1 h2 h3 h4 h5 h6 h7 h8 h9 h10 h11
    simp_all [MainPc.inDestructor]

theorem inv_main_d_unlock (s : State) (h : Inv s) (hw : s.mpc = .d_unlock) :
    Inv { s with parsing_mutex := none, mpc := .destroyed } := by
  obtain ⟨h1, h2, h3, h4, h5, h6, h7, h8, h9, h10, h11, h12⟩ := h
  refine ⟨h1, ?_, h3, h4, h5, ?_, ?_, ?_, ?_, ?_, ?_, ?_⟩
  · clear h3 h4 h5 h6 h7 h8 h9 h10 h11 h12
    simp_all [WorkerPc.holdsBufferMap, MainPc.holdsBufferMap]
  · clear h1 h2 h3 h4 h5 h8 h9 h10 h11 h12
    simp_all
  · clear h1 h2 h3 h4 h5 h6 h8 h9 h10 h11 h12
    simp_all
  · clear h1 h2 h4 h7 h9 h10 h11 h12
    simp_all [Triggered, WorkerPc.sawGo, WorkerPc.doneDue, WorkerPc.reparsed, MainPc.willSetGo]
  · clear h1 h2 h5 h6 h7 h8 h10 h11 h12
    simp_all [Triggered, WorkerPc.sawGo, WorkerPc.doneDue, MainPc.willSetGo, MainPc.tokensDue,
      observe]
  · clear h1 h2 h5 h6 h7 h8 h9 h11 h12
    simp_all [Triggered, WorkerPc.sawGo, WorkerPc.doneDue, MainPc.willSetGo,
      MainPc.diagnosticsDue, observe]
  · clear h1 h2 h3 h4 h5 h6 h7 h8 h9 h10 h12
    simp_all [MainPc.pastJoin]
  · clear h1 h2 h3 h4 h5 h6 h7 h8 h9 h10 h11
    simp_all [MainPc.inDestructor]

theorem inv_main_edit (s : State) (h : Inv s) (hw : s.mpc = .idle) (content : String) :
    Inv { s with buffer := content, mpc := .ch_set_mapped } := by
  obtain ⟨h1, h2, h3, h4, h5, h6, h7, h8, h9, h10, h11, h12⟩ := h
  refine ⟨h1, ?_, h3, h4, h5, ?_, ?_, ?_, ?_, ?_, ?_, ?_⟩
  · clear h3 h4 h5 h6 h7 h8 h9 h10 h11 h12
    simp_all [WorkerPc.holdsBufferMap, MainPc.holdsBufferMap]
  · clear h1 h2 h3 h4 h5 h8 h9 h10 h11 h12
    simp_all
  · clear h1 h2 h3 h4 h5 h6 h8 h9 h10 h11 h12
    simp_all
  · clear h1 h2 h4 h7 h9 h10 h11 h12
    simp_all [Triggered, WorkerPc.sawGo, WorkerPc.doneDue, WorkerPc.reparsed, MainPc.willSetGo]
  · clear h1 h2 h5 h6 h7 h8 h10 h11 h12
    simp_all [Triggered, WorkerPc.sawGo, WorkerPc.doneDue, MainPc.willSetGo, MainPc.tokensDue,
      observe]
  · clear h1 h2 h5 h6 h7 h8 h9 h11 h12
    simp_all [Triggered, WorkerPc.sawGo, WorkerPc.doneDue, MainPc.willSetGo,
      MainPc.diagnosticsDue, observe]
  · clear h1 h2 h3 h4 h5 h6 h7 h8 h9 h10 h12
    simp_all [MainPc.pastJoin]
  · clear h1 h2 h3 h4 h5 h6 h7 h8 h9 h10 h11
    simp_all [MainPc.inDestructor]

theorem inv_main_complete (s : State) (h : Inv s) (hw : s.mpc = .idle) :
    Inv { s with mpc := .ac_lock } := by
  obtain ⟨h1, h2, h3, h4, h5, h6, h7, h8, h9, h10, h11, h12⟩ := h
  refine ⟨h1, ?_, h3, h4, h5, ?_, ?_, ?_, ?_, ?_, ?_, ?_⟩
  · clear h3 h4 h5 h6 h7 h8 h9 h10 h11 h12
    simp_all [WorkerPc.holdsBufferMap, MainPc.holdsBufferMap]
  · clear h1 h2 h3 h4 h5 h8 h9 h10 h11 h12
    simp_all
  · clear h1 h2 h3 h4 h5 h6 h8 h9 h10 h11 h12
    simp_all
  · clear h1 h2 h4 h7 h9 h10 h11 h12
    simp_all [Triggered, WorkerPc.sawGo, WorkerPc.doneDue, WorkerPc.reparsed, MainPc.willSetGo]
  · clear h1 h2 h5 h6 h7 h8 h10 h11 h12
    simp_all [Triggered, WorkerPc.sawGo, WorkerPc.doneDue, MainPc.willSetGo, MainPc.tokensDue,
      observe]
  · clear h1 h2 h5 h6 h7 h8 h9 h11 h12
    simp_all [Triggered, WorkerPc.sawGo, WorkerPc.doneDue, MainPc.willSetGo,
      MainPc.diagnosticsDue, observe]
  · clear h1 h2 h3 h4 h5 h6 h7 h8 h9 h10 h12
    simp_all [MainPc.pastJoin]
  · clear h1 h2 h3 h4 h5 h6 h7 h8 h9 h10 h11
    simp_all [MainPc.inDestructor]

theorem inv_main_destroy (s : State) (h : Inv s) (hw : s.mpc = .idle) :
    Inv { s with mpc := .d_set_stop } := by
  obtain ⟨h1, h2, h3, h4, h5, h6, h7, h8, h9, h10, h11, h12⟩ := h
  refine ⟨h1, ?_, h3, h4, h5, ?_, ?_, ?_, ?_, ?_, ?_, ?_⟩
  · clear h3 h4 h5 h6 h7 h8 h9 h10 h11 h12
    simp_all [WorkerPc.holdsBufferMap, MainPc.holdsBufferMap]
  · clear h1 h2 h3 h4 h5 h8 h9 h10 h11 h12
    simp_all
  · clear h1 h2 h3 h4 h5 h6 h8 h9 h10 h11 h12
    simp_all
  · clear h1 h2 h4 h7 h9 h10 h11 h12
    simp_all [Triggered, WorkerPc.sawGo, WorkerPc.doneDue, WorkerPc.reparsed, MainPc.willSetGo]
  · clear h1 h2 h5 h6 h7 h8 h10 h11 h12
    simp_all [Triggered, WorkerPc.sawGo, WorkerPc.doneDue, MainPc.willSetGo, MainPc.tokensDue,
      observe]
  · clear h1 h2 h5 h6 h7 h8 h9 h11 h12
    simp_all [Triggered, WorkerPc.sawGo, WorkerPc.doneDue, MainPc.willSetGo,
      MainPc.diagnosticsDue, observe]
  · clear h1 h2 h3 h4 h5 h6 h7 h8 h9 h10 h12
    simp_all [MainPc.pastJoin]
  · clear h1 h2 h3 h4 h5 h6 h7 h8 h9 h10 h11
    simp_all [MainPc.inDestructor]

theorem inv_main_dispatch_start (s : State) (h : Inv s) (hw : s.mpc = .idle) :
    Inv { s with pending_start := s.pending_start - 1, mpc := .ps_try_lock } := by
  obtain ⟨h1, h2, h3, h4, h5, h6, h7, h8, h9, h10, h11, h12⟩ := h
  refine ⟨h1, ?_, h3, h4, h5, ?_, ?_, ?_, ?_, ?_, ?_, ?_⟩
  · clear h3 h4 h5 h6 h7 h8 h9 h10 h11 h12
    simp_all [WorkerPc.holdsBufferMap, MainPc.holdsBufferMap]
  · clear h1 h2 h3 h4 h5 h8 h9 h10 h11 h12
    simp_all
  · clear h1 h2 h3 h4 h5 h6 h8 h9 h10 h11 h12
    simp_all
  · clear h1 h2 h4 h7 h9 h10 h11 h12
    simp_all [Triggered, WorkerPc.sawGo, WorkerPc.doneDue, WorkerPc.reparsed, MainPc.willSetGo]
  · clear h1 h2 h5 h6 h7 h8 h10 h11 h12
    simp_all [Triggered, WorkerPc.sawGo, WorkerPc.doneDue, MainPc.willSetGo, MainPc.tokensDue,
      observe]
  · clear h1 h2 h5 h6 h7 h8 h9 h11 h12
    simp_all [Triggered, WorkerPc.sawGo, WorkerPc.doneDue, MainPc.willSetGo,
      MainPc.diagnosticsDue, observe]
  · clear h1 h2 h3 h4 h5 h6 h7 h8 h9 h10 h12
    simp_all [MainPc.pastJoin]
  · clear h1 h2 h3 h4 h5 h6 h7 h8 h9 h10 h11
    simp_all [MainPc.inDestructor]

theorem inv_main_dispatch_done (s : State) (h : Inv s) (hw : s.mpc = .idle)
    (hg : 0 < s.pending_done) :
    Inv { s with pending_done := s.pending_done - 1, mpc := .pd_check } := by
  obtain ⟨h1, h2, h3, h4, h5, h6, h7, h8, h9, h10, h11, h12⟩ := h
  refine ⟨h1, ?_, h3, h4, h5, ?_, ?_, ?_, ?_, ?_, ?_, ?_⟩
  · clear h3 h4 h5 h6 h7 h8 h9 h10 h11 h12
    simp_all [WorkerPc.holdsBufferMap, MainPc.holdsBufferMap]
  · clear h1 h2 h3 h4 h5 h8 h9 h10 h11 h12
    simp_all
  · clear h1 h2 h3 h4 h5 h6 h8 h9 h10 h11 h12
    simp_all
  · clear h1 h2 h4 h7 h9 h10 h11 h12
    simp_all [Triggered, WorkerPc.sawGo, WorkerPc.doneDue, WorkerPc.reparsed, MainPc.willSetGo]
  · clear h1 h2 h5 h6 h7 h8 h10 h11 h12
    simp_all [Triggered, WorkerPc.sawGo, WorkerPc.doneDue, MainPc.willSetGo, MainPc.tokensDue,
      observe]
  · clear h1 h2 h5 h6 h7 h8 h9 h11 h12
    simp_all [Triggered, WorkerPc.sawGo, WorkerPc.doneDue, MainPc.willSetGo,
      MainPc.diagnosticsDue, observe]
  · clear h1 h2 h3 h4 h5 h6 h7 h8 h9 h10 h12
    simp_all [MainPc.pastJoin]
  · clear h1 h2 h3 h4 h5 h6 h7 h8 h9 h10 h11
    simp_all [MainPc.inDestructor]
theorem inv_init (content : String) : Inv (init content) := by
  constructor <;>
    simp [init, WorkerPc.holdsBufferMap, MainPc.holdsBufferMap, WorkerPc.reparsed,
      WorkerPc.sawGo, MainPc.pastJoin, MainPc.inDestructor]

theorem inv_workerStep (s s' : State) (h : Inv s) (hs : workerStep s = some s') : Inv s' := by
  unfold workerStep at hs
  split at hs
  · rename_i hw
    split at hs
    · rename_i hg
      cases hs
      exact inv_worker_wait_go_set s h hw hg
    · rename_i hg
      cases hs
      exact inv_worker_wait_go_clear s h hw (by simpa using hg)
  · rename_i hw
    split at hs
    · rename_i hg
      cases hs
      exact inv_worker_wait_stop_set s h hw hg
    · rename_i hg
      cases hs
      exact inv_worker_wait_stop_clear s h hw (by simpa using hg)
  · rename_i hw
    split at hs
    · rename_i hg
      cases hs
      exact inv_worker_check_stop_set s h hw hg
    · rename_i hg
      cases hs
      exact inv_worker_check_stop_clear s h hw (by simpa using hg)
  · rename_i hw
    split at hs
    · rename_i hg
      cases hs
      exact inv_worker_check_mapped_clear s h hw (by simpa using hg)
    · rename_i hg
      cases hs
      exact inv_worker_check_mapped_set s h hw (by simpa using hg)
  · rename_i hw
    cases hs
    exact inv_worker_clear_go s h hw
  · rename_i hw
    cases hs
    exact inv_worker_emit_start s h hw
  · rename_i hw
    split at hs
    · rename_i hg
      cases hs
      exact inv_worker_recheck_mapped_set s h hw hg
    · rename_i hg
      cases hs
      exact inv_worker_recheck_mapped_clear s h hw (by simpa using hg)
  · rename_i hw
    split at hs
    · cases hs
      exact inv_worker_try_parsing_free s h hw
    · cases hs
      exact inv_worker_try_parsing_held s h hw
  · rename_i hw
    split at hs
    · rename_i hg
      cases hs
      exact inv_worker_try_buffer_map_free s h hw hg
    · cases hs
      exact inv_worker_try_buffer_map_held s h hw
  · rename_i hw
    cases hs
    exact inv_worker_call_reparse s h hw
  · rename_i hw
    cases hs
    exact inv_worker_in_reparse s h hw
  · rename_i hw
    cases hs
    exact inv_worker_clear_go_done s h hw
  · rename_i hw
    cases hs
    exact inv_worker_unlock_parsing s h hw
  · rename_i hw
    cases hs
    exact inv_worker_unlock_buffer_map s h hw
  · rename_i hw
    cases hs
    exact inv_worker_emit_done s h hw
  · cases hs

theorem inv_mainStep (s s' : State) (h : Inv s) (hs : mainStep s = some s') : Inv s' := by
  unfold mainStep at hs
  split at hs
  · cases hs
  · rename_i hw
    split at hs
    · rename_i hg
      cases hs
      exact inv_main_ps_try_lock_free s h hw hg
    · cases hs
      exact inv_main_ps_try_lock_held s h hw
  · rename_i hw
    cases hs
    exact inv_main_ps_copy s h hw
  · rename_i hw
    cases hs
    exact inv_main_ps_set_mapped s h hw
  · rename_i hw
    cases hs
    exact inv_main_ps_unlock s h hw
  · rename_i hw
    cases hs
    exact inv_main_ps_set_go s h hw
  · rename_i hw
    split at hs
    · rename_i hg
      cases hs
      exact inv_main_pd_check_set s h hw hg
    · rename_i hg
      cases hs
      exact inv_main_pd_check_clear s h hw (by simpa using hg)
  · rename_i hw
    cases hs
    exact inv_main_pd_extract_call s h hw
  · rename_i hw
    cases hs
    exact inv_main_pd_extract_run s h hw
  · rename_i hw
    cases hs
    exact inv_main_pd_diagnostics_call s h hw
  · rename_i hw
    cases hs
    exact inv_main_pd_diagnostics_run s h hw
  · rename_i hw
    cases hs
    exact inv_main_pd_set_go s h hw
  · rename_i hw
    cases hs
    exact inv_main_ch_set_mapped s h hw
  · rename_i hw
    cases hs
    exact inv_main_ch_set_go s h hw
  · rename_i hw
    split at hs
    · cases hs
      exact inv_main_ac_lock s h hw
    · cases hs
  · rename_i hw
    cases hs
    exact inv_main_ac_call s h hw
  · rename_i hw
    cases hs
    exact inv_main_ac_run s h hw
  · rename_i hw
    cases hs
    exact inv_main_ac_unlock s h hw
  · rename_i hw
    cases hs
    exact inv_main_d_set_stop s h hw
  · rename_i hw
    split at hs
    · rename_i hg
      cases hs
      exact inv_main_d_join s h hw hg
    · cases hs
  · rename_i hw
    split at hs
    · cases hs
      exact inv_main_d_lock s h hw
    · cases hs
  · rename_i hw
    cases hs
    exact inv_main_d_unlock s h hw
  · cases hs

theorem inv_step (s s' : State) (a : Action) (h : Inv s) (hs : step s a = some s') :
    Inv s' := by
  cases a with
  | worker => exact inv_workerStep s s' h hs
  | main => exact inv_mainStep s s' h hs
  | edit content =>
    simp only [step] at hs
    split at hs
    · rename_i hw
      cases hs
      exact inv_main_edit s h hw content
    · cases hs
  | complete =>
    simp only [step] at hs
    split at hs
    · rename_i hw
      cases hs
      exact inv_main_complete s h hw
    · cases hs
  | destroy =>
    simp only [step] at hs
    split at hs
    · rename_i hw
      cases hs
      exact inv_main_destroy s h hw
    · cases hs
  | dispatch_start =>
    simp only [step] at hs
    split at hs
    · rename_i hw
      cases hs
      exact inv_main_dispatch_start s h hw.1
    · cases hs
  | dispatch_done =>
    simp only [step] at hs
    split at hs
    · rename_i hw
      cases hs
      exact inv_main_dispatch_done s h hw.1 hw.2
    · cases hs

theorem inv_run (s s' : State) (actions : List Action) (h : Inv s)
    (hs : run s actions = some s') : Inv s' := by
  induction actions generalizing s with
  | nil =>
    simp only [run, Option.some.injEq] at hs
    subst hs
    exact h
  | cons a rest ih =>
    simp only [run] at hs
    split at hs
    · cases hs
    · rename_i s1 h1
      exact ih s1 (inv_step s s1 a h h1) hs

theorem inv_reachable (s : State) (h : Reachable s) : Inv s := by
  obtain ⟨content, actions, hr⟩ := h
  exact inv_run _ _ actions (inv_init content) hr

/-! ## The coordinator: shutdown, locking, coalescing -/

theorem settledState_reachable : Reachable settledState :=
  ⟨"a", openAndSettle, by decide⟩

theorem destroyedState_reachable : Reachable destroyedState :=
  ⟨"a", destroyAtOnce, by decide⟩

theorem reparsingState_reachable : Reachable reparsingState :=
  ⟨"a", intoReparse, by decide⟩

/-- C1 (as stated, refuted). A backend call after `parse_thread_stop` is set: the
destructor sets the flag when the worker has passed its stop check, and the worker's
next statement enters `reparse`. -/
theorem reparse_begins_after_stop :
    (run (init "a") stopAfterCheck).map
        (fun s => (s.parse_thread_stop, s.mpc, s.wpc, workerInBackend s)) =
      some (true, MainPc.d_join, WorkerPc.call_reparse, false) ∧
    (run (init "a") (stopAfterCheck ++ [Action.worker])).map
        (fun s => (s.parse_thread_stop, s.mpc, s.wpc, workerInBackend s)) =
      some (true, MainPc.d_join, WorkerPc.in_reparse, true) := by
  decide

/-- C1 (amended). Safe shutdown: in every reachable state, once `parse_thread_stop` is
set the main thread is in the destructor and makes no backend call; while `reparse`
executes the destructor cannot get past `join()`; once it is past `join()` the worker
has exited; and once it has returned no thread is in a backend call and no further
step is possible. -/
theorem safe_shutdown (s : State) (h : Reachable s) :
    (s.parse_thread_stop = true → s.mpc.inDestructor = true ∧ mainInBackend s = false) ∧
    (s.mpc = .d_join → workerInBackend s = true → step s .main = none) ∧
    (s.mpc.pastJoin = true → s.wpc = .exited ∧ workerInBackend s = false) ∧
    (s.mpc = .destroyed →
      workerInBackend s = false ∧ mainInBackend s = false ∧ ∀ a, step s a = none) := by
  have hi := inv_reachable s h
  refine ⟨?_, ?_, ?_, ?_⟩
  · intro hs
    have hd := hi.stopping hs
    refine ⟨hd, ?_⟩
    cases hm : s.mpc <;> simp_all [MainPc.inDestructor, mainInBackend]
  · intro hm hw
    have hw' : s.wpc = .in_reparse := by simpa [workerInBackend] using hw
    simp [step, mainStep, hm, hw']
  · intro hp
    have he := hi.joined hp
    exact ⟨he, by simp [workerInBackend, he]⟩
  · intro hm
    have he := hi.joined (by simp [hm, MainPc.pastJoin])
    refine ⟨by simp [workerInBackend, he], by simp [mainInBackend, hm], ?_⟩
    intro a
    cases a <;> simp [step, workerStep, mainStep, he, hm]

theorem safe_shutdown_witness :
    Reachable destroyedState ∧
    ((destroyedState.parse_thread_stop = true →
      destroyedState.mpc.inDestructor = true ∧ mainInBackend destroyedState = false) ∧
    (destroyedState.mpc = .d_join → workerInBackend destroyedState = true →
      step destroyedState .main = none) ∧
    (destroyedState.mpc.pastJoin = true →
      destroyedState.wpc = .exited ∧ workerInBackend destroyedState = false) ∧
    (destroyedState.mpc = .destroyed →
      workerInBackend destroyedState = false ∧ mainInBackend destroyedState = false ∧
      ∀ a, step destroyedState a = none)) :=
  ⟨destroyedState_reachable, safe_shutdown destroyedState destroyedState_reachable⟩

/-- C2 (the code at the failing execution). The `parse_done` handler of a first cycle
extracts the tokens while the `reparse` of a second cycle is executing: both threads
are in a backend call, and `parsing_mutex` is held by the worker, not by the handler. -/
theorem extraction_overlaps_reparse :
    (run (init "a") extractDuringReparse).map
        (fun s => (s.wpc, workerInBackend s, s.mpc, mainInBackend s, s.parsing_mutex)) =
      some (WorkerPc.in_reparse, true, MainPc.pd_extract_run, true, some Holder.worker) := by
  decide

/-- C3 (the code at the failing execution). The worker finds `parse_thread_mapped` set,
`parsing_mutex` free and the snapshot lock held by the `parse_start` handler; its
iteration performs no `reparse` but ends holding `parsing_mutex`; after the handler has
released the snapshot lock the next iteration fails on `parsing_mutex` and again
performs no `reparse`, and a completion request then blocks. -/
theorem try_lock_keeps_parsing_mutex :
    (run (init "a") snapshotLockHeld).map
        (fun s => (s.wpc, s.parse_thread_mapped, s.parsing_mutex,
          s.parse_thread_buffer_map_mutex)) =
      some (WorkerPc.check_mapped, true, none, some Holder.main) ∧
    (run (init "a") (snapshotLockHeld ++ workerSteps 4)).map
        (fun s => (s.wpc, s.parsing_mutex, s.parse_thread_buffer_map_mutex,
          s.tu.generation)) =
      some (WorkerPc.wait_go, some Holder.worker, some Holder.main, 0) ∧
    (run (init "a") (snapshotLockHeld ++ workerSteps 4 ++ mainSteps 2 ++ workerSteps 5)).map
        (fun s => (s.wpc, s.parsing_mutex, s.parse_thread_buffer_map_mutex,
          s.tu.generation)) =
      some (WorkerPc.wait_go, some Holder.worker, none, 0) ∧
    run (init "a") (snapshotLockHeld ++ workerSteps 4 ++ mainSteps 2 ++ workerSteps 5 ++
        [Action.complete, Action.main]) = none := by
  decide

/-- In a reachable state that is quiescent between handler runs, a `reparse` has been
called, the content last passed to it is the buffer content, no `reparse` is
executing, and the latest token and diagnostic extractions read that parse. -/
theorem quiescentIdle_settled (s : State) (hr : Reachable s) (hq : QuiescentIdle s) :
    0 < s.tu.generation ∧ s.tu.content = s.buffer ∧ s.tu.busy = false ∧
    s.tokens_from = some s.tu.generation ∧ s.diagnostics_from = some s.tu.generation := by
  have hi := inv_reachable s hr
  obtain ⟨⟨hstop, hgo, hps, hpd, hw⟩, hm⟩ := hq
  have hdue : s.wpc.doneDue = false := by
    rcases hw with hw | hw <;> simp [hw, WorkerPc.doneDue]
  have hnt : ¬ Triggered s := by
    unfold Triggered
    rw [hps, hpd, hm, hdue]
    rcases hw with hw | hw <;> simp [hw, MainPc.willSetGo]
  obtain ⟨_, hc, hg⟩ := hi.settled hstop hgo hnt
  refine ⟨hg, hc, ?_, ?_, ?_⟩
  · cases hb : s.tu.busy
    · rfl
    · have := hi.busy_in_reparse hb
      rcases hw with hw | hw <;> simp [hw] at this
  · exact hi.tokens_current hstop hgo hnt hpd hdue (by simp [hm, MainPc.tokensDue])
  · exact hi.diagnostics_current hstop hgo hnt hpd hdue (by simp [hm, MainPc.diagnosticsDue])

/-- C5 (as stated, refuted). The dirty flag is still set while `reparse` executes; an
edit arrives during the `reparse`, and when the cycle ends the flag is clear although
the buffer is no longer what was parsed. -/
theorem dirty_flag_cleared_after_reparse :
    (run (init "a") intoReparse).map
        (fun s => (s.wpc, s.parse_thread_go)) = some (WorkerPc.in_reparse, true) ∧
    (run (init "a") (intoReparse ++ [Action.edit "b"] ++ mainSteps 2 ++ workerSteps 5)).map
        (fun s => (s.wpc, s.parse_thread_go, s.buffer, s.tu.content)) =
      some (WorkerPc.wait_go, false, "b", "a") := by
  decide

/-- C5 (amended). While `parse_thread_stop` is not set, in every reachable state: the
dirty flag is still set when `reparse` is called and while it executes; the worker
clears it in the statement after `reparse` has returned (line 205); whenever the flag
is clear while the snapshot is invalid or the content last passed to `reparse` is not
the buffer content, a `parse_start` is queued or about to be emitted, or a handler
that ends by setting the flag is running, or the snapshot is invalid and a
`parse_done` is queued, about to be emitted or at the start of its handler; and in
the execution where an edit's handler completes during the `reparse` and the next
handler run after the cycle is a `parse_done` handler, the cycle ends with the flag
clear and the snapshot invalid, that handler sets the flag again (line 189), and the
worker then leaves its wait loop and starts a new cycle (line 200). -/
theorem edit_during_reparse_recovered (s : State) (content : String) (hr : Reachable s)
    (hstop : s.parse_thread_stop = false) :
    (s.wpc = .call_reparse ∨ s.wpc = .in_reparse → s.parse_thread_go = true) ∧
    (s.wpc = .clear_go_done →
      ∃ s1, step s .worker = some s1 ∧ s1.wpc = .unlock_parsing ∧
        s1.parse_thread_go = false) ∧
    (s.parse_thread_go = false → s.parse_thread_mapped = false ∨ s.tu.content ≠ s.buffer →
      Triggered s) ∧
    (s.wpc = .in_reparse → s.mpc = .idle →
      ∃ s1 s2 s3,
        run s ([Action.edit content] ++ mainSteps 2 ++ workerSteps 5) = some s1 ∧
        s1.wpc = .wait_go ∧ s1.parse_thread_go = false ∧ s1.parse_thread_mapped = false ∧
        run s1 ([Action.dispatch_done] ++ mainSteps 2) = some s2 ∧
        s2.mpc = .idle ∧ s2.parse_thread_go = true ∧ s2.parse_thread_mapped = false ∧
        run s2 (workerSteps 3) = some s3 ∧ s3.wpc = .clear_go) := by
  have hi := inv_reachable s hr
  refine ⟨?_, ?_, ?_, ?_⟩
  · intro hw
    apply hi.go_seen hstop
    rcases hw with hw | hw <;> simp [hw, WorkerPc.sawGo]
  · intro hw
    simp [step, workerStep, hw]
  · intro hg hm
    by_contra hnt
    obtain ⟨h1, h2, _⟩ := hi.settled hstop hg hnt
    rcases hm with hm | hm
    · rw [hm] at h1
      cases h1
    · exact hm h2
  · intro hw hm
    simp [run, step, workerStep, mainStep, mainSteps, workerSteps, List.replicate, hw, hm,
      hstop]

theorem edit_during_reparse_recovered_witness :
    Reachable reparsingState ∧ reparsingState.parse_thread_stop = false ∧
    ((reparsingState.wpc = .call_reparse ∨ reparsingState.wpc = .in_reparse →
      reparsingState.parse_thread_go = true) ∧
    (reparsingState.wpc = .clear_go_done →
      ∃ s1, step reparsingState .worker = some s1 ∧ s1.wpc = .unlock_parsing ∧
        s1.parse_thread_go = false) ∧
    (reparsingState.parse_thread_go = false →
      reparsingState.parse_thread_mapped = false ∨
        reparsingState.tu.content ≠ reparsingState.buffer →
      Triggered reparsingState) ∧
    (reparsingState.wpc = .in_reparse → reparsingState.mpc = .idle →
      ∃ s1 s2 s3,
        run reparsingState ([Action.edit "b"] ++ mainSteps 2 ++ workerSteps 5) = some s1 ∧
        s1.wpc = .wait_go ∧ s1.parse_thread_go = false ∧ s1.parse_thread_mapped = false ∧
        run s1 ([Action.dispatch_done] ++ mainSteps 2) = some s2 ∧
        s2.mpc = .idle ∧ s2.parse_thread_go = true ∧ s2.parse_thread_mapped = false ∧
        run s2 (workerSteps 3) = some s3 ∧ s3.wpc = .clear_go)) :=
  ⟨reparsingState_reachable, rfl,
    edit_during_reparse_recovered reparsingState "b" reparsingState_reachable rfl⟩

/-! ## The published annotations at quiescence -/

theorem viewRun_fst (env : Environment) (v v' : State × Annotations) (actions : List Action)
    (h : viewRun env v actions = some v') : run v.1 actions = some v'.1 := by
  induction actions generalizing v with
  | nil =>
    simp only [viewRun, Option.some.injEq] at h
    subst h
    rfl
  | cons a rest ih =>
    simp only [viewRun] at h
    split at h
    · cases h
    · rename_i v1 h1
      unfold viewStep at h1
      split at h1
      · cases h1
      · rename_i s1 hs1
        cases h1
        simp only [run, hs1]
        exact ih _ h

theorem reachable_of_viewReachable (env : Environment) (v : State × Annotations)
    (h : ViewReachable env v) : Reachable v.1 := by
  obtain ⟨content, actions, hr⟩ := h
  exact ⟨content, actions, viewRun_fst env _ _ actions hr⟩

theorem reExtract_eq_highlight (env : Environment) (content : String) (prev : Annotations) :
    reExtract env.config env.file_path env.underline_rgba (env.parse content) prev =
      .ok (update_diagnostics env.config env.file_path env.underline_rgba (env.parse content)
        (highlight env content prev)) := by
  simp only [reExtract, highlight, update_syntax_eq]

theorem reExtract_direct (env : Environment) (content : String) (prev r : Annotations)
    (h : reExtract env.config env.file_path env.underline_rgba (env.parse content) prev =
      .ok r) :
    r.type_tooltips = (directAnnotations env content).type_tooltips ∧
    r.diagnostic_tooltips = (directAnnotations env content).diagnostic_tooltips ∧
    ((extract_tokens env.file_path (env.parse content) prev).1 ≠ [] →
      r = directAnnotations env content) := by
  rw [reExtract_eq_highlight] at h
  cases h
  have hh : ∀ a : Annotations, highlight env content a =
      if extract_tokens_loop (env.parse content).tokens [] = [] then
        update_types env.file_path (env.parse content).tokens a
      else { update_types env.file_path (env.parse content).tokens a with
        tags := (extract_tokens_loop (env.parse content).tokens []).filterMap fun range =>
          (env.config.types.lookup (toString range.kind)).map fun name =>
            rangeTag name range } := by
    intro a
    simp only [highlight, extract_tokens, update_syntax_eq]
  unfold directAnnotations
  rw [hh prev, hh ⟨[], [], []⟩]
  by_cases hr : extract_tokens_loop (env.parse content).tokens [] = []
  · rw [if_pos hr, if_pos hr]
    refine ⟨rfl, ?_, fun hne => absurd hr hne⟩
    simp [update_diagnostics, update_diagnostics_loop_eq]
  · rw [if_neg hr, if_neg hr]
    refine ⟨rfl, ?_, fun _ => ?_⟩
    · simp [update_diagnostics, update_diagnostics_loop_eq]
    · simp [update_diagnostics, update_diagnostics_loop_eq, update_types]

theorem viewInv_init (env : Environment) (content : String) :
    ViewInv env (viewInit env content) := by
  constructor <;> simp [viewInit, init, MainPc.betweenExtractions]

theorem viewInv_frame (env : Environment) (s s' : State) (a : Annotations)
    (h : ViewInv env (s, a)) (ht : s'.tokens_from = s.tokens_from)
    (hd : s'.diagnostics_from = s.diagnostics_from) (htu : s'.tu = s.tu ∨
      (s'.tu.generation = s.tu.generation ∧ s'.tu.content = s.tu.content))
    (hb : s'.mpc.betweenExtractions = true → s.mpc.betweenExtractions = true)
    (he : s'.mpc.extracting = false → s.mpc.extracting = false) : ViewInv env (s', a) := by
  have hg : s'.tu.generation = s.tu.generation := by
    rcases htu with h1 | h1
    · rw [h1]
    · exact h1.1
  have hc : s'.tu.content = s.tu.content := by
    rcases htu with h1 | h1
    · rw [h1]
    · exact h1.2
  obtain ⟨h1, h2, h3, h4⟩ := h
  simp only at h1 h2 h3 h4
  refine ⟨?_, ?_, ?_, ?_⟩ <;> simp only [ht, hd, hg, hc]
  · exact h1
  · exact h2
  · exact fun x y => h3 x (hb y)
  · exact fun x y z => h4 x y (he z)

theorem viewInv_workerStep (env : Environment) (s s' : State) (a : Annotations)
    (h : ViewInv env (s, a)) (hs : workerStep s = some s') : ViewInv env (s', a) := by
  by_cases hw : s.wpc = .call_reparse
  · simp only [workerStep, hw, Option.some.injEq] at hs
    subst hs
    obtain ⟨h1, h2, _, _⟩ := h
    simp only at h1 h2
    refine ⟨?_, ?_, ?_, ?_⟩
    · intro g hg
      exact Nat.le_succ_of_le (h1 g hg)
    · intro g hg
      exact Nat.le_succ_of_le (h2 g hg)
    · intro hg
      have := h1 _ hg
      simp only at this
      omega
    · intro hg
      have := h1 _ hg
      simp only at this
      omega
  · apply viewInv_frame env s s' a h
    all_goals
      unfold workerStep at hs
      split at hs
      all_goals first | (split at hs) | skip
      all_goals cases hs
      all_goals simp_all

theorem viewInv_mainStep (env : Environment) (s s' : State) (a : Annotations)
    (h : ViewInv env (s, a)) (hs : mainStep s = some s') :
    ViewInv env (s', publish env s a) := by
  by_cases h1 : s.mpc = .pd_extract_call
  · simp only [mainStep, h1, Option.some.injEq] at hs
    subst hs
    obtain ⟨x1, x2, _, _⟩ := h
    simp only at x1 x2
    refine ⟨?_, x2, ?_, ?_⟩
    · intro g hg
      simp only [observe] at hg
      split at hg
      · cases hg
      · cases hg
        exact Nat.le_refl _
    · simp [MainPc.betweenExtractions]
    · simp [MainPc.extracting]
  · by_cases h2 : s.mpc = .pd_extract_run
    · simp only [mainStep, h2, Option.some.injEq] at hs
      subst hs
      obtain ⟨x1, x2, _, _⟩ := h
      simp only at x1 x2
      refine ⟨x1, x2, ?_, ?_⟩
      · intro _ _
        exact ⟨a, by simp only [publish, h2]⟩
      · simp [MainPc.extracting]
    · by_cases h3 : s.mpc = .pd_diagnostics_call
      · simp only [mainStep, h3, Option.some.injEq] at hs
        subst hs
        obtain ⟨x1, x2, x3, _⟩ := h
        simp only at x1 x2 x3
        refine ⟨x1, ?_, ?_, ?_⟩
        · intro g hg
          simp only [observe] at hg
          split at hg
          · cases hg
          · cases hg
            exact Nat.le_refl _
        · intro hg _
          simp only [publish, h3]
          exact x3 hg (by simp [h3, MainPc.betweenExtractions])
        · simp [MainPc.extracting]
      · by_cases h4 : s.mpc = .pd_diagnostics_run
        · simp only [mainStep, h4, Option.some.injEq] at hs
          subst hs
          obtain ⟨x1, x2, x3, _⟩ := h
          simp only at x1 x2 x3
          refine ⟨x1, x2, ?_, ?_⟩
          · simp [MainPc.betweenExtractions]
          · intro hg _ _
            obtain ⟨prev, hp⟩ := x3 hg (by simp [h4, MainPc.betweenExtractions])
            refine ⟨prev, ?_⟩
            simp only [publish, h4]
            rw [reExtract_eq_highlight, hp]
        · have hpub : publish env s a = a := by
            unfold publish
            split
            · rename_i hc
              exact absurd hc h2
            · rename_i hc
              exact absurd hc h4
            · rfl
          rw [hpub]
          apply viewInv_frame env s s' a h
          all_goals
            unfold mainStep at hs
            split at hs
            all_goals first | (split at hs) | skip
            all_goals cases hs
            all_goals simp_all [MainPc.betweenExtractions, MainPc.extracting]

theorem viewInv_step (env : Environment) (v v' : State × Annotations) (act : Action)
    (h : ViewInv env v) (hs : viewStep env v act = some v') : ViewInv env v' := by
  obtain ⟨s, a⟩ := v
  unfold viewStep at hs
  split at hs
  · cases hs
  · rename_i s1 hs1
    cases hs
    cases act with
    | worker => exact viewInv_workerStep env s s1 a h hs1
    | main =>
      simp only [if_true]
      exact viewInv_mainStep env s s1 a h hs1
    | edit content =>
      simp only [step] at hs1
      split at hs1
      · rename_i hm
        cases hs1
        apply viewInv_frame env s _ a h <;>
          simp_all [MainPc.betweenExtractions, MainPc.extracting]
      · cases hs1
    | complete =>
      simp only [step] at hs1
      split at hs1
      · rename_i hm
        cases hs1
        apply viewInv_frame env s _ a h <;>
          simp_all [MainPc.betweenExtractions, MainPc.extracting]
      · cases hs1
    | destroy =>
      simp only [step] at hs1
      split at hs1
      · rename_i hm
        cases hs1
        apply viewInv_frame env s _ a h <;>
          simp_all [MainPc.betweenExtractions, MainPc.extracting]
      · cases hs1
    | dispatch_start =>
      simp only [step] at hs1
      split at hs1
      · rename_i hm
        cases hs1
        apply viewInv_frame env s _ a h <;>
          simp_all [MainPc.betweenExtractions, MainPc.extracting]
      · cases hs1
    | dispatch_done =>
      simp only [step] at hs1
      split at hs1
      · rename_i hm
        cases hs1
        apply viewInv_frame env s _ a h <;>
          simp_all [MainPc.betweenExtractions, MainPc.extracting]
      · cases hs1

theorem viewInv_run (env : Environment) (v v' : State × Annotations) (actions : List Action)
    (h : ViewInv env v) (hs : viewRun env v actions = some v') : ViewInv env v' := by
  induction actions generalizing v with
  | nil =>
    simp only [viewRun, Option.some.injEq] at hs
    subst hs
    exact h
  | cons a rest ih =>
    simp only [viewRun] at hs
    split at hs
    · cases hs
    · rename_i v1 h1
      exact ih v1 (viewInv_step env v v1 a h h1) hs

theorem viewInv_reachable (env : Environment) (v : State × Annotations)
    (h : ViewReachable env v) : ViewInv env v := by
  obtain ⟨content, actions, hr⟩ := h
  exact viewInv_run env _ _ actions (viewInv_init env content) hr

/-! ## After the worker has kept `parsing_mutex` -/

theorem leaked_workerStep (s s' : State) (h : Leaked s) (hs : workerStep s = some s') :
    Leaked s' ∧ s'.tu = s.tu := by
  obtain ⟨h1, h2, h3, h4⟩ := h
  unfold workerStep at hs
  split at hs
  all_goals first | (split at hs) | skip
  all_goals cases hs
  all_goals first
    | (simp_all [WorkerPc.holdsParsing]; done)
    | (refine ⟨⟨?_, ?_, ?_, ?_⟩, rfl⟩ <;> simp_all [WorkerPc.holdsParsing])

theorem leaked_mainStep (s s' : State) (h : Leaked s) (hs : mainStep s = some s') :
    Leaked s' ∧ s'.tu = s.tu := by
  obtain ⟨h1, h2, h3, h4⟩ := h
  unfold mainStep at hs
  split at hs
  all_goals first | (split at hs) | skip
  all_goals cases hs
  all_goals first
    | (simp_all [MainPc.holdsParsing]; done)
    | (refine ⟨⟨?_, ?_, ?_, ?_⟩, rfl⟩ <;>
        simp_all [MainPc.holdsParsing, MainPc.willSetGo])

theorem leaked_step (s s' : State) (a : Action) (h : Leaked s) (hs : step s a = some s') :
    Leaked s' ∧ s'.tu = s.tu := by
  cases a with
  | worker => exact leaked_workerStep s s' h hs
  | main => exact leaked_mainStep s s' h hs
  | edit content =>
    obtain ⟨h1, h2, h3, h4⟩ := h
    simp only [step] at hs
    split at hs
    · cases hs
      refine ⟨⟨?_, ?_, ?_, ?_⟩, rfl⟩ <;> simp_all [MainPc.holdsParsing, MainPc.willSetGo]
    · cases hs
  | complete =>
    obtain ⟨h1, h2, h3, h4⟩ := h
    simp only [step] at hs
    split at hs
    · cases hs
      refine ⟨⟨?_, ?_, ?_, ?_⟩, rfl⟩ <;> simp_all [MainPc.holdsParsing, MainPc.willSetGo]
    · cases hs
  | destroy =>
    obtain ⟨h1, h2, h3, h4⟩ := h
    simp only [step] at hs
    split at hs
    · cases hs
      refine ⟨⟨?_, ?_, ?_, ?_⟩, rfl⟩ <;> simp_all [MainPc.holdsParsing, MainPc.willSetGo]
    · cases hs
  | dispatch_start =>
    obtain ⟨h1, h2, h3, h4⟩ := h
    simp only [step] at hs
    split at hs
    · cases hs
      refine ⟨⟨?_, ?_, ?_, ?_⟩, rfl⟩ <;> simp_all [MainPc.holdsParsing, MainPc.willSetGo]
    · cases hs
  | dispatch_done =>
    obtain ⟨h1, h2, h3, h4⟩ := h
    simp only [step] at hs
    split at hs
    · cases hs
      refine ⟨⟨?_, ?_, ?_, ?_⟩, rfl⟩ <;> simp_all [MainPc.holdsParsing, MainPc.willSetGo]
    · cases hs

/-- Once the worker has kept `parsing_mutex`, it keeps it in every continuation and the
backend is never given another content. -/
theorem leaked_run (s s' : State) (actions : List Action) (h : Leaked s)
    (hs : run s actions = some s') : Leaked s' ∧ s'.tu = s.tu := by
  induction actions generalizing s with
  | nil =>
    simp only [run, Option.some.injEq] at hs
    subst hs
    exact ⟨h, rfl⟩
  | cons a rest ih =>
    simp only [run] at hs
    split at hs
    · cases hs
    · rename_i s1 h1
      obtain ⟨hl, htu⟩ := leaked_step s s1 a h h1
      obtain ⟨hl', htu'⟩ := ih s1 hl hs
      exact ⟨hl', htu'.trans htu⟩

/-- A view whose worker has kept `parsing_mutex` is not quiescent between handler
runs. -/
theorem leaked_not_quiescentIdle (s : State) (h : Leaked s) : ¬ QuiescentIdle s := by
  intro hq
  obtain ⟨⟨hstop, hgo, hps, _, hw⟩, hm⟩ := hq
  rcases h.dirty hstop with h1 | h1 | h1 | h1
  · rw [hgo] at h1
    cases h1
  · rw [hps] at h1
    exact absurd h1 (Nat.lt_irrefl 0)
  · rw [hm] at h1
    cases h1
  · rcases hw with hw | hw <;> rw [hw] at h1 <;> cases h1

theorem leakedState_reachable : Reachable leakedState :=
  ⟨"a", leak, by decide⟩

theorem leakedState_leaked : Leaked leakedState :=
  ⟨rfl, rfl, rfl, fun _ => Or.inl rfl⟩

/-- After the worker has kept `parsing_mutex` (the execution `leak`), in every
continuation the backend still holds the first parse, whatever the buffer becomes,
and the view is never quiescent between handler runs. -/
theorem leak_freezes_backend (actions : List Action) (s : State)
    (h : run leakedState actions = some s) :
    s.tu = leakedState.tu ∧ ¬ QuiescentIdle s :=
  ⟨(leaked_run leakedState s actions leakedState_leaked h).2,
    leaked_not_quiescentIdle s (leaked_run leakedState s actions leakedState_leaked h).1⟩

theorem editedView_reachable : ViewReachable exampleEnvironment editedView :=
  ⟨"a", editDuringReparse, by decide⟩

/-- C4 (as stated, refuted). A reachable state that meets the listed conditions (no
stop, dirty flag clear, nothing queued, worker waiting) while the `parse_done` handler
of the latest cycle has been delivered and has not yet run: a `reparse` has been made
(generation 1), and the published tokens are still those read from the first parse
(generation 0). -/
theorem quiescent_while_handler_runs :
    (run (init "a") handlingDone).map
        (fun s => (decide (Quiescent s), s.mpc, s.tu.generation, s.tokens_from,
          s.diagnostics_from)) =
      some (true, MainPc.pd_check, 1, some 0, none) := by
  decide

/-- C4 (amended). Eventual consistency of coalesced edits: in every reachable state of
the view that is quiescent between handler runs (no stop, dirty flag clear, nothing
queued, worker waiting, main thread idle) a `reparse` has been called, the snapshot
last passed to it is the current buffer content, no `reparse` is executing, tokens and
diagnostics were extracted after that `reparse` had returned, and the annotations are
the result of the `parse_done` re-extraction on the backend's parse of the buffer
content: their type tooltips and diagnostic tooltips are those computed by parsing
the buffer content directly, and so is the whole annotation set when that parse yields
a range. -/
theorem quiescent_published_current (env : Environment) (v : State × Annotations)
    (hr : ViewReachable env v) (hq : QuiescentIdle v.1) :
    0 < v.1.tu.generation ∧ v.1.tu.content = v.1.buffer ∧ v.1.tu.busy = false ∧
    v.1.tokens_from = some v.1.tu.generation ∧
    v.1.diagnostics_from = some v.1.tu.generation ∧
    (∃ prev, reExtract env.config env.file_path env.underline_rgba (env.parse v.1.buffer)
      prev = .ok v.2) ∧
    v.2.type_tooltips = (directAnnotations env v.1.buffer).type_tooltips ∧
    v.2.diagnostic_tooltips = (directAnnotations env v.1.buffer).diagnostic_tooltips ∧
    ((extract_tokens env.file_path (env.parse v.1.buffer) v.2).1 ≠ [] →
      v.2 = directAnnotations env v.1.buffer) := by
  obtain ⟨hg, hc, hb, ht, hd⟩ :=
    quiescentIdle_settled v.1 (reachable_of_viewReachable env v hr) hq
  have hp := (viewInv_reachable env v hr).published ht hd
    (by rw [hq.2]; rfl)
  rw [hc] at hp
  obtain ⟨prev, hprev⟩ := hp
  obtain ⟨h1, h2, h3⟩ := reExtract_direct env v.1.buffer prev v.2 hprev
  exact ⟨hg, hc, hb, ht, hd, ⟨prev, hprev⟩, h1, h2, h3⟩

theorem quiescent_published_current_witness :
    ViewReachable exampleEnvironment editedView ∧ QuiescentIdle editedView.1 ∧
    (extract_tokens exampleEnvironment.file_path
      (exampleEnvironment.parse editedView.1.buffer) editedView.2).1 ≠ [] ∧
    editedView.1.tu.content = editedView.1.buffer ∧
    editedView.2 = directAnnotations exampleEnvironment editedView.1.buffer :=
  ⟨editedView_reachable, by decide, by decide,
    (quiescent_published_current exampleEnvironment editedView editedView_reachable
      (by decide)).2.1,
    (quiescent_published_current exampleEnvironment editedView editedView_reachable
      (by decide)).2.2.2.2.2.2.2.2 (by decide)⟩

end Juci
